import Mathlib

/-!
# Simple-Dual-Filter: coefficient factory, update protocol and response curve

A shallow embedding of `Source/PluginProcessor.{h,cpp}` and of the response-curve
part of `Source/PluginEditor.cpp`.

Numbers: the C++ code computes in `float`/`double`.  The embedding is generic in a
linearly ordered field `K` with exact arithmetic (`ℚ` for evaluation, `ℝ` where
`pow`, `log10`, `sin`, `cos` and `sqrt` have to be the real functions); rounding is
not modelled.  The C math library is a parameter, `Libm K`.

JUCE is not part of `Source/`.  The JUCE functions and classes the sources call are
modelled here after what the spec says of them and the documented behaviour of the
library; each such definition says so in its comment.
-/

namespace SimpleDualFilter

/-! ## Library functions used by the sources -/

/-- The C math library functions the JUCE calls of the sources go through
(`std::pow`, `std::log10`, `std::sqrt`, `std::sin`, `std::cos`) and the constant
`MathConstants::pi`. -/
structure Libm (K : Type) where
  pow : K → K → K
  log10 : K → K
  sqrt : K → K
  sin : K → K
  cos : K → K
  pi : K

section Generic

variable {K : Type} [LinearOrderedField K]

/-- Modelled from the spec: `juce::jlimit (lowerLimit, upperLimit, value)` is a JUCE
library template, not under `Source/`; the spec calls it the clamp "to
`[20 Hz, sampleRate/2]`".  As in JUCE it tests the lower limit first:
`value < lower ? lower : (upper < value ? upper : value)`. -/
def jlimit (lowerLimit upperLimit valueToConstrain : K) : K :=
  if valueToConstrain < lowerLimit then lowerLimit
  else if upperLimit < valueToConstrain then upperLimit
  else valueToConstrain

/-- Modelled from the spec: `juce::jmax (a, b)`, a JUCE library template:
`a < b ? b : a`. -/
def jmax (a b : K) : K := if a < b then b else a

/-- The default `minusInfinityDb` of `juce::Decibels`, -100 dB. -/
def defaultMinusInfinitydB : K := -100

/-- Modelled from the spec: `juce::Decibels::decibelsToGain` ("dB-to-linear"), a JUCE
library function: `decibels > -100 ? pow (10, decibels * 0.05) : 0`. -/
def decibelsToGain (m : Libm K) (decibels : K) : K :=
  if defaultMinusInfinitydB < decibels then m.pow 10 (decibels * (1 / 20)) else 0

/-- Modelled from the spec: `juce::Decibels::gainToDecibels` ("convert the product to
decibels"), a JUCE library function:
`gain > 0 ? jmax (-100, log10 (gain) * 20) : -100`. -/
def gainToDecibels (m : Libm K) (gain : K) : K :=
  if 0 < gain then jmax defaultMinusInfinitydB (m.log10 gain * 20)
  else defaultMinusInfinitydB

/-! ## `PluginProcessor.h`: the settings snapshot -/

/-- `struct ChainSettings` of `PluginProcessor.h`, all nine `float` fields. -/
structure ChainSettings (K : Type) where
  peak1Freq : K
  peak1GainInDecibels : K
  peak1Quality : K
  peak2Freq : K
  peak2GainInDecibels : K
  peak2Quality : K
  span : K
  balance : K
  outputGain : K
deriving DecidableEq

/-- A default-constructed `ChainSettings`: the member initialisers of the struct. -/
def ChainSettings.init : ChainSettings K :=
  { peak1Freq := 0, peak1GainInDecibels := 0, peak1Quality := 1,
    peak2Freq := 0, peak2GainInDecibels := 0, peak2Quality := 1,
    span := 0, balance := 0, outputGain := 0 }

/-- The six fields a snapshot reads lie in the ranges `createParameterLayout`
declares for their parameters. -/
structure ChainSettings.InRange (s : ChainSettings K) : Prop where
  peak1Freq_lo : 20 ≤ s.peak1Freq
  peak1Freq_hi : s.peak1Freq ≤ 10000
  peak1Gain_lo : -24 ≤ s.peak1GainInDecibels
  peak1Gain_hi : s.peak1GainInDecibels ≤ 24
  peak1Quality_lo : 1 / 10 ≤ s.peak1Quality
  peak1Quality_hi : s.peak1Quality ≤ 10
  span_lo : 0 ≤ s.span
  span_hi : s.span ≤ 10
  balance_lo : -12 ≤ s.balance
  balance_hi : s.balance ≤ 12
  outputGain_lo : -60 ≤ s.outputGain
  outputGain_hi : s.outputGain ≤ 0

/-! ## `PluginProcessor.cpp`: the coefficient factory -/

/-- The local `spanFactor` of `makePeakFilter2`: `1.0 + (chainSettings.span / 2.0)`. -/
def spanFactor (chainSettings : ChainSettings K) : K :=
  1 + chainSettings.span / 2

/-- The local `peak2Freq` of `makePeakFilter2`, the centre frequency it passes on:
`jlimit (20.0, sampleRate / 2.0, chainSettings.peak1Freq * spanFactor)`. -/
def peak2Freq (chainSettings : ChainSettings K) (sampleRate : K) : K :=
  jlimit 20 (sampleRate / 2) (chainSettings.peak1Freq * spanFactor chainSettings)

/-! ## JUCE DSP classes the chain is built from -/

/-- Modelled from the spec: `juce::dsp::IIR::Coefficients<float>`, the "small
fixed-size numeric vector representing an IIR biquad's transfer-function
coefficients" (JUCE library class, not under `Source/`).  It stores the
coefficients already divided by `a0`: `b0 b1 .. a1 a2 ..`. -/
structure Coefficients (K : Type) where
  coefficients : List K
deriving DecidableEq

/-- Modelled from the spec: `Coefficients::getFilterOrder`,
`(coefficients.size() - 1) / 2`. -/
def Coefficients.getFilterOrder (c : Coefficients K) : Nat :=
  (c.coefficients.length - 1) / 2

/-- Modelled from the spec: the first-order constructor `Coefficients (b0, b1, a0, a1)`
of the JUCE class; it stores `b0/a0, b1/a0, a1/a0` (and zeros when `a0` is zero). -/
def Coefficients.assign4 (b0 b1 a0 a1 : K) : Coefficients K :=
  let a0Inv : K := if a0 = 0 then 0 else 1 / a0
  { coefficients := [b0 * a0Inv, b1 * a0Inv, a1 * a0Inv] }

/-- Modelled from the spec: the second-order constructor of the JUCE class, from the six
values `b0 b1 b2 a0 a1 a2`; it stores `b0/a0, b1/a0, b2/a0, a1/a0, a2/a0` (and zeros
when `a0` is zero). -/
def Coefficients.assign6 (b0 b1 b2 a0 a1 a2 : K) : Coefficients K :=
  let a0Inv : K := if a0 = 0 then 0 else 1 / a0
  { coefficients := [b0 * a0Inv, b1 * a0Inv, b2 * a0Inv, a1 * a0Inv, a2 * a0Inv] }

/-- Modelled from the spec: `juce::dsp::IIR::Coefficients<float>::makePeakFilter
(sampleRate, frequency, Q, gainFactor)`, the "peaking-filter coefficients" design of
the JUCE library (the audio-EQ-cookbook peaking biquad). -/
def IIRmakePeakFilter (m : Libm K) (sampleRate frequency Q gainFactor : K) :
    Coefficients K :=
  let A := jmax 0 (m.sqrt gainFactor)
  let omega := (2 * m.pi * jmax frequency 2) / sampleRate
  let alpha := m.sin omega / (Q * 2)
  let c2 := -2 * m.cos omega
  let alphaTimesA := alpha * A
  let alphaOverA := alpha / A
  Coefficients.assign6 (1 + alphaTimesA) c2 (1 - alphaTimesA)
    (1 + alphaOverA) c2 (1 - alphaOverA)

/-- A `std::complex<double>`: real and imaginary part. -/
structure Cx (K : Type) where
  re : K
  im : K
deriving DecidableEq

/-- Complex addition. -/
def Cx.add (a b : Cx K) : Cx K := { re := a.re + b.re, im := a.im + b.im }

/-- Complex multiplication. -/
def Cx.mul (a b : Cx K) : Cx K :=
  { re := a.re * b.re - a.im * b.im, im := a.re * b.im + a.im * b.re }

/-- A real number times a complex number. -/
def Cx.scale (c : K) (a : Cx K) : Cx K := { re := c * a.re, im := c * a.im }

/-- Complex division by a non-zero denominator, as `std::complex<double>` computes it.
At a zero denominator the C++ quotient has inf or NaN components, which are not numbers
of the field; the formula then gives the field's `x / 0 = 0`, and no result of this
development rests on that value. -/
def Cx.div (a b : Cx K) : Cx K :=
  { re := (a.re * b.re + a.im * b.im) / (b.re * b.re + b.im * b.im),
    im := (a.im * b.re - a.re * b.im) / (b.re * b.re + b.im * b.im) }

/-- The `std::abs` of a complex number. -/
def Cx.abs (m : Libm K) (a : Cx K) : K := m.sqrt (a.re * a.re + a.im * a.im)

/-- The `std::exp` of the purely imaginary number `theta * j`. -/
def Cx.expJ (m : Libm K) (theta : K) : Cx K := { re := m.cos theta, im := m.sin theta }

/-- One of the two accumulation loops of `getMagnitudeForFrequency`:
`acc += coefs[n] * factor; factor *= jw` over the given coefficients. -/
def accumulate (jw : Cx K) : List K → Cx K → Cx K → Cx K
  | [], acc, _ => acc
  | c :: cs, acc, factor => accumulate jw cs (acc.add (Cx.scale c factor)) (factor.mul jw)

/-- Modelled from the spec: `Coefficients::getMagnitudeForFrequency (frequency,
sampleRate)`, the "magnitude response at that frequency and sample rate" of a JUCE
coefficient set: `|N(jw) / D(jw)|` with `jw = exp (-2 pi frequency j / sampleRate)`,
`N` the sum over `coefs[0..order]` and `D` one plus the sum over
`coefs[order+1..2 order]`. -/
def getMagnitudeForFrequency (m : Libm K) (c : Coefficients K) (frequency sampleRate : K) :
    K :=
  let order := c.getFilterOrder
  let jw := Cx.expJ m (-(2 * m.pi) * frequency / sampleRate)
  let numerator := accumulate jw (c.coefficients.take (order + 1)) { re := 0, im := 0 }
    { re := 1, im := 0 }
  let denominator := accumulate jw ((c.coefficients.drop (order + 1)).take order)
    { re := 1, im := 0 } jw
  Cx.abs m (numerator.div denominator)

/-- Modelled from the spec: `juce::dsp::IIR::Filter<float>` (`using Filter`), a filter
stage: its coefficient object, the order its state was sized for and its delay
registers ("biquad delay registers"), a JUCE library class. -/
structure Filter (K : Type) where
  coefficients : Coefficients K
  order : Nat
  state : List K
deriving DecidableEq

/-- Modelled from the spec: `Filter::reset`: the state is re-sized to the order of the
current coefficients and zeroed. -/
def Filter.reset (f : Filter K) : Filter K :=
  { f with order := f.coefficients.getFilterOrder,
           state := List.replicate f.coefficients.getFilterOrder 0 }

/-- Modelled from the spec: a default-constructed `Filter`: pass-through first-order
coefficients `Coefficients (1, 0, 1, 0)`, then `reset ()`. -/
def Filter.init : Filter K :=
  Filter.reset { coefficients := Coefficients.assign4 1 0 1 0, order := 0, state := [] }

/-- Modelled from the spec: `Filter::prepare (spec)`, which resets the filter. -/
def Filter.prepare (f : Filter K) : Filter K := f.reset

/-- Modelled from the spec: `Filter::check`, run at the start of a block: a filter
whose coefficients changed order is reset. -/
def Filter.check (f : Filter K) : Filter K :=
  if f.order ≠ f.coefficients.getFilterOrder then f.reset else f

/-- Modelled from the spec: one sample through the transposed direct form II loop of
`Filter::processInternal`: `out = in * c[0] + s[0]`,
`s[j] = in * c[j+1] - out * c[order+j+1] + s[j+1]` and the last register without the
`s[j+1]` term.  Returns the output sample and the new registers. -/
def Filter.processSample (c : List K) (order : Nat) (state : List K) (input : K) :
    K × List K :=
  let output := input * c.getD 0 0 + state.getD 0 0
  (output, (List.range order).map fun j =>
    input * c.getD (j + 1) 0 - output * c.getD (order + j + 1) 0
      + (if j + 1 < order then state.getD (j + 1) 0 else 0))

/-- The sample loop of `Filter::processInternal` over one block. -/
def Filter.processSamples (c : List K) (order : Nat) : List K → List K → List K × List K
  | state, [] => (state, [])
  | state, x :: xs =>
    let r := Filter.processSample c order state x
    let rest := Filter.processSamples c order r.2 xs
    (rest.1, r.1 :: rest.2)

/-- Modelled from the spec: `Filter::process` on one channel block (not bypassed):
`check ()`, then the sample loop.  Returns the filter with its new registers and the
output block. -/
def Filter.process (f : Filter K) (block : List K) : Filter K × List K :=
  let g := f.check
  let r := Filter.processSamples g.coefficients.coefficients g.order g.state block
  ({ g with state := r.1 }, r.2)

/-- Modelled from the spec: `juce::dsp::Gain<float>` (`using Gain`), the gain stage: "a
per-sample multiplicative gain".  The ramp duration keeps its default 0 in this program,
so the stage holds one linear gain and nothing is smoothed. -/
structure Gain (K : Type) where
  gain : K
deriving DecidableEq

/-- Modelled from the spec: `Gain::setGainLinear`. -/
def Gain.setGainLinear (_g : Gain K) (newGain : K) : Gain K := { gain := newGain }

/-- Modelled from the spec: `Gain::process` on one channel block: every sample times
the gain. -/
def Gain.process (g : Gain K) (block : List K) : List K := block.map fun x => x * g.gain

/-- `using MonoChain = juce::dsp::ProcessorChain<Filter, Filter, Gain>`, indexed by
`enum ChainPositions { Peak1, Peak2, outputGain }`. -/
structure MonoChain (K : Type) where
  Peak1 : Filter K
  Peak2 : Filter K
  outputGain : Gain K
deriving DecidableEq

/-- A default-constructed chain: two default filters and a gain stage whose linear
smoothed value starts at 0. -/
def MonoChain.init : MonoChain K :=
  { Peak1 := Filter.init, Peak2 := Filter.init, outputGain := { gain := 0 } }

/-- `ProcessorChain::prepare (spec)`: every stage is prepared; the gain stage keeps its
gain. -/
def MonoChain.prepare (c : MonoChain K) : MonoChain K :=
  { c with Peak1 := c.Peak1.prepare, Peak2 := c.Peak2.prepare }

/-- `ProcessorChain::process (context)`: the block goes through `Peak1`, `Peak2` and the
gain stage, in this order, in place. -/
def MonoChain.process (c : MonoChain K) (block : List K) : MonoChain K × List K :=
  let r1 := c.Peak1.process block
  let r2 := c.Peak2.process r1.2
  ({ c with Peak1 := r1.1, Peak2 := r2.1 }, c.outputGain.process r2.2)

/-! ## `PluginProcessor.cpp`: parameters, snapshot and factory -/

/-- Modelled from the spec: `juce::NormalisableRange<float> (start, end, interval, skew)`,
the "range [min,max], step, skew factor" of a parameter (JUCE library class). -/
structure NormalisableRange (K : Type) where
  rangeStart : K
  rangeEnd : K
  interval : K
  skew : K
deriving DecidableEq

/-- Modelled from the spec: `juce::AudioParameterFloat (parameterID, parameterName,
range, defaultValue)`, one declared float parameter (JUCE library class). -/
structure AudioParameterFloat (K : Type) where
  parameterID : String
  parameterName : String
  range : NormalisableRange K
  defaultValue : K
deriving DecidableEq

/-- `SimpleDualFilterAudioProcessor::createParameterLayout`: the six `layout.add`
calls, in source order. -/
def createParameterLayout : List (AudioParameterFloat K) :=
  [ { parameterID := "Peak1 Freq", parameterName := "Peak1 Freq",
      range := { rangeStart := 20, rangeEnd := 10000, interval := 1, skew := 1 / 4 },
      defaultValue := 20 },
    { parameterID := "Peak1 Gain", parameterName := "Peak1 Gain",
      range := { rangeStart := -24, rangeEnd := 24, interval := 1 / 10, skew := 1 },
      defaultValue := 0 },
    { parameterID := "Peak1 Quality", parameterName := "Peak1 Quality",
      range := { rangeStart := 1 / 10, rangeEnd := 10, interval := 1 / 10, skew := 1 / 4 },
      defaultValue := 1 },
    { parameterID := "Span", parameterName := "Span",
      range := { rangeStart := 0, rangeEnd := 10, interval := 1 / 100, skew := 1 },
      defaultValue := 0 },
    { parameterID := "Balance", parameterName := "Balance",
      range := { rangeStart := -12, rangeEnd := 12, interval := 1 / 10, skew := 1 },
      defaultValue := 0 },
    { parameterID := "Output Gain", parameterName := "Output Gain",
      range := { rangeStart := -60, rangeEnd := 0, interval := 1 / 10, skew := 1 / 4 },
      defaultValue := 0 } ]

/-- Modelled from the spec: `juce::AudioProcessorValueTreeState`, as far as the sources
read it: the current raw value of the parameter with a given id
(`getRawParameterValue (id)->load ()`). -/
structure AudioProcessorValueTreeState (K : Type) where
  getRawParameterValue : String → K

/-- `getChainSettings (apvts)`: a default-constructed `ChainSettings` with six fields
assigned from the raw parameter values; the three `peak2...` assignments are commented
out in the source. -/
def getChainSettings (apvts : AudioProcessorValueTreeState K) : ChainSettings K :=
  let settings : ChainSettings K := ChainSettings.init
  let settings := { settings with peak1Freq := apvts.getRawParameterValue "Peak1 Freq" }
  let settings :=
    { settings with peak1GainInDecibels := apvts.getRawParameterValue "Peak1 Gain" }
  let settings := { settings with peak1Quality := apvts.getRawParameterValue "Peak1 Quality" }
  let settings := { settings with span := apvts.getRawParameterValue "Span" }
  let settings := { settings with balance := apvts.getRawParameterValue "Balance" }
  let settings := { settings with outputGain := apvts.getRawParameterValue "Output Gain" }
  settings

/-- `makePeakFilter (chainSettings, sampleRate)`. -/
def makePeakFilter (m : Libm K) (chainSettings : ChainSettings K) (sampleRate : K) :
    Coefficients K :=
  IIRmakePeakFilter m sampleRate chainSettings.peak1Freq chainSettings.peak1Quality
    (decibelsToGain m (chainSettings.peak1GainInDecibels - chainSettings.balance))

/-- `makePeakFilter2 (chainSettings, sampleRate)`; its locals `spanFactor` and
`peak2Freq` are the definitions of these names above. -/
def makePeakFilter2 (m : Libm K) (chainSettings : ChainSettings K) (sampleRate : K) :
    Coefficients K :=
  IIRmakePeakFilter m sampleRate (peak2Freq chainSettings sampleRate)
    chainSettings.peak1Quality
    (decibelsToGain m (chainSettings.peak1GainInDecibels + chainSettings.balance))

/-- `updateCoefficients (old, replacements)`: `*old = *replacements`, the contents of
the replacement are copied into the coefficient object the stage already has. -/
def updateCoefficients (_old replacements : Coefficients K) : Coefficients K :=
  { coefficients := replacements.coefficients }

/-! ## `PluginProcessor.cpp`: the processor -/

/-- The two members `leftChain` and `rightChain` of the processor, by name. -/
inductive ChainId where
  | leftChain
  | rightChain
deriving DecidableEq

/-- `enum ChainPositions { Peak1, Peak2, outputGain }` of `PluginProcessor.h`. -/
inductive ChainPositions where
  | Peak1
  | Peak2
  | outputGain
deriving DecidableEq

/-- One call a member function of the processor makes on one of its chains:
`chain.prepare (spec)`, or `updateCoefficients (chain.get<stage> ().coefficients, ..)`. -/
inductive ChainCall where
  | prepare (chain : ChainId)
  | updateCoefficients (chain : ChainId) (stage : ChainPositions)
deriving DecidableEq

/-- The state of `SimpleDualFilterAudioProcessor` the modelled members read and write:
the parameter tree, what `getSampleRate ()`, `getTotalNumInputChannels ()` and
`getTotalNumOutputChannels ()` return (set by the host), and the two chains.  The last
field is not a member of the class: it records, in order, the `prepare` and
`updateCoefficients` calls the member functions have made on the two chains, each
written by the function that makes the call, at the place of the call. -/
structure SimpleDualFilterAudioProcessor (K : Type) where
  apvts : AudioProcessorValueTreeState K
  sampleRate : K
  totalNumInputChannels : Nat
  totalNumOutputChannels : Nat
  leftChain : MonoChain K
  rightChain : MonoChain K
  chainCalls : List ChainCall := []

/-- `SimpleDualFilterAudioProcessor::updatePeakFilter (chainSettings)`: the two designs,
then the four `updateCoefficients` calls, in source order (left and right `Peak1`, left
and right `Peak2`). -/
def updatePeakFilter (m : Libm K) (p : SimpleDualFilterAudioProcessor K)
    (chainSettings : ChainSettings K) : SimpleDualFilterAudioProcessor K :=
  let peak1Coefficients := makePeakFilter m chainSettings p.sampleRate
  let peak2Coefficients := makePeakFilter2 m chainSettings p.sampleRate
  let left1 := updateCoefficients p.leftChain.Peak1.coefficients peak1Coefficients
  let right1 := updateCoefficients p.rightChain.Peak1.coefficients peak1Coefficients
  let left2 := updateCoefficients p.leftChain.Peak2.coefficients peak2Coefficients
  let right2 := updateCoefficients p.rightChain.Peak2.coefficients peak2Coefficients
  { p with
    leftChain := { p.leftChain with
      Peak1 := { p.leftChain.Peak1 with coefficients := left1 },
      Peak2 := { p.leftChain.Peak2 with coefficients := left2 } },
    rightChain := { p.rightChain with
      Peak1 := { p.rightChain.Peak1 with coefficients := right1 },
      Peak2 := { p.rightChain.Peak2 with coefficients := right2 } },
    chainCalls := p.chainCalls ++
      [ ChainCall.updateCoefficients ChainId.leftChain ChainPositions.Peak1,
        ChainCall.updateCoefficients ChainId.rightChain ChainPositions.Peak1,
        ChainCall.updateCoefficients ChainId.leftChain ChainPositions.Peak2,
        ChainCall.updateCoefficients ChainId.rightChain ChainPositions.Peak2 ] }

/-- `SimpleDualFilterAudioProcessor::updateFilters`. -/
def updateFilters (m : Libm K) (p : SimpleDualFilterAudioProcessor K) :
    SimpleDualFilterAudioProcessor K :=
  let chainSettings := getChainSettings p.apvts
  updatePeakFilter m p chainSettings

/-- `SimpleDualFilterAudioProcessor::updateGain`. -/
def updateGain (m : Libm K) (p : SimpleDualFilterAudioProcessor K) :
    SimpleDualFilterAudioProcessor K :=
  let chainSettings := getChainSettings p.apvts
  let gainCoefficient := decibelsToGain m chainSettings.outputGain
  { p with
    leftChain := { p.leftChain with
      outputGain := p.leftChain.outputGain.setGainLinear gainCoefficient },
    rightChain := { p.rightChain with
      outputGain := p.rightChain.outputGain.setGainLinear gainCoefficient } }

/-- `SimpleDualFilterAudioProcessor::prepareToPlay (sampleRate, samplesPerBlock)`: both
chains are prepared with the spec, then `updateFilters ()` and `updateGain ()`.  The spec
(block size, one channel, the sample rate given) only reaches `prepare`, whose modelled
effect does not depend on it. -/
def prepareToPlay (m : Libm K) (p : SimpleDualFilterAudioProcessor K)
    (_sampleRate : K) (_samplesPerBlock : Nat) : SimpleDualFilterAudioProcessor K :=
  let p := { p with leftChain := p.leftChain.prepare,
                    chainCalls := p.chainCalls ++ [ChainCall.prepare ChainId.leftChain] }
  let p := { p with rightChain := p.rightChain.prepare,
                    chainCalls := p.chainCalls ++ [ChainCall.prepare ChainId.rightChain] }
  let p := updateFilters m p
  updateGain m p

/-- A `juce::AudioBuffer<float>`: its channels, each a list of samples. -/
abbrev AudioBuffer (K : Type) := List (List K)

/-- Modelled from the spec: `AudioBuffer::clear (channel, 0, getNumSamples ())`: the
channel is zeroed; a channel the buffer does not have is an error. -/
def AudioBuffer.clearChannel (buffer : AudioBuffer K) (channel : Nat) :
    Option (AudioBuffer K) :=
  if channel < buffer.length then
    some (buffer.modify (fun samples => samples.map fun _ => 0) channel)
  else none

/-- The first loop of `processBlock`:
`for (i = totalNumInputChannels; i < totalNumOutputChannels; ++i) buffer.clear (i, ..)`,
as `count` steps from channel `i`. -/
def clearUnusedChannels : Nat → Nat → AudioBuffer K → Option (AudioBuffer K)
  | 0, _, buffer => some buffer
  | count + 1, i, buffer =>
    match AudioBuffer.clearChannel buffer i with
    | none => none
    | some cleared => clearUnusedChannels count (i + 1) cleared

/-- Modelled from the spec: `AudioBuffer::applyGain (gain)`: every sample of every
channel times the gain. -/
def AudioBuffer.applyGain (buffer : AudioBuffer K) (gain : K) : AudioBuffer K :=
  buffer.map fun samples => samples.map fun x => x * gain

/-- `SimpleDualFilterAudioProcessor::processBlock (buffer, midiMessages)`: clear the
output channels without input, take the snapshot, `updateFilters ()`, `updateGain ()`,
run channel 0 through `leftChain` and channel 1 through `rightChain` in place, then
`buffer.applyGain (decibelsToGain (chainSettings.outputGain))`.  Taking the
single-channel block of a channel the buffer does not have is an error (`none`).
Returns the processor and the buffer after the call. -/
def processBlock (m : Libm K) (p : SimpleDualFilterAudioProcessor K)
    (buffer : AudioBuffer K) : Option (SimpleDualFilterAudioProcessor K × AudioBuffer K) :=
  match clearUnusedChannels (p.totalNumOutputChannels - p.totalNumInputChannels)
      p.totalNumInputChannels buffer with
  | none => none
  | some buffer =>
    let chainSettings := getChainSettings p.apvts
    let p := updateFilters m p
    let p := updateGain m p
    match buffer[0]?, buffer[1]? with
    | some leftBlock, some rightBlock =>
      let l := p.leftChain.process leftBlock
      let r := p.rightChain.process rightBlock
      let buffer := (buffer.set 0 l.2).set 1 r.2
      let outputGain := decibelsToGain m chainSettings.outputGain
      some ({ p with leftChain := l.1, rightChain := r.1 },
        AudioBuffer.applyGain buffer outputGain)
    | _, _ => none

/-! ## `PluginEditor.cpp`: the response curve -/

/-- Modelled from the spec: `juce::mapToLog10 (value0To1, logRangeMin, logRangeMax)`, the
"logarithmic scale" map `10^(log10(min) + x*(log10(max)-log10(min)))` (JUCE library
template): `pow (10, value0To1 * (logMax - logMin) + logMin)`. -/
def mapToLog10 (m : Libm K) (value0To1 logRangeMin logRangeMax : K) : K :=
  let logMin := m.log10 logRangeMin
  let logMax := m.log10 logRangeMax
  m.pow 10 (value0To1 * (logMax - logMin) + logMin)

/-- The members of `ResponseCurveComponent` the modelled functions read and write: the
change flag and the UI-side chain. -/
structure ResponseCurveComponent (K : Type) where
  parametersChanged : Bool
  monoChain : MonoChain K

/-- `ResponseCurveComponent::updateChain`, reading the processor's parameters and
`getSampleRate ()`. -/
def ResponseCurveComponent.updateChain (m : Libm K) (r : ResponseCurveComponent K)
    (audioProcessor : SimpleDualFilterAudioProcessor K) : ResponseCurveComponent K :=
  let chainSettings := getChainSettings audioProcessor.apvts
  let peak1Coefficients := makePeakFilter m chainSettings audioProcessor.sampleRate
  let c1 := updateCoefficients r.monoChain.Peak1.coefficients peak1Coefficients
  let peak2Coefficients := makePeakFilter2 m chainSettings audioProcessor.sampleRate
  let c2 := updateCoefficients r.monoChain.Peak2.coefficients peak2Coefficients
  { r with monoChain := { r.monoChain with
      Peak1 := { r.monoChain.Peak1 with coefficients := c1 },
      Peak2 := { r.monoChain.Peak2 with coefficients := c2 } } }

/-- The `freq` of iteration `i` of the magnitude loop of `paint`:
`mapToLog10 (double (i) / double (w), 20.0, 20000.0)`. -/
def paintFreq (m : Libm K) (w i : Nat) : K :=
  mapToLog10 m ((i : K) / (w : K)) 20 20000

/-- The body of the magnitude loop of `paint` at a given `freq`: `mag = 1`, times the
`Peak1` magnitude, times the `Peak2` magnitude, converted with `gainToDecibels`. -/
def paintMagnitude (m : Libm K) (monoChain : MonoChain K) (sampleRate freq : K) : K :=
  let mag : K := 1
  let mag := mag * getMagnitudeForFrequency m monoChain.Peak1.coefficients freq sampleRate
  let mag := mag * getMagnitudeForFrequency m monoChain.Peak2.coefficients freq sampleRate
  gainToDecibels m mag

/-- The vector `mags` of `paint` after the magnitude loop, for an analysis area of
width `w`: `mags.resize (w)` and `mags[i]` set for `i = 0 .. w - 1`. -/
def paintMags (m : Libm K) (monoChain : MonoChain K) (sampleRate : K) (w : Nat) : List K :=
  (List.range w).map fun i => paintMagnitude m monoChain sampleRate (paintFreq m w i)

/-- The snapshot `getChainSettings` returns while every parameter is at its declared
default: `Peak1 Freq` 20, `Peak1 Quality` 1, all others 0. -/
def defaultSnapshot : ChainSettings K :=
  { ChainSettings.init with peak1Freq := 20 }

/-- A parameter tree whose six raw values are the six fields of `s` that
`getChainSettings` reads (every other id reads 0). -/
def apvtsOf (s : ChainSettings K) : AudioProcessorValueTreeState K :=
  { getRawParameterValue := fun id =>
      if id = "Peak1 Freq" then s.peak1Freq
      else if id = "Peak1 Gain" then s.peak1GainInDecibels
      else if id = "Peak1 Quality" then s.peak1Quality
      else if id = "Span" then s.span
      else if id = "Balance" then s.balance
      else if id = "Output Gain" then s.outputGain
      else 0 }

/-- A processor as constructed: stereo in, stereo out, both chains default-constructed,
with the given parameter tree and host sample rate. -/
def constructed (apvts : AudioProcessorValueTreeState K) (sampleRate : K) :
    SimpleDualFilterAudioProcessor K :=
  { apvts := apvts, sampleRate := sampleRate,
    totalNumInputChannels := 2, totalNumOutputChannels := 2,
    leftChain := MonoChain.init, rightChain := MonoChain.init }

/-- After an update, the stages of `q` hold what the factory and `decibelsToGain` give
for the current snapshot of `p` and the sample rate of `p`, in both chains. -/
structure HoldsCurrent (m : Libm K) (p q : SimpleDualFilterAudioProcessor K) : Prop where
  left1 : q.leftChain.Peak1.coefficients =
    makePeakFilter m (getChainSettings p.apvts) p.sampleRate
  left2 : q.leftChain.Peak2.coefficients =
    makePeakFilter2 m (getChainSettings p.apvts) p.sampleRate
  leftGain : q.leftChain.outputGain.gain =
    decibelsToGain m (getChainSettings p.apvts).outputGain
  right1 : q.rightChain.Peak1.coefficients =
    makePeakFilter m (getChainSettings p.apvts) p.sampleRate
  right2 : q.rightChain.Peak2.coefficients =
    makePeakFilter2 m (getChainSettings p.apvts) p.sampleRate
  rightGain : q.rightChain.outputGain.gain =
    decibelsToGain m (getChainSettings p.apvts).outputGain

/-- The two chains of `q` hold the same `Peak1` coefficients, the same `Peak2`
coefficients and the same gain. -/
structure StereoLinked (q : SimpleDualFilterAudioProcessor K) : Prop where
  peak1 : q.leftChain.Peak1.coefficients = q.rightChain.Peak1.coefficients
  peak2 : q.leftChain.Peak2.coefficients = q.rightChain.Peak2.coefficients
  gain : q.leftChain.outputGain.gain = q.rightChain.outputGain.gain

/-- An example snapshot: `Peak1 Freq` 1000 Hz, unity peaks (`Peak1 Gain` 0, `Balance` 0),
`Peak1 Quality` 1, `Span` 0 and `Output Gain` -60 dB. -/
def unityAtMinus60 : ChainSettings K :=
  { ChainSettings.init with peak1Freq := 1000, outputGain := -60 }

/-- An example processor: as constructed, its parameters at `unityAtMinus60`, the host
sample rate 48000. -/
def processorAtMinus60 : SimpleDualFilterAudioProcessor K :=
  constructed (apvtsOf unityAtMinus60) 48000

/-- The scenario snapshot of the spec: `Peak1 Freq` 1000 Hz, `Peak1 Gain` +12 dB,
`Peak1 Quality` 1, `Span` 0, `Balance` 0, `Output Gain` 0 dB. -/
def scenarioSettings : ChainSettings K :=
  { ChainSettings.init with peak1Freq := 1000, peak1GainInDecibels := 12 }

/-- A processor as constructed, its parameters at `scenarioSettings`, at 48 kHz. -/
def scenarioProcessor : SimpleDualFilterAudioProcessor K :=
  constructed (apvtsOf scenarioSettings) 48000

/-- A snapshot with the first peak at 8000 Hz and +12 dB, everything else default. -/
def nyquistSettings : ChainSettings K :=
  { ChainSettings.init with peak1Freq := 8000, peak1GainInDecibels := 12 }

/-- A processor as constructed, its parameters at `nyquistSettings`, at a host sample
rate of 16 kHz, whose Nyquist frequency is the peak frequency. -/
def nyquistProcessor : SimpleDualFilterAudioProcessor K :=
  constructed (apvtsOf nyquistSettings) 16000

/-- A `ResponseCurveComponent` before its first `updateChain`: the flag clear, the chain
default-constructed. -/
def ResponseCurveComponent.init : ResponseCurveComponent K :=
  { parametersChanged := false, monoChain := MonoChain.init }

/-! ## `PluginEditor.cpp`: the polyline of `paint` and the timer -/

/-- Modelled from the spec: `juce::Rectangle<int>`, the analysis area (JUCE library
class): position, width and height. -/
structure Rectangle where
  x : Int
  y : Int
  w : Int
  h : Int
deriving DecidableEq

/-- Modelled from the spec: `Rectangle::getX`. -/
def Rectangle.getX (r : Rectangle) : Int := r.x

/-- Modelled from the spec: `Rectangle::getY`, the top edge. -/
def Rectangle.getY (r : Rectangle) : Int := r.y

/-- Modelled from the spec: `Rectangle::getWidth`. -/
def Rectangle.getWidth (r : Rectangle) : Int := r.w

/-- Modelled from the spec: `Rectangle::getBottom`, `y + h`. -/
def Rectangle.getBottom (r : Rectangle) : Int := r.y + r.h

/-- Modelled from the spec: `juce::jmap (sourceValue, sourceRangeMin, sourceRangeMax,
targetRangeMin, targetRangeMax)`, the JUCE library template that remaps a value from a
source range to a target range:
`targetMin + ((targetMax - targetMin) * (value - sourceMin)) / (sourceMax - sourceMin)`. -/
def jmap (sourceValue sourceRangeMin sourceRangeMax targetRangeMin targetRangeMax : K) : K :=
  targetRangeMin + ((targetRangeMax - targetRangeMin) * (sourceValue - sourceRangeMin))
    / (sourceRangeMax - sourceRangeMin)

/-- The lambda `map` of `paint`: `jmap (input, -24.0, 24.0, outputMin, outputMax)` with
`outputMin = responseArea.getBottom ()` and `outputMax = responseArea.getY ()`. -/
def paintMap (responseArea : Rectangle) (input : K) : K :=
  let outputMin : K := (responseArea.getBottom : K)
  let outputMax : K := (responseArea.getY : K)
  jmap input (-24) 24 outputMin outputMax

/-- The points `paint` gives to the path `responseCurve`:
`startNewSubPath (getX (), map (mags.front ()))`, then `lineTo (getX () + i, map (mags[i]))`
for `i = 1 .. mags.size () - 1`.  A width below 1 leaves `mags.front ()` without an
element (or `mags.resize` with a negative size): `none`. -/
def paintResponseCurve (m : Libm K) (monoChain : MonoChain K) (sampleRate : K)
    (responseArea : Rectangle) : Option (List (K × K)) :=
  let w := responseArea.getWidth
  if w < 1 then none
  else
    let mags := paintMags m monoChain sampleRate w.toNat
    some ((List.range mags.length).map fun (i : Nat) =>
      ((responseArea.getX : K) + (i : K), paintMap responseArea (mags.getD i 0)))

/-- `ResponseCurveComponent::parameterValueChanged (parameterIndex, newValue)`:
`parametersChanged.set (true)`. -/
def ResponseCurveComponent.parameterValueChanged (r : ResponseCurveComponent K)
    (_parameterIndex : Int) (_newValue : K) : ResponseCurveComponent K :=
  { r with parametersChanged := true }

/-- Modelled from the spec: `juce::Atomic<bool>::compareAndSetBool (newValue,
valueToCompare)`, the "test-and-clear" primitive (JUCE library): when the current value
equals `valueToCompare` it becomes `newValue` and the call returns `true`, otherwise
nothing changes and it returns `false`.  Returns the value afterwards and the result. -/
def compareAndSetBool (current newValue valueToCompare : Bool) : Bool × Bool :=
  if current = valueToCompare then (newValue, true) else (current, false)

/-- `ResponseCurveComponent::timerCallback`:
`if (parametersChanged.compareAndSetBool (false, true)) { updateChain (); repaint (); }`.
Returns the component afterwards and whether `repaint ()` was called. -/
def ResponseCurveComponent.timerCallback (m : Libm K) (r : ResponseCurveComponent K)
    (audioProcessor : SimpleDualFilterAudioProcessor K) : ResponseCurveComponent K × Bool :=
  let cas := compareAndSetBool r.parametersChanged false true
  let r := { r with parametersChanged := cas.1 }
  if cas.2 then (r.updateChain m audioProcessor, true) else (r, false)

/-- A run of parameter-change notifications, each a `(parameterIndex, newValue)`, in
order. -/
def ResponseCurveComponent.notifyAll (r : ResponseCurveComponent K)
    (notifications : List (Int × K)) : ResponseCurveComponent K :=
  notifications.foldl (fun r n => r.parameterValueChanged n.1 n.2) r

/-- A snapshot with the first peak at 20 Hz and +24 dB, everything else default: both
peaks stack to +48 dB at 20 Hz. -/
def loudSettings : ChainSettings K :=
  { ChainSettings.init with peak1Freq := 20, peak1GainInDecibels := 24 }

/-- A processor as constructed, its parameters at `loudSettings`, at 48 kHz. -/
def loudProcessor : SimpleDualFilterAudioProcessor K :=
  constructed (apvtsOf loudSettings) 48000

/-! ## `PluginProcessor.cpp`: persisted state -/

/-- Modelled from the spec: `juce::ValueTree`, the "structured tree" the parameter set is
persisted as (JUCE library class): whether the tree is valid, and for each parameter
child its id and value. -/
structure ValueTree (K : Type) where
  isValid : Bool
  parameters : List (String × K)
deriving DecidableEq

/-- Modelled from the spec: the binary form of a `ValueTree` ("binary-serializable"):
`ValueTree::writeToStream` into a memory block of type `D` and
`ValueTree::readFromData`, which gives an invalid tree for data it cannot decode.  Both
are JUCE library code, taken as parameters. -/
structure ValueTreeCodec (K D : Type) where
  writeToStream : ValueTree K → D
  readFromData : D → ValueTree K

/-- Modelled from the spec: the member `apvts.state`: "the full parameter set serialized
as a structured tree", one child per declared parameter holding its current value. -/
def AudioProcessorValueTreeState.state (apvts : AudioProcessorValueTreeState K) :
    ValueTree K :=
  { isValid := true,
    parameters := (createParameterLayout : List (AudioParameterFloat K)).map fun d =>
      (d.parameterID, apvts.getRawParameterValue d.parameterID) }

/-- Modelled from the spec: `apvts.replaceState (tree)`: the state is "read wholesale";
every declared parameter takes the value the tree holds for its id, and "unknown or
missing fields on load default to the declared parameter defaults".  The normalising and
snapping JUCE applies to a loaded value is not modelled. -/
def AudioProcessorValueTreeState.replaceState (apvts : AudioProcessorValueTreeState K)
    (newState : ValueTree K) : AudioProcessorValueTreeState K :=
  { getRawParameterValue := fun id =>
      match (createParameterLayout : List (AudioParameterFloat K)).find?
          (fun d => d.parameterID = id) with
      | some d => (newState.parameters.lookup id).getD d.defaultValue
      | none => apvts.getRawParameterValue id }

/-- `SimpleDualFilterAudioProcessor::getStateInformation (destData)`:
`apvts.state.writeToStream (mos)`; returns the memory block written. -/
def getStateInformation {D : Type} (codec : ValueTreeCodec K D)
    (p : SimpleDualFilterAudioProcessor K) : D :=
  codec.writeToStream p.apvts.state

/-- `SimpleDualFilterAudioProcessor::setStateInformation (data, sizeInBytes)`:
`tree = ValueTree::readFromData (..)`, and only `if (tree.isValid ())`:
`apvts.replaceState (tree); updateFilters (); updateGain ();`. -/
def setStateInformation {D : Type} (m : Libm K) (codec : ValueTreeCodec K D)
    (p : SimpleDualFilterAudioProcessor K) (data : D) : SimpleDualFilterAudioProcessor K :=
  let tree := codec.readFromData data
  if tree.isValid then
    let p := { p with apvts := p.apvts.replaceState tree }
    let p := updateFilters m p
    updateGain m p
  else p

/-- A codec for examples: the memory block is the parameter list itself, or nothing
(`none`), which does not decode to a valid tree. -/
def listCodec : ValueTreeCodec K (Option (List (String × K))) :=
  { writeToStream := fun t => if t.isValid then some t.parameters else none,
    readFromData := fun d =>
      match d with
      | some ps => { isValid := true, parameters := ps }
      | none => { isValid := false, parameters := [] } }

/-! ## The host's calls from construction on -/

/-- One call of the host into the processor. -/
inductive HostCall (K D : Type) where
  | prepareToPlay (sampleRate : K) (samplesPerBlock : Nat)
  | processBlock (buffer : AudioBuffer K)
  | setStateInformation (data : D)

/-- The `updateCoefficients` calls of a record of chain calls that reach a chain before
any `prepare` call on that chain: the record is read in order, `prepared` holding the
chains prepared so far. -/
def unpreparedUpdates : List ChainId → List ChainCall → List ChainCall
  | _, [] => []
  | prepared, ChainCall.prepare chain :: rest => unpreparedUpdates (chain :: prepared) rest
  | prepared, ChainCall.updateCoefficients chain stage :: rest =>
    if chain ∈ prepared then unpreparedUpdates prepared rest
    else ChainCall.updateCoefficients chain stage :: unpreparedUpdates prepared rest

/-- One host call on the processor: the member function called, with its arguments.  A
`processBlock` call on a buffer it cannot take its channel blocks from has no result. -/
def runHostCall {D : Type} (m : Libm K) (codec : ValueTreeCodec K D)
    (p : SimpleDualFilterAudioProcessor K) :
    HostCall K D → Option (SimpleDualFilterAudioProcessor K)
  | .prepareToPlay sampleRate samplesPerBlock =>
    some (prepareToPlay m p sampleRate samplesPerBlock)
  | .processBlock buffer =>
    match processBlock m p buffer with
    | none => none
    | some r => some r.1
  | .setStateInformation data => some (setStateInformation m codec p data)

/-- A sequence of host calls, in order. -/
def runHostCalls {D : Type} (m : Libm K) (codec : ValueTreeCodec K D) :
    SimpleDualFilterAudioProcessor K → List (HostCall K D) →
      Option (SimpleDualFilterAudioProcessor K)
  | p, [] => some p
  | p, call :: calls =>
    match runHostCall m codec p call with
    | none => none
    | some q => runHostCalls m codec q calls

/-- A snapshot with the first peak at the top of its range, 10000 Hz, everything else
default. -/
def topFreqSettings : ChainSettings K :=
  { ChainSettings.init with peak1Freq := 10000 }

/-! ## Coefficient objects and the references to them -/

/-- A `Filter::CoefficientsPtr` (`using Coefficients` in `PluginProcessor.h`): a
reference to a coefficient object, here its address. -/
abbrev CoefficientsPtr := Nat

/-- The coefficient objects alive, by address. -/
structure CoefficientsHeap (K : Type) where
  object : CoefficientsPtr → Coefficients K

/-- The heap after the object at `ptr` is given the contents `c`. -/
def CoefficientsHeap.assign (heap : CoefficientsHeap K) (ptr : CoefficientsPtr)
    (c : Coefficients K) : CoefficientsHeap K :=
  { object := fun q => if q = ptr then c else heap.object q }

/-- `updateCoefficients (Coefficients& old, const Coefficients& replacements)` on
references: `*old = *replacements`.  The object `old` points to receives the contents of
the object `replacements` points to; `old` itself is not assigned.  Returns the heap and
the value of the reference `old` after the call. -/
def updateCoefficientsRef (heap : CoefficientsHeap K) (old replacements : CoefficientsPtr) :
    CoefficientsHeap K × CoefficientsPtr :=
  (heap.assign old (updateCoefficients (heap.object old) (heap.object replacements)), old)

/-- What a chain holds: the references of its two filter stages to their coefficient
objects, and its gain stage. -/
structure ChainRefs (K : Type) where
  Peak1 : CoefficientsPtr
  Peak2 : CoefficientsPtr
  outputGain : Gain K

/-- The three chains of the plugin with the coefficient heap they refer into:
`leftChain` and `rightChain` of the processor, `monoChain` of the response curve;
`nextFree` is the address the next `new Coefficients` gets. -/
structure PluginRefs (K : Type) where
  heap : CoefficientsHeap K
  nextFree : CoefficientsPtr
  leftChain : ChainRefs K
  rightChain : ChainRefs K
  monoChain : ChainRefs K

/-- A new coefficient object with contents `c`, as the factory functions return one.
Returns the state and the reference to the new object. -/
def PluginRefs.allocate (s : PluginRefs K) (c : Coefficients K) :
    PluginRefs K × CoefficientsPtr :=
  ({ s with heap := s.heap.assign s.nextFree c, nextFree := s.nextFree + 1 }, s.nextFree)

/-- `SimpleDualFilterAudioProcessor::updatePeakFilter` on references: two new objects
from the factory, then the four `updateCoefficients` calls of the source, in order. -/
def PluginRefs.updatePeakFilter (m : Libm K) (s : PluginRefs K)
    (chainSettings : ChainSettings K) (sampleRate : K) : PluginRefs K :=
  let a1 := s.allocate (makePeakFilter m chainSettings sampleRate)
  let a2 := a1.1.allocate (makePeakFilter2 m chainSettings sampleRate)
  let s := a2.1
  let peak1Coefficients := a1.2
  let peak2Coefficients := a2.2
  let u1 := updateCoefficientsRef s.heap s.leftChain.Peak1 peak1Coefficients
  let u2 := updateCoefficientsRef u1.1 s.rightChain.Peak1 peak1Coefficients
  let u3 := updateCoefficientsRef u2.1 s.leftChain.Peak2 peak2Coefficients
  let u4 := updateCoefficientsRef u3.1 s.rightChain.Peak2 peak2Coefficients
  { s with heap := u4.1,
           leftChain := { s.leftChain with Peak1 := u1.2, Peak2 := u3.2 },
           rightChain := { s.rightChain with Peak1 := u2.2, Peak2 := u4.2 } }

/-- `SimpleDualFilterAudioProcessor::updateGain` on the same state: the gain stages of
`leftChain` and `rightChain` are set. -/
def PluginRefs.updateGain (m : Libm K) (s : PluginRefs K) (chainSettings : ChainSettings K) :
    PluginRefs K :=
  let gainCoefficient := decibelsToGain m chainSettings.outputGain
  { s with leftChain := { s.leftChain with
             outputGain := s.leftChain.outputGain.setGainLinear gainCoefficient },
           rightChain := { s.rightChain with
             outputGain := s.rightChain.outputGain.setGainLinear gainCoefficient } }

/-- `ResponseCurveComponent::updateChain` on references: each new object from the factory
is copied into the stage of `monoChain`, in the order of the source. -/
def PluginRefs.updateChain (m : Libm K) (s : PluginRefs K)
    (chainSettings : ChainSettings K) (sampleRate : K) : PluginRefs K :=
  let a1 := s.allocate (makePeakFilter m chainSettings sampleRate)
  let u1 := updateCoefficientsRef a1.1.heap a1.1.monoChain.Peak1 a1.2
  let s1 : PluginRefs K :=
    { a1.1 with heap := u1.1, monoChain := { a1.1.monoChain with Peak1 := u1.2 } }
  let a2 := s1.allocate (makePeakFilter2 m chainSettings sampleRate)
  let u2 := updateCoefficientsRef a2.1.heap a2.1.monoChain.Peak2 a2.2
  { a2.1 with heap := u2.1, monoChain := { a2.1.monoChain with Peak2 := u2.2 } }

/-- The references the six filter stages hold, `leftChain`, `rightChain`, `monoChain`. -/
def PluginRefs.stageRefs (s : PluginRefs K) : List CoefficientsPtr :=
  [s.leftChain.Peak1, s.leftChain.Peak2, s.rightChain.Peak1, s.rightChain.Peak2,
   s.monoChain.Peak1, s.monoChain.Peak2]

/-- Every filter stage has a coefficient object of its own, as after construction (each
`Filter` allocates its own): the six references are pairwise distinct and refer to
objects already allocated. -/
structure PluginRefs.Separate (s : PluginRefs K) : Prop where
  nodup : s.stageRefs.Nodup
  allocated : ∀ ptr ∈ s.stageRefs, ptr < s.nextFree

/-- The plugin after construction: six default coefficient objects at addresses 0 to 5,
one per stage, and the default gain stages. -/
def PluginRefs.init : PluginRefs K :=
  { heap := { object := fun _ => Coefficients.assign4 1 0 1 0 },
    nextFree := 6,
    leftChain := { Peak1 := 0, Peak2 := 1, outputGain := { gain := 0 } },
    rightChain := { Peak1 := 2, Peak2 := 3, outputGain := { gain := 0 } },
    monoChain := { Peak1 := 4, Peak2 := 5, outputGain := { gain := 0 } } }

/-- A heap for examples: the object at address 1 holds `1, 2, 3, 2, 3`, every other
object the default pass-through coefficients `1, 0, 0`. -/
def exampleHeap : CoefficientsHeap K :=
  { object := fun q =>
      if q = 1 then { coefficients := [1, 2, 3, 2, 3] } else Coefficients.assign4 1 0 1 0 }

/-- The two references a chain holds. -/
def ChainRefs.refs (c : ChainRefs K) : List CoefficientsPtr := [c.Peak1, c.Peak2]

/-! ## Parameter writes during a block -/

/-- A parameter write by the host or the editor: the raw value of the parameter `id`
becomes `value`. -/
def AudioProcessorValueTreeState.write (apvts : AudioProcessorValueTreeState K)
    (id : String) (value : K) : AudioProcessorValueTreeState K :=
  { getRawParameterValue := fun i => if i = id then value else apvts.getRawParameterValue i }

/-- `processBlock` with parameter writes of another thread arriving during the call:
`write1` lands after the `getChainSettings` of `processBlock` itself and before
`updateFilters ()` reads the parameters, `write2` after that and before `updateGain ()`
reads them.  Everything else is `processBlock`. -/
def processBlockWithWrites (m : Libm K) (p : SimpleDualFilterAudioProcessor K)
    (buffer : AudioBuffer K)
    (write1 write2 : AudioProcessorValueTreeState K → AudioProcessorValueTreeState K) :
    Option (SimpleDualFilterAudioProcessor K × AudioBuffer K) :=
  match clearUnusedChannels (p.totalNumOutputChannels - p.totalNumInputChannels)
      p.totalNumInputChannels buffer with
  | none => none
  | some buffer =>
    let chainSettings := getChainSettings p.apvts
    let p := { p with apvts := write1 p.apvts }
    let p := updateFilters m p
    let p := { p with apvts := write2 p.apvts }
    let p := updateGain m p
    match buffer[0]?, buffer[1]? with
    | some leftBlock, some rightBlock =>
      let l := p.leftChain.process leftBlock
      let r := p.rightChain.process rightBlock
      let buffer := (buffer.set 0 l.2).set 1 r.2
      let outputGain := decibelsToGain m chainSettings.outputGain
      some ({ p with leftChain := l.1, rightChain := r.1 },
        AudioBuffer.applyGain buffer outputGain)
    | _, _ => none

/-- A snapshot with the peaks spread apart: `Peak1 Freq` 1000 Hz, `Peak1 Gain` +12 dB,
`Balance` 12, `Span` 2 (second peak at 2000 Hz), `Peak1 Quality` 1. -/
def spreadSettings : ChainSettings K :=
  { ChainSettings.init with
    peak1Freq := 1000, peak1GainInDecibels := 12, balance := 12, span := 2 }

/-- Modelled from the spec: `juce::Timer`, the "fixed-rate cooperative timer" (JUCE
library class, a base of `ResponseCurveComponent`): the period in milliseconds between
two callbacks, `0` while the timer is not running. -/
structure Timer where
  timerPeriodMs : Int
deriving DecidableEq

/-- A `juce::Timer` as constructed: not running. -/
def Timer.init : Timer := { timerPeriodMs := 0 }

/-- Modelled from the spec: `juce::Timer::startTimer (intervalInMilliseconds)` (JUCE
library): the timer runs with the given interval in milliseconds, at least 1. -/
def Timer.startTimer (_t : Timer) (intervalInMilliseconds : Int) : Timer :=
  { timerPeriodMs := if intervalInMilliseconds < 1 then 1 else intervalInMilliseconds }

/-- Modelled from the spec: `juce::Timer::getTimerInterval ()` (JUCE library): the
interval in milliseconds, `0` when the timer is not running. -/
def Timer.getTimerInterval (t : Timer) : Int := t.timerPeriodMs

/-- The cadence of a running timer, in callbacks per second: 1000 milliseconds over the
interval in milliseconds. -/
def Timer.callbacksPerSecond (t : Timer) : K := 1000 / (t.getTimerInterval : K)

/-- `ResponseCurveComponent::ResponseCurveComponent (p)`: register as listener of every
parameter (no state of its own in this embedding: notifications arrive through
`parameterValueChanged`), `updateChain ()`, `startTimer (60)`.  Returns the component
and its `juce::Timer` base. -/
def ResponseCurveComponent.construct (m : Libm K)
    (audioProcessor : SimpleDualFilterAudioProcessor K) : ResponseCurveComponent K × Timer :=
  let r : ResponseCurveComponent K := ResponseCurveComponent.init
  let r := r.updateChain m audioProcessor
  (r, Timer.init.startTimer 60)

/-! ## `PluginProcessor.cpp`: the bus layouts -/

/-- Modelled from the spec: `juce::AudioChannelSet` (JUCE library class), as far as
`isBusesLayoutSupported` tells sets apart: `mono ()`, `stereo ()`, or any other set,
given by its number of channels. -/
inductive AudioChannelSet where
  | mono
  | stereo
  | other (numChannels : Nat)
deriving DecidableEq

/-- Modelled from the spec: `juce::AudioChannelSet::size ()`, the number of channels of
the set. -/
def AudioChannelSet.size : AudioChannelSet → Nat
  | .mono => 1
  | .stereo => 2
  | .other numChannels => numChannels

/-- Modelled from the spec: `juce::AudioProcessor::BusesLayout` (JUCE library class), as
far as the sources read it: the channel sets of the main input and main output bus. -/
structure BusesLayout where
  getMainInputChannelSet : AudioChannelSet
  getMainOutputChannelSet : AudioChannelSet
deriving DecidableEq

/-- `SimpleDualFilterAudioProcessor::isBusesLayoutSupported (layouts)`.  The
preprocessor flags `JucePlugin_IsMidiEffect` and `JucePlugin_IsSynth` come from the
project settings, not from `Source/`, and are parameters here. -/
def isBusesLayoutSupported (jucePluginIsMidiEffect jucePluginIsSynth : Bool)
    (layouts : BusesLayout) : Bool :=
  if jucePluginIsMidiEffect then true
  else if layouts.getMainOutputChannelSet ≠ AudioChannelSet.mono
      ∧ layouts.getMainOutputChannelSet ≠ AudioChannelSet.stereo then false
  else if ¬ jucePluginIsSynth
      ∧ layouts.getMainOutputChannelSet ≠ layouts.getMainInputChannelSet then false
  else true

/-- Modelled from the spec: what the host's choice of a bus layout does to the processor
(JUCE library, `AudioProcessor::setBusesLayout`): `getTotalNumInputChannels ()` and
`getTotalNumOutputChannels ()` become the sizes of the main input and output sets. -/
def SimpleDualFilterAudioProcessor.setBusesLayout (p : SimpleDualFilterAudioProcessor K)
    (layouts : BusesLayout) : SimpleDualFilterAudioProcessor K :=
  { p with
    totalNumInputChannels := layouts.getMainInputChannelSet.size,
    totalNumOutputChannels := layouts.getMainOutputChannelSet.size }

/-- Modelled from the spec: the number of channels of the buffer the host passes to
`processBlock` under a layout (JUCE library): the larger of the input and output
channel counts. -/
def BusesLayout.bufferChannels (layouts : BusesLayout) : Nat :=
  max layouts.getMainInputChannelSet.size layouts.getMainOutputChannelSet.size

/-- The channel indices `processBlock` takes single-channel blocks of:
`block.getSingleChannelBlock (0)` and `block.getSingleChannelBlock (1)`. -/
def processBlockChannels : List Nat := [0, 1]

/-- The mono layout: main input and main output both `AudioChannelSet::mono ()`. -/
def monoLayout : BusesLayout :=
  { getMainInputChannelSet := AudioChannelSet.mono,
    getMainOutputChannelSet := AudioChannelSet.mono }

end Generic

/-- The math library is the exact one over the reals: `pow`, `log10`, `sqrt`, `sin`, `cos`
and `pi` are the real functions and the real constant. -/
structure Libm.IsExact (m : Libm ℝ) : Prop where
  pow_eq : m.pow = Real.rpow
  log10_eq : m.log10 = Real.logb 10
  sqrt_eq : m.sqrt = Real.sqrt
  sin_eq : m.sin = Real.sin
  cos_eq : m.cos = Real.cos
  pi_eq : m.pi = Real.pi

/-! ## The clamp of the second peak's frequency -/

section ClampTheorems

variable {K : Type} [LinearOrderedField K]

/-- With `lower ≤ upper`, `jlimit` returns a value of `[lower, upper]`. -/
theorem jlimit_mem (lo hi v : K) (h : lo ≤ hi) :
    lo ≤ jlimit lo hi v ∧ jlimit lo hi v ≤ hi := by
  unfold jlimit
  split_ifs with h1 h2
  · exact ⟨le_refl _, h⟩
  · exact ⟨h, le_refl _⟩
  · exact ⟨not_lt.mp h1, not_lt.mp h2⟩

/-- C1, as amended: for every in-range `ChainSettings` and every `sampleRate ≥ 40`, the
centre frequency `makePeakFilter2` passes to the peak design lies in
`[20, sampleRate / 2]`. -/
theorem peak2Freq_mem_of_sampleRate_ge (s : ChainSettings K) (sampleRate : K)
    (_hs : s.InRange) (hsr : 40 ≤ sampleRate) :
    20 ≤ peak2Freq s sampleRate ∧ peak2Freq s sampleRate ≤ sampleRate / 2 := by
  unfold peak2Freq
  apply jlimit_mem
  linarith

/-- C1 as stated fails for a sample rate below 40: at `sampleRate = 20` and the default
snapshot (in range), `jlimit (20, 10, 20)` is 10, and no value lies in `[20, 10]`. -/
theorem peak2Freq_outside_at_sampleRate_20 :
    (defaultSnapshot : ChainSettings ℚ).InRange ∧ (0 : ℚ) < 20 ∧
    peak2Freq (defaultSnapshot : ChainSettings ℚ) 20 = 10 ∧
    ¬ (20 ≤ peak2Freq (defaultSnapshot : ChainSettings ℚ) 20 ∧
        peak2Freq (defaultSnapshot : ChainSettings ℚ) 20 ≤ 20 / 2) := by
  refine ⟨?_, by norm_num, ?_, ?_⟩
  · constructor <;> norm_num [defaultSnapshot, ChainSettings.init]
  · norm_num [peak2Freq, jlimit, spanFactor, defaultSnapshot, ChainSettings.init]
  · norm_num [peak2Freq, jlimit, spanFactor, defaultSnapshot, ChainSettings.init]

/-- The amended C1 at the edge `span = 10`, `peak1Freq = 10000`, `sampleRate = 48000`:
the centre frequency is in `[20, 24000]`. -/
theorem peak2Freq_mem_of_sampleRate_ge_witness :
    ({ ChainSettings.init with peak1Freq := 10000, span := 10 } : ChainSettings ℚ).InRange ∧
    (40 : ℚ) ≤ 48000 ∧
    20 ≤ peak2Freq ({ ChainSettings.init with peak1Freq := 10000, span := 10 } :
      ChainSettings ℚ) 48000 ∧
    peak2Freq ({ ChainSettings.init with peak1Freq := 10000, span := 10 } :
      ChainSettings ℚ) 48000 ≤ 48000 / 2 :=
  have hs : ({ ChainSettings.init with peak1Freq := 10000, span := 10 } :
      ChainSettings ℚ).InRange := by
    constructor <;> norm_num [ChainSettings.init]
  ⟨hs, by norm_num,
    peak2Freq_mem_of_sampleRate_ge _ 48000 hs (by norm_num)⟩

/-- C2: `makePeakFilter2` centres the second peak at the clamped product: the centre
frequency it hands to the peak design is `peak2Freq`, the `jlimit` of the product
`peak1Freq * (1 + span / 2)`, so the clamp comes after the multiplication.  For
`sampleRate ≥ 40`: a product inside `[20, sampleRate / 2]` is the centre frequency itself,
a product above `sampleRate / 2` gives `sampleRate / 2`, a product below 20 gives 20;
`span = 2`, `peak1Freq = 1000` at 48000 gives a design centred at 2000, and `span = 0`
gives `peak1Freq` whenever that lies in `[20, sampleRate / 2]`. -/
theorem peak2Freq_clamps_after_multiplication (m : Libm K) (s : ChainSettings K)
    (sampleRate : K) (hsr : 40 ≤ sampleRate) :
    makePeakFilter2 m s sampleRate
      = IIRmakePeakFilter m sampleRate (peak2Freq s sampleRate) s.peak1Quality
          (decibelsToGain m (s.peak1GainInDecibels + s.balance)) ∧
    (20 ≤ s.peak1Freq * (1 + s.span / 2) → s.peak1Freq * (1 + s.span / 2) ≤ sampleRate / 2 →
      peak2Freq s sampleRate = s.peak1Freq * (1 + s.span / 2) ∧
      makePeakFilter2 m s sampleRate
        = IIRmakePeakFilter m sampleRate (s.peak1Freq * (1 + s.span / 2)) s.peak1Quality
            (decibelsToGain m (s.peak1GainInDecibels + s.balance))) ∧
    (sampleRate / 2 < s.peak1Freq * (1 + s.span / 2) →
      peak2Freq s sampleRate = sampleRate / 2 ∧
      makePeakFilter2 m s sampleRate
        = IIRmakePeakFilter m sampleRate (sampleRate / 2) s.peak1Quality
            (decibelsToGain m (s.peak1GainInDecibels + s.balance))) ∧
    (s.peak1Freq * (1 + s.span / 2) < 20 →
      peak2Freq s sampleRate = 20 ∧
      makePeakFilter2 m s sampleRate
        = IIRmakePeakFilter m sampleRate 20 s.peak1Quality
            (decibelsToGain m (s.peak1GainInDecibels + s.balance))) ∧
    (s.span = 2 → s.peak1Freq = 1000 →
      peak2Freq s 48000 = 2000 ∧
      makePeakFilter2 m s 48000
        = IIRmakePeakFilter m 48000 2000 s.peak1Quality
            (decibelsToGain m (s.peak1GainInDecibels + s.balance))) ∧
    (s.span = 0 → 20 ≤ s.peak1Freq → s.peak1Freq ≤ sampleRate / 2 →
      peak2Freq s sampleRate = s.peak1Freq ∧
      makePeakFilter2 m s sampleRate
        = IIRmakePeakFilter m sampleRate s.peak1Freq s.peak1Quality
            (decibelsToGain m (s.peak1GainInDecibels + s.balance))) := by
  have tie : ∀ (rate centre : K), peak2Freq s rate = centre →
      peak2Freq s rate = centre ∧
      makePeakFilter2 m s rate
        = IIRmakePeakFilter m rate centre s.peak1Quality
            (decibelsToGain m (s.peak1GainInDecibels + s.balance)) := by
    intro rate centre h
    refine ⟨h, ?_⟩
    rw [← h]
    rfl
  refine ⟨rfl, ?_, ?_, ?_, ?_, ?_⟩
  · intro h1 h2
    apply tie
    unfold peak2Freq jlimit spanFactor
    rw [if_neg (not_lt.mpr h1), if_neg (not_lt.mpr h2)]
  · intro h
    apply tie
    unfold peak2Freq jlimit spanFactor
    have h20 : ¬ s.peak1Freq * (1 + s.span / 2) < 20 := by
      apply not_lt.mpr
      linarith
    rw [if_neg h20, if_pos h]
  · intro h
    apply tie
    unfold peak2Freq jlimit spanFactor
    rw [if_pos h]
  · intro h2 h1000
    apply tie
    unfold peak2Freq jlimit spanFactor
    rw [h2, h1000]
    norm_num
  · intro h0 hlo hhi
    apply tie
    unfold peak2Freq jlimit spanFactor
    rw [h0]
    have e : s.peak1Freq * (1 + 0 / 2) = s.peak1Freq := by ring
    rw [e, if_neg (not_lt.mpr hlo), if_neg (not_lt.mpr hhi)]

/-- C2 at `span = 2`, `peak1Freq = 1000`, `sampleRate = 48000`, with the exact library:
`makePeakFilter2` designs the second peak centred at 2000. -/
theorem peak2Freq_clamps_after_multiplication_witness :
    (40 : ℝ) ≤ 48000 ∧
    peak2Freq ({ ChainSettings.init with peak1Freq := 1000, span := 2 } :
      ChainSettings ℝ) 48000 = 2000 ∧
    makePeakFilter2 (Libm.mk Real.rpow (Real.logb 10) Real.sqrt Real.sin Real.cos Real.pi)
        ({ ChainSettings.init with peak1Freq := 1000, span := 2 } : ChainSettings ℝ) 48000
      = IIRmakePeakFilter
          (Libm.mk Real.rpow (Real.logb 10) Real.sqrt Real.sin Real.cos Real.pi)
          48000 2000 1
          (decibelsToGain
            (Libm.mk Real.rpow (Real.logb 10) Real.sqrt Real.sin Real.cos Real.pi) (0 + 0)) :=
  ⟨by norm_num,
    (peak2Freq_clamps_after_multiplication
      (Libm.mk Real.rpow (Real.logb 10) Real.sqrt Real.sin Real.cos Real.pi)
      ({ ChainSettings.init with peak1Freq := 1000, span := 2 } : ChainSettings ℝ) 48000
      (by norm_num)).2.2.2.2.1 rfl rfl⟩

end ClampTheorems

/-! ## The factory and the update protocol -/

section UpdateTheorems

variable {K : Type} [LinearOrderedField K]

/-- C3: `makePeakFilter` designs peak 1 at `peak1Freq` with gain factor
`decibelsToGain (peak1Gain - balance)`, `makePeakFilter2` designs peak 2 (at the clamped
`peak2Freq`) with gain factor `decibelsToGain (peak1Gain + balance)`, both with
`Q = peak1Quality`, and the two gains in dB average to `peak1Gain`. -/
theorem peak_gains_symmetric_around_peak1Gain (m : Libm K) (s : ChainSettings K)
    (sampleRate : K) :
    makePeakFilter m s sampleRate =
      IIRmakePeakFilter m sampleRate s.peak1Freq s.peak1Quality
        (decibelsToGain m (s.peak1GainInDecibels - s.balance)) ∧
    makePeakFilter2 m s sampleRate =
      IIRmakePeakFilter m sampleRate (peak2Freq s sampleRate) s.peak1Quality
        (decibelsToGain m (s.peak1GainInDecibels + s.balance)) ∧
    ((s.peak1GainInDecibels - s.balance) + (s.peak1GainInDecibels + s.balance)) / 2 =
      s.peak1GainInDecibels := by
  refine ⟨rfl, rfl, ?_⟩
  ring

/-- Neither `updateFilters` nor `updateGain` changes the parameters or the sample
rate. -/
theorem update_keeps_parameters (m : Libm K) (p : SimpleDualFilterAudioProcessor K) :
    (updateFilters m p).apvts = p.apvts ∧ (updateFilters m p).sampleRate = p.sampleRate ∧
    (updateGain m p).apvts = p.apvts ∧ (updateGain m p).sampleRate = p.sampleRate :=
  ⟨rfl, rfl, rfl, rfl⟩

/-- `updateFilters` followed by `updateGain` installs the current coefficients and
gain, whatever the chains held. -/
theorem update_holdsCurrent (m : Libm K) (p : SimpleDualFilterAudioProcessor K) :
    HoldsCurrent m p (updateGain m (updateFilters m p)) :=
  ⟨rfl, rfl, rfl, rfl, rfl, rfl⟩

/-- C5: running `updateFilters` then `updateGain` a second time, parameters and sample
rate unchanged, leaves both chains with the same `Peak1` coefficients, `Peak2`
coefficients and linear gain as after the first run (indeed the same chains). -/
theorem update_protocol_idempotent (m : Libm K) (p : SimpleDualFilterAudioProcessor K) :
    (updateGain m (updateFilters m (updateGain m (updateFilters m p)))).leftChain.Peak1.coefficients
      = (updateGain m (updateFilters m p)).leftChain.Peak1.coefficients ∧
    (updateGain m (updateFilters m (updateGain m (updateFilters m p)))).leftChain.Peak2.coefficients
      = (updateGain m (updateFilters m p)).leftChain.Peak2.coefficients ∧
    (updateGain m (updateFilters m (updateGain m (updateFilters m p)))).leftChain.outputGain.gain
      = (updateGain m (updateFilters m p)).leftChain.outputGain.gain ∧
    (updateGain m (updateFilters m (updateGain m (updateFilters m p)))).rightChain.Peak1.coefficients
      = (updateGain m (updateFilters m p)).rightChain.Peak1.coefficients ∧
    (updateGain m (updateFilters m (updateGain m (updateFilters m p)))).rightChain.Peak2.coefficients
      = (updateGain m (updateFilters m p)).rightChain.Peak2.coefficients ∧
    (updateGain m (updateFilters m (updateGain m (updateFilters m p)))).rightChain.outputGain.gain
      = (updateGain m (updateFilters m p)).rightChain.outputGain.gain ∧
    (updateGain m (updateFilters m (updateGain m (updateFilters m p)))).leftChain
      = (updateGain m (updateFilters m p)).leftChain ∧
    (updateGain m (updateFilters m (updateGain m (updateFilters m p)))).rightChain
      = (updateGain m (updateFilters m p)).rightChain :=
  ⟨rfl, rfl, rfl, rfl, rfl, rfl, rfl, rfl⟩

/-- Clearing a channel keeps the number of channels. -/
theorem clearChannel_length (buffer cleared : AudioBuffer K) (i : Nat)
    (h : AudioBuffer.clearChannel buffer i = some cleared) :
    cleared.length = buffer.length := by
  unfold AudioBuffer.clearChannel at h
  split_ifs at h
  simp only [Option.some.injEq] at h
  rw [← h, List.length_modify]

/-- The clearing loop returns when every channel it clears exists, and keeps the
number of channels. -/
theorem clearUnusedChannels_some (count : Nat) :
    ∀ (i : Nat) (buffer : AudioBuffer K), (count = 0 ∨ i + count ≤ buffer.length) →
      ∃ cleared, clearUnusedChannels count i buffer = some cleared ∧
        cleared.length = buffer.length := by
  induction count with
  | zero =>
    intro i buffer _
    exact ⟨buffer, rfl, rfl⟩
  | succ n ih =>
    intro i buffer h
    have hi : i + (n + 1) ≤ buffer.length := by
      rcases h with h | h
      · exact absurd h (Nat.succ_ne_zero n)
      · exact h
    have hlt : i < buffer.length := by omega
    have hc : AudioBuffer.clearChannel buffer i
        = some (buffer.modify (fun samples => samples.map fun _ => 0) i) := by
      unfold AudioBuffer.clearChannel
      rw [if_pos hlt]
    have hlen : (buffer.modify (fun samples => samples.map fun _ => (0 : K)) i).length
        = buffer.length := List.length_modify _ _ _
    obtain ⟨cleared, h1, h2⟩ := ih (i + 1)
      (buffer.modify (fun samples => samples.map fun _ => (0 : K)) i)
      (Or.inr (by rw [hlen]; omega))
    refine ⟨cleared, ?_, by rw [h2, hlen]⟩
    simp only [clearUnusedChannels, hc]
    exact h1

/-- A filter stage keeps its coefficients over a block. -/
theorem Filter.process_coefficients (f : Filter K) (block : List K) :
    (f.process block).1.coefficients = f.coefficients := by
  unfold Filter.process Filter.check Filter.reset
  split_ifs <;> rfl

/-- A chain keeps its coefficients and its gain over a block. -/
theorem MonoChain.process_keeps (c : MonoChain K) (block : List K) :
    (c.process block).1.Peak1.coefficients = c.Peak1.coefficients ∧
    (c.process block).1.Peak2.coefficients = c.Peak2.coefficients ∧
    (c.process block).1.outputGain = c.outputGain := by
  refine ⟨?_, ?_, rfl⟩
  · exact Filter.process_coefficients c.Peak1 block
  · exact Filter.process_coefficients c.Peak2 _

/-- What `processBlock` returns, when it returns: the updated processor with both
chains run over their channel. -/
theorem processBlock_eq_some (m : Libm K) (p : SimpleDualFilterAudioProcessor K)
    (buffer : AudioBuffer K) (r : SimpleDualFilterAudioProcessor K × AudioBuffer K)
    (h : processBlock m p buffer = some r) :
    ∃ leftBlock rightBlock,
      r.1 = { updateGain m (updateFilters m p) with
        leftChain := ((updateGain m (updateFilters m p)).leftChain.process leftBlock).1,
        rightChain := ((updateGain m (updateFilters m p)).rightChain.process rightBlock).1 } := by
  unfold processBlock at h
  split at h
  · exact absurd h (by simp)
  · split at h
    · rename_i leftBlock rightBlock _ _
      simp only [Option.some.injEq] at h
      exact ⟨leftBlock, rightBlock, by rw [← h]⟩
    · exact absurd h (by simp)

/-- C6: after `prepareToPlay`, and after every `processBlock` call (which returns for
every buffer with at least two channels and all output channels), both chains hold
`makePeakFilter (s, sampleRate)`, `makePeakFilter2 (s, sampleRate)` and
`decibelsToGain (s.outputGain)` for the current snapshot `s`, whatever they held before;
so left and right hold identical coefficients and gain. -/
theorem chains_hold_current_coefficients (m : Libm K)
    (p : SimpleDualFilterAudioProcessor K) (sampleRate : K) (samplesPerBlock : Nat)
    (buffer : AudioBuffer K) :
    (HoldsCurrent m p (prepareToPlay m p sampleRate samplesPerBlock) ∧
      StereoLinked (prepareToPlay m p sampleRate samplesPerBlock)) ∧
    (2 ≤ buffer.length → p.totalNumOutputChannels ≤ buffer.length →
      ∃ r, processBlock m p buffer = some r) ∧
    (∀ r, processBlock m p buffer = some r →
      HoldsCurrent m p r.1 ∧ StereoLinked r.1 ∧
      r.1.apvts = p.apvts ∧ r.1.sampleRate = p.sampleRate) := by
  refine ⟨⟨⟨rfl, rfl, rfl, rfl, rfl, rfl⟩, ⟨rfl, rfl, rfl⟩⟩, ?_, ?_⟩
  · intro h2 hout
    obtain ⟨cleared, hc, hlen⟩ := clearUnusedChannels_some
      (p.totalNumOutputChannels - p.totalNumInputChannels) p.totalNumInputChannels buffer
      (by omega)
    have h0 : 0 < cleared.length := by omega
    have h1 : 1 < cleared.length := by omega
    unfold processBlock
    simp only [hc, List.getElem?_eq_getElem h0, List.getElem?_eq_getElem h1]
    exact ⟨_, rfl⟩
  · intro r h
    obtain ⟨leftBlock, rightBlock, hr⟩ := processBlock_eq_some m p buffer r h
    have hl := MonoChain.process_keeps (updateGain m (updateFilters m p)).leftChain leftBlock
    have hrt := MonoChain.process_keeps (updateGain m (updateFilters m p)).rightChain
      rightBlock
    have hcur : HoldsCurrent m p r.1 := by
      rw [hr]
      exact ⟨hl.1, hl.2.1, by rw [hl.2.2]; rfl, hrt.1, hrt.2.1, by rw [hrt.2.2]; rfl⟩
    refine ⟨hcur, ⟨?_, ?_, ?_⟩, by rw [hr]; rfl, by rw [hr]; rfl⟩
    · rw [hcur.left1, hcur.right1]
    · rw [hcur.left2, hcur.right2]
    · rw [hcur.leftGain, hcur.rightGain]

end UpdateTheorems

/-! ## The parameter layout -/

section LayoutTheorems

variable {K : Type} [LinearOrderedField K]

/-- C7: `createParameterLayout` declares exactly six float parameters, with these
(id, min, max, step, skew, default); the ids are pairwise distinct and every default
lies in its own `[min, max]`. -/
theorem createParameterLayout_declares_six :
    (createParameterLayout : List (AudioParameterFloat K)).length = 6 ∧
    (createParameterLayout : List (AudioParameterFloat K)).map
        (fun d => (d.parameterID, d.range.rangeStart, d.range.rangeEnd, d.range.interval,
          d.range.skew, d.defaultValue))
      = [("Peak1 Freq", 20, 10000, 1, 1 / 4, 20),
         ("Peak1 Gain", -24, 24, 1 / 10, 1, 0),
         ("Peak1 Quality", 1 / 10, 10, 1 / 10, 1 / 4, 1),
         ("Span", 0, 10, 1 / 100, 1, 0),
         ("Balance", -12, 12, 1 / 10, 1, 0),
         ("Output Gain", -60, 0, 1 / 10, 1 / 4, 0)] ∧
    ((createParameterLayout : List (AudioParameterFloat K)).map
      (fun d => d.parameterID)).Nodup ∧
    (∀ d ∈ (createParameterLayout : List (AudioParameterFloat K)),
      d.range.rangeStart ≤ d.defaultValue ∧ d.defaultValue ≤ d.range.rangeEnd) := by
  refine ⟨rfl, rfl, ?_, ?_⟩
  · simp only [createParameterLayout, List.map]
    decide
  · intro d hd
    simp only [createParameterLayout, List.mem_cons, List.mem_singleton,
      List.not_mem_nil, or_false] at hd
    rcases hd with h | h | h | h | h | h <;> subst h <;> norm_num

end LayoutTheorems

/-! ## The frequency axis of the response curve -/

section AxisTheorems

/-- With the exact library, the frequency of pixel `i` of `w` is
`10 ^ (log10 20 + (i / w) * (log10 20000 - log10 20))`. -/
theorem paintFreq_exact (m : Libm ℝ) (hm : m.IsExact) (w i : Nat) :
    paintFreq m w i =
      (10 : ℝ) ^ (Real.logb 10 20 + ((i : ℝ) / (w : ℝ)) *
        (Real.logb 10 20000 - Real.logb 10 20)) := by
  unfold paintFreq mapToLog10
  rw [hm.pow_eq, hm.log10_eq]
  simp only [Real.rpow_eq_pow]
  congr 1
  ring

/-- The log-frequency span of the axis is positive. -/
theorem logb_span_pos : 0 < Real.logb 10 20000 - Real.logb 10 20 := by
  have h : Real.logb 10 20 < Real.logb 10 20000 :=
    Real.logb_lt_logb (by norm_num) (by norm_num) (by norm_num)
  linarith

/-- The frequency `10 ^ (log10 20 + x * span)` is strictly increasing in `x`. -/
theorem axis_strictMono (x y : ℝ) (h : x < y) :
    (10 : ℝ) ^ (Real.logb 10 20 + x * (Real.logb 10 20000 - Real.logb 10 20)) <
      (10 : ℝ) ^ (Real.logb 10 20 + y * (Real.logb 10 20000 - Real.logb 10 20)) := by
  rw [Real.rpow_lt_rpow_left_iff (by norm_num : (1 : ℝ) < 10)]
  have := mul_lt_mul_of_pos_right h logb_span_pos
  linarith

/-- The axis starts at 20 Hz. -/
theorem axis_zero :
    (10 : ℝ) ^ (Real.logb 10 20 + (0 : ℝ) * (Real.logb 10 20000 - Real.logb 10 20)) = 20 := by
  rw [zero_mul, add_zero]
  exact Real.rpow_logb (by norm_num) (by norm_num) (by norm_num)

/-- The axis reaches 20 kHz at `x = 1`. -/
theorem axis_one :
    (10 : ℝ) ^ (Real.logb 10 20 + (1 : ℝ) * (Real.logb 10 20000 - Real.logb 10 20))
      = 20000 := by
  have e : Real.logb 10 20 + (1 : ℝ) * (Real.logb 10 20000 - Real.logb 10 20)
      = Real.logb 10 20000 := by ring
  rw [e]
  exact Real.rpow_logb (by norm_num) (by norm_num) (by norm_num)

/-- C9: for an analysis area of width `w ≥ 1`, `paint` produces exactly `w` magnitudes;
value `i` is `gainToDecibels` of the product of the `Peak1` and `Peak2` magnitudes at
the frequency `10 ^ (log10 20 + (i / w) * (log10 20000 - log10 20))`; these frequencies
are strictly increasing in `i` and lie in `[20, 20000]`. -/
theorem paint_magnitudes (m : Libm ℝ) (hm : m.IsExact) (monoChain : MonoChain ℝ)
    (sampleRate : ℝ) (w : Nat) (hw : 1 ≤ w) :
    (paintMags m monoChain sampleRate w).length = w ∧
    (∀ i, i < w →
      (paintMags m monoChain sampleRate w)[i]? = some (gainToDecibels m
        (getMagnitudeForFrequency m monoChain.Peak1.coefficients (paintFreq m w i) sampleRate
          * getMagnitudeForFrequency m monoChain.Peak2.coefficients (paintFreq m w i)
              sampleRate)) ∧
      paintFreq m w i = (10 : ℝ) ^ (Real.logb 10 20 + ((i : ℝ) / (w : ℝ)) *
        (Real.logb 10 20000 - Real.logb 10 20))) ∧
    (∀ i j, i < j → j < w → paintFreq m w i < paintFreq m w j) ∧
    (∀ i, i < w → 20 ≤ paintFreq m w i ∧ paintFreq m w i ≤ 20000) := by
  have hwpos : (0 : ℝ) < (w : ℝ) := by exact_mod_cast hw
  refine ⟨by simp [paintMags], ?_, ?_, ?_⟩
  · intro i hi
    refine ⟨?_, paintFreq_exact m hm w i⟩
    simp [paintMags, paintMagnitude, List.getElem?_range hi]
  · intro i j hij _
    rw [paintFreq_exact m hm, paintFreq_exact m hm]
    apply axis_strictMono
    apply div_lt_div_of_pos_right _ hwpos
    exact_mod_cast hij
  · intro i hi
    rw [paintFreq_exact m hm]
    have h0 : (0 : ℝ) ≤ (i : ℝ) / (w : ℝ) := by positivity
    have h1 : (i : ℝ) / (w : ℝ) < 1 := by
      rw [div_lt_one hwpos]
      exact_mod_cast hi
    constructor
    · rcases h0.eq_or_lt with h | h
      · rw [← h]
        exact le_of_eq axis_zero.symm
      · have := axis_strictMono 0 _ h
        rw [axis_zero] at this
        exact le_of_lt this
    · have := axis_strictMono _ 1 h1
      rw [axis_one] at this
      exact le_of_lt this

/-- C9 at the exact real library, the default chain, 48 kHz and width 2: two
magnitudes, the second sampled above the first. -/
theorem paint_magnitudes_witness :
    (Libm.mk Real.rpow (Real.logb 10) Real.sqrt Real.sin Real.cos Real.pi).IsExact ∧
    1 ≤ 2 ∧
    (paintMags (Libm.mk Real.rpow (Real.logb 10) Real.sqrt Real.sin Real.cos Real.pi)
      MonoChain.init 48000 2).length = 2 ∧
    paintFreq (Libm.mk Real.rpow (Real.logb 10) Real.sqrt Real.sin Real.cos Real.pi) 2 0 <
      paintFreq (Libm.mk Real.rpow (Real.logb 10) Real.sqrt Real.sin Real.cos Real.pi) 2 1 :=
  have hm : (Libm.mk Real.rpow (Real.logb 10) Real.sqrt Real.sin Real.cos Real.pi).IsExact :=
    ⟨rfl, rfl, rfl, rfl, rfl, rfl⟩
  have h := paint_magnitudes _ hm MonoChain.init 48000 2 (by norm_num)
  ⟨hm, by norm_num, h.1, h.2.2.1 0 1 (by norm_num) (by norm_num)⟩

/-- The axis spans three decades: `log10 20000 - log10 20 = 3`. -/
theorem logb_span_eq : Real.logb 10 20000 - Real.logb 10 20 = 3 := by
  have h1 : (20000 : ℝ) = 20 * 10 ^ (3 : ℕ) := by norm_num
  have h2 : Real.logb 10 ((10 : ℝ) ^ (3 : ℕ)) = 3 := by
    rw [← Real.rpow_natCast, Real.logb_rpow (by norm_num) (by norm_num)]
    norm_num
  rw [h1, Real.logb_mul (by norm_num) (by norm_num), h2]
  ring

/-- The frequency at `x` along the axis is `20 * 1000 ^ x`. -/
theorem axis_eq (x : ℝ) :
    (10 : ℝ) ^ (Real.logb 10 20 + x * (Real.logb 10 20000 - Real.logb 10 20))
      = 20 * (1000 : ℝ) ^ x := by
  rw [logb_span_eq, Real.rpow_add (by norm_num),
    Real.rpow_logb (by norm_num) (by norm_num) (by norm_num)]
  have h : (1000 : ℝ) = (10 : ℝ) ^ (3 : ℝ) := by norm_num
  rw [h, ← Real.rpow_mul (by norm_num), mul_comm x 3]

/-- C10 as stated fails: for a display of width 3 the first point is sampled at 20 Hz
but the last point (index 2) at `20 * 1000 ^ (2 / 3) = 2000` Hz, not at 20 kHz. -/
theorem paint_last_point_not_20k :
    paintFreq (Libm.mk Real.rpow (Real.logb 10) Real.sqrt Real.sin Real.cos Real.pi) 3 0 = 20 ∧
    paintFreq (Libm.mk Real.rpow (Real.logb 10) Real.sqrt Real.sin Real.cos Real.pi) 3 (3 - 1)
      = 2000 ∧
    paintFreq (Libm.mk Real.rpow (Real.logb 10) Real.sqrt Real.sin Real.cos Real.pi) 3 (3 - 1)
      ≠ 20000 := by
  have hm : (Libm.mk Real.rpow (Real.logb 10) Real.sqrt Real.sin Real.cos Real.pi).IsExact :=
    ⟨rfl, rfl, rfl, rfl, rfl, rfl⟩
  have h2 : paintFreq
      (Libm.mk Real.rpow (Real.logb 10) Real.sqrt Real.sin Real.cos Real.pi) 3 (3 - 1)
      = 2000 := by
    rw [paintFreq_exact _ hm, axis_eq]
    have e : (((3 - 1 : ℕ) : ℝ) / ((3 : ℕ) : ℝ)) = (2 : ℝ) / 3 := by norm_num
    rw [e]
    have h : (1000 : ℝ) = (10 : ℝ) ^ (3 : ℝ) := by norm_num
    rw [h, ← Real.rpow_mul (by norm_num)]
    norm_num
  refine ⟨?_, h2, ?_⟩
  · rw [paintFreq_exact _ hm]
    simp only [Nat.cast_zero, zero_div]
    exact axis_zero
  · rw [h2]
    norm_num

/-- C10, as amended: for a display of width `N ≥ 1` the first point of the response
polyline is sampled at exactly 20 Hz and the last point (index `N - 1`) at
`20 * 1000 ^ ((N - 1) / N)` Hz, which is below 20 kHz. -/
theorem paint_first_and_last_point (m : Libm ℝ) (hm : m.IsExact) (N : Nat) (hN : 1 ≤ N) :
    paintFreq m N 0 = 20 ∧
    paintFreq m N (N - 1) = 20 * (1000 : ℝ) ^ (((N - 1 : ℕ) : ℝ) / (N : ℝ)) ∧
    paintFreq m N (N - 1) < 20000 := by
  have hNpos : (0 : ℝ) < (N : ℝ) := by exact_mod_cast hN
  refine ⟨?_, ?_, ?_⟩
  · rw [paintFreq_exact m hm]
    simp only [Nat.cast_zero, zero_div]
    exact axis_zero
  · rw [paintFreq_exact m hm, axis_eq]
  · rw [paintFreq_exact m hm]
    have h1 : ((N - 1 : ℕ) : ℝ) / (N : ℝ) < 1 := by
      rw [div_lt_one hNpos]
      exact_mod_cast Nat.sub_lt hN Nat.one_pos
    have := axis_strictMono _ 1 h1
    rw [axis_one] at this
    exact this

/-- The amended C10 at width 1: the only point is sampled at 20 Hz. -/
theorem paint_first_and_last_point_witness :
    (Libm.mk Real.rpow (Real.logb 10) Real.sqrt Real.sin Real.cos Real.pi).IsExact ∧
    1 ≤ 1 ∧
    paintFreq (Libm.mk Real.rpow (Real.logb 10) Real.sqrt Real.sin Real.cos Real.pi) 1 0 = 20 ∧
    paintFreq (Libm.mk Real.rpow (Real.logb 10) Real.sqrt Real.sin Real.cos Real.pi) 1 (1 - 1)
      < 20000 :=
  have hm : (Libm.mk Real.rpow (Real.logb 10) Real.sqrt Real.sin Real.cos Real.pi).IsExact :=
    ⟨rfl, rfl, rfl, rfl, rfl, rfl⟩
  have h := paint_first_and_last_point _ hm 1 (le_refl 1)
  ⟨hm, le_refl 1, h.1, h.2.2⟩

end AxisTheorems

/-! ## The output gain in `processBlock` -/

section GainTheorems

variable {K : Type} [LinearOrderedField K]

/-- A peak design with gain factor 1 has equal numerator and denominator: its stored
coefficients are `1, c, d, c, d`. -/
theorem IIRmakePeakFilter_unity (m : Libm K) (sampleRate frequency Q : K)
    (hsqrt : m.sqrt 1 = 1)
    (ha : 1 + m.sin (2 * m.pi * jmax frequency 2 / sampleRate) / (Q * 2) ≠ 0) :
    ∃ c d, (IIRmakePeakFilter m sampleRate frequency Q 1).coefficients = [1, c, d, c, d] := by
  have hA : jmax (0 : K) (m.sqrt 1) = 1 := by
    rw [hsqrt]
    unfold jmax
    rw [if_pos zero_lt_one]
  refine ⟨-2 * m.cos (2 * m.pi * jmax frequency 2 / sampleRate)
      * (1 / (1 + m.sin (2 * m.pi * jmax frequency 2 / sampleRate) / (Q * 2))),
    (1 - m.sin (2 * m.pi * jmax frequency 2 / sampleRate) / (Q * 2))
      * (1 / (1 + m.sin (2 * m.pi * jmax frequency 2 / sampleRate) / (Q * 2))), ?_⟩
  simp only [IIRmakePeakFilter, Coefficients.assign6, hA, mul_one, div_one, if_neg ha]
  rw [mul_one_div, div_self ha]

/-- The sample loop with coefficients `1, c, d, c, d` and zeroed registers copies its
input and leaves the registers zero. -/
theorem Filter.processSamples_unity (c d : K) (block : List K) :
    Filter.processSamples [1, c, d, c, d] 2 [0, 0] block = ([0, 0], block) := by
  induction block with
  | nil => rfl
  | cons x xs ih =>
    have hstep : Filter.processSample [1, c, d, c, d] 2 [0, 0] x = (x, [0, 0]) := by
      simp [Filter.processSample, List.range_succ]
    simp only [Filter.processSamples, hstep, ih]

/-- A stage with coefficients `1, c, d, c, d` whose registers are zero returns its input
block unchanged. -/
theorem filter_process_unity (f : Filter K) (c d : K) (block : List K)
    (hc : f.coefficients.coefficients = [1, c, d, c, d])
    (hst : f.state = List.replicate f.order 0) :
    (f.process block).2 = block := by
  have hord : f.coefficients.getFilterOrder = 2 := by
    simp [Coefficients.getFilterOrder, hc]
  unfold Filter.process Filter.check
  split_ifs with h
  · simp only [Filter.reset, hord, hc]
    have : List.replicate 2 (0 : K) = [0, 0] := rfl
    rw [this, Filter.processSamples_unity]
  · have h2 : f.order = 2 := by
      rw [← hord]
      exact not_not.mp h
    have : f.state = [0, 0] := by rw [hst, h2]; rfl
    simp only [hc, h2, this]
    rw [Filter.processSamples_unity]

/-- A chain whose two peak stages have coefficients of the form `1, c, d, c, d` and
zeroed registers multiplies its block by the gain of its gain stage. -/
theorem chain_process_unity (ch : MonoChain K) (c1 d1 c2 d2 : K) (block : List K)
    (h1 : ch.Peak1.coefficients.coefficients = [1, c1, d1, c1, d1])
    (hs1 : ch.Peak1.state = List.replicate ch.Peak1.order 0)
    (h2 : ch.Peak2.coefficients.coefficients = [1, c2, d2, c2, d2])
    (hs2 : ch.Peak2.state = List.replicate ch.Peak2.order 0) :
    (ch.process block).2 = block.map fun x => x * ch.outputGain.gain := by
  unfold MonoChain.process
  simp only [filter_process_unity ch.Peak1 c1 d1 block h1 hs1,
    filter_process_unity ch.Peak2 c2 d2 block h2 hs2, Gain.process]

/-- The snapshot of `apvtsOf s` has the six parameter fields of `s`. -/
theorem getChainSettings_apvtsOf (s : ChainSettings K) :
    getChainSettings (apvtsOf s) =
      { ChainSettings.init with
        peak1Freq := s.peak1Freq, peak1GainInDecibels := s.peak1GainInDecibels,
        peak1Quality := s.peak1Quality, span := s.span, balance := s.balance,
        outputGain := s.outputGain } := by
  simp [getChainSettings, apvtsOf, ChainSettings.init]

end GainTheorems

section GainTheoremsReal

/-- With the exact library, `decibelsToGain g` is `10 ^ (g / 20)` above -100 dB. -/
theorem decibelsToGain_exact (m : Libm ℝ) (hm : m.IsExact) (g : ℝ) (hg : -100 < g) :
    decibelsToGain m g = (10 : ℝ) ^ (g / 20) := by
  unfold decibelsToGain defaultMinusInfinitydB
  rw [if_pos hg, hm.pow_eq, mul_one_div]
  rfl

/-- With the exact library, the `a0` of a unity-gain peak design at a frequency in
`[20, sampleRate / 2]` and `Q > 0` is positive. -/
theorem peak_a0_pos (m : Libm ℝ) (hm : m.IsExact) (sampleRate frequency Q : ℝ)
    (hf : 20 ≤ frequency) (hfs : frequency ≤ sampleRate / 2) (hQ : 0 < Q) :
    0 < 1 + m.sin (2 * m.pi * jmax frequency 2 / sampleRate) / (Q * 2) := by
  have hj : jmax frequency 2 = frequency := by
    unfold jmax
    rw [if_neg (by linarith)]
  have hsr : 0 < sampleRate := by linarith
  rw [hj, hm.sin_eq, hm.pi_eq]
  have h0 : 0 ≤ 2 * Real.pi * frequency / sampleRate := by
    have := Real.pi_pos
    positivity
  have h1 : 2 * Real.pi * frequency / sampleRate ≤ Real.pi := by
    rw [div_le_iff₀ hsr]
    have := Real.pi_pos
    nlinarith
  have hsin := Real.sin_nonneg_of_nonneg_of_le_pi h0 h1
  have : 0 ≤ Real.sin (2 * Real.pi * frequency / sampleRate) / (Q * 2) := by positivity
  linarith

/-- C4, what the code does: on the first block after `prepareToPlay`, with both peaks at
unity (`peak1Gain = 0`, `balance = 0`) and `Output Gain` at `g` dB, `processBlock`
multiplies every sample of both channels by `10 ^ (g / 20)` twice, once in the gain
stage of the chain and once more in `buffer.applyGain`; at `g = -60` every output
sample is the input sample times `1 / 1000000`, not times `1 / 1000`. -/
theorem processBlock_applies_output_gain_twice (m : Libm ℝ) (hm : m.IsExact)
    (p0 : SimpleDualFilterAudioProcessor ℝ) (sampleRate : ℝ) (samplesPerBlock : Nat)
    (left right : List ℝ)
    (hs : (getChainSettings p0.apvts).InRange)
    (hgain : (getChainSettings p0.apvts).peak1GainInDecibels = 0)
    (hbal : (getChainSettings p0.apvts).balance = 0)
    (hsr : 40 ≤ p0.sampleRate)
    (hf : (getChainSettings p0.apvts).peak1Freq ≤ p0.sampleRate / 2)
    (hch : p0.totalNumInputChannels = p0.totalNumOutputChannels) :
    (∃ q, processBlock m (prepareToPlay m p0 sampleRate samplesPerBlock) [left, right]
      = some (q,
        [left.map (fun x => x * (10 : ℝ) ^ ((getChainSettings p0.apvts).outputGain / 20)
            * (10 : ℝ) ^ ((getChainSettings p0.apvts).outputGain / 20)),
         right.map (fun x => x * (10 : ℝ) ^ ((getChainSettings p0.apvts).outputGain / 20)
            * (10 : ℝ) ^ ((getChainSettings p0.apvts).outputGain / 20))])) ∧
    ((getChainSettings p0.apvts).outputGain = -60 →
      ∀ x : ℝ, x * (10 : ℝ) ^ ((getChainSettings p0.apvts).outputGain / 20)
        * (10 : ℝ) ^ ((getChainSettings p0.apvts).outputGain / 20) = x * (1 / 1000000)) := by
  have hQ : 0 < (getChainSettings p0.apvts).peak1Quality := by
    have := hs.peak1Quality_lo
    linarith
  have hG := decibelsToGain_exact m hm (getChainSettings p0.apvts).outputGain
    (by have := hs.outputGain_lo; linarith)
  have hone : decibelsToGain m 0 = 1 := by
    rw [decibelsToGain_exact m hm 0 (by norm_num)]
    simp
  have hsqrt : m.sqrt 1 = 1 := by rw [hm.sqrt_eq, Real.sqrt_one]
  have h2mem : 20 ≤ peak2Freq (getChainSettings p0.apvts) p0.sampleRate ∧
      peak2Freq (getChainSettings p0.apvts) p0.sampleRate ≤ p0.sampleRate / 2 :=
    jlimit_mem _ _ _ (by linarith)
  obtain ⟨c1, d1, e1⟩ := IIRmakePeakFilter_unity m p0.sampleRate
    (getChainSettings p0.apvts).peak1Freq (getChainSettings p0.apvts).peak1Quality hsqrt
    (ne_of_gt (peak_a0_pos m hm _ _ _ hs.peak1Freq_lo hf hQ))
  obtain ⟨c2, d2, e2⟩ := IIRmakePeakFilter_unity m p0.sampleRate
    (peak2Freq (getChainSettings p0.apvts) p0.sampleRate)
    (getChainSettings p0.apvts).peak1Quality hsqrt
    (ne_of_gt (peak_a0_pos m hm _ _ _ h2mem.1 h2mem.2 hQ))
  have hmk1 : (makePeakFilter m (getChainSettings p0.apvts) p0.sampleRate).coefficients
      = [1, c1, d1, c1, d1] := by
    unfold makePeakFilter
    rw [hgain, hbal, sub_zero, hone]
    exact e1
  have hmk2 : (makePeakFilter2 m (getChainSettings p0.apvts) p0.sampleRate).coefficients
      = [1, c2, d2, c2, d2] := by
    unfold makePeakFilter2
    rw [hgain, hbal, add_zero, hone]
    exact e2
  constructor
  · have hclear : clearUnusedChannels
        ((prepareToPlay m p0 sampleRate samplesPerBlock).totalNumOutputChannels
          - (prepareToPlay m p0 sampleRate samplesPerBlock).totalNumInputChannels)
        (prepareToPlay m p0 sampleRate samplesPerBlock).totalNumInputChannels [left, right]
        = some [left, right] := by
      have : (prepareToPlay m p0 sampleRate samplesPerBlock).totalNumOutputChannels
          - (prepareToPlay m p0 sampleRate samplesPerBlock).totalNumInputChannels = 0 := by
        show p0.totalNumOutputChannels - p0.totalNumInputChannels = 0
        omega
      rw [this]
      rfl
    have hL := chain_process_unity
      (updateGain m (updateFilters m (prepareToPlay m p0 sampleRate samplesPerBlock))).leftChain
      c1 d1 c2 d2 left hmk1 rfl hmk2 rfl
    have hR := chain_process_unity
      (updateGain m (updateFilters m (prepareToPlay m p0 sampleRate samplesPerBlock))).rightChain
      c1 d1 c2 d2 right hmk1 rfl hmk2 rfl
    have hgl : (updateGain m (updateFilters m
        (prepareToPlay m p0 sampleRate samplesPerBlock))).leftChain.outputGain.gain
        = (10 : ℝ) ^ ((getChainSettings p0.apvts).outputGain / 20) := hG
    have hgr : (updateGain m (updateFilters m
        (prepareToPlay m p0 sampleRate samplesPerBlock))).rightChain.outputGain.gain
        = (10 : ℝ) ^ ((getChainSettings p0.apvts).outputGain / 20) := hG
    rw [hgl] at hL
    rw [hgr] at hR
    have hG2 : decibelsToGain m
        (getChainSettings (prepareToPlay m p0 sampleRate samplesPerBlock).apvts).outputGain
        = (10 : ℝ) ^ ((getChainSettings p0.apvts).outputGain / 20) := hG
    unfold processBlock
    simp only [hclear, List.getElem?_cons_zero, List.getElem?_cons_succ, hL, hR, hG2,
      List.set_cons_zero, List.set_cons_succ, AudioBuffer.applyGain, List.map_cons,
      List.map_nil, List.map_map]
    exact ⟨_, rfl⟩
  · intro h60 x
    rw [h60]
    have h3 : (10 : ℝ) ^ ((-60 : ℝ) / 20) = 1 / 1000 := by
      have e : ((-60 : ℝ) / 20) = -(3 : ℝ) := by norm_num
      rw [e, Real.rpow_neg (by norm_num)]
      norm_num
    rw [h3]
    ring

/-- The snapshot of the example processor is `unityAtMinus60`. -/
theorem getChainSettings_processorAtMinus60 :
    getChainSettings (processorAtMinus60 : SimpleDualFilterAudioProcessor ℝ).apvts
      = unityAtMinus60 := by
  show getChainSettings (apvtsOf unityAtMinus60) = unityAtMinus60
  rw [getChainSettings_apvtsOf]
  rfl

/-- C4's evaluation at a concrete input: exact library, `Peak1 Freq` 1000, unity peaks,
`Output Gain` -60 dB, 48 kHz, a stereo block holding the sample 1 in each channel: the
block comes back holding `1 / 1000000`. -/
theorem processBlock_applies_output_gain_twice_witness :
    (Libm.mk Real.rpow (Real.logb 10) Real.sqrt Real.sin Real.cos Real.pi).IsExact ∧
    (getChainSettings (processorAtMinus60 : SimpleDualFilterAudioProcessor ℝ).apvts).InRange ∧
    (getChainSettings (processorAtMinus60 : SimpleDualFilterAudioProcessor ℝ).apvts).outputGain
      = -60 ∧
    ∃ q, processBlock (Libm.mk Real.rpow (Real.logb 10) Real.sqrt Real.sin Real.cos Real.pi)
      (prepareToPlay (Libm.mk Real.rpow (Real.logb 10) Real.sqrt Real.sin Real.cos Real.pi)
        processorAtMinus60 48000 512)
      [[1], [1]] = some (q, [[1 / 1000000], [1 / 1000000]]) := by
  have hm : (Libm.mk Real.rpow (Real.logb 10) Real.sqrt Real.sin Real.cos Real.pi).IsExact :=
    ⟨rfl, rfl, rfl, rfl, rfl, rfl⟩
  have hcs := getChainSettings_processorAtMinus60
  have hs : (getChainSettings
      (processorAtMinus60 : SimpleDualFilterAudioProcessor ℝ).apvts).InRange := by
    rw [hcs]
    constructor <;> norm_num [unityAtMinus60, ChainSettings.init]
  have hg : (getChainSettings
      (processorAtMinus60 : SimpleDualFilterAudioProcessor ℝ).apvts).outputGain = -60 := by
    rw [hcs]
    rfl
  have hsr : (processorAtMinus60 : SimpleDualFilterAudioProcessor ℝ).sampleRate = 48000 := rfl
  have key := processBlock_applies_output_gain_twice _ hm processorAtMinus60 48000 512 [1] [1]
    hs (by rw [hcs]; rfl) (by rw [hcs]; rfl) (by rw [hsr]; norm_num)
    (by rw [hcs, hsr]; norm_num [unityAtMinus60]) rfl
  obtain ⟨⟨q, hq⟩, h60⟩ := key
  refine ⟨hm, hs, hg, q, ?_⟩
  rw [hq]
  simp only [List.map_cons, List.map_nil, h60 hg, one_mul]

end GainTheoremsReal

/-! ## The response at the peak frequency -/

section MagnitudeTheorems

variable {K : Type} [LinearOrderedField K]

/-- The numerator loop of `getMagnitudeForFrequency` on a peak design, at the design's
own frequency (`jw = cos w - j sin w`): `N = (2 alpha A sin w / a0) * (sin w + j cos w)`. -/
theorem peak_numerator (sn cs al A a0 : K) (ha0 : a0 ≠ 0) (hsc : sn * sn + cs * cs = 1) :
    accumulate ({ re := cs, im := -sn } : Cx K)
      [(1 + al * A) * (1 / a0), -2 * cs * (1 / a0), (1 - al * A) * (1 / a0)]
      { re := 0, im := 0 } { re := 1, im := 0 }
    = { re := 2 * (al * A) * sn / a0 * sn, im := 2 * (al * A) * sn / a0 * cs } := by
  simp only [accumulate, Cx.add, Cx.scale, Cx.mul]
  congr 1
  · field_simp
    linear_combination (-(1 + al * A)) * hsc
  · field_simp
    ring

/-- The denominator loop of `getMagnitudeForFrequency` on a peak design, at the design's
own frequency: `D = (2 (alpha / A) sin w / a0) * (sin w + j cos w)`. -/
theorem peak_denominator (sn cs be a0 : K) (ha0 : a0 ≠ 0) (hsc : sn * sn + cs * cs = 1)
    (hb : a0 = 1 + be) :
    accumulate ({ re := cs, im := -sn } : Cx K)
      [-2 * cs * (1 / a0), (1 - be) * (1 / a0)]
      { re := 1, im := 0 } { re := cs, im := -sn }
    = { re := 2 * be * sn / a0 * sn, im := 2 * be * sn / a0 * cs } := by
  simp only [accumulate, Cx.add, Cx.scale, Cx.mul]
  congr 1
  · field_simp
    rw [hb]
    linear_combination (-(1 + be)) * hsc
  · field_simp
    ring

/-- Two complex numbers along the same unit direction divide to the real quotient of
their lengths. -/
theorem peak_quotient (sn cs kN kD : K) (hk : kD ≠ 0) (hsc : sn * sn + cs * cs = 1) :
    Cx.div ({ re := kN * sn, im := kN * cs } : Cx K) { re := kD * sn, im := kD * cs }
      = { re := kN / kD, im := 0 } := by
  have hden : kD * sn * (kD * sn) + kD * cs * (kD * cs) = kD * kD := by
    linear_combination (kD * kD) * hsc
  unfold Cx.div
  rw [hden]
  congr 1
  · field_simp
    linear_combination (kN * kD * kD) * hsc
  · field_simp
    ring

/-- The quotient of the two lengths is `A * A`. -/
theorem gain_quotient (sn al A a0 : K) (hsn : sn ≠ 0) (hal : al ≠ 0) (ha0 : a0 ≠ 0) :
    2 * (al * A) * sn / a0 / (2 * (al / A) * sn / a0) = A * A := by
  field_simp
  ring

end MagnitudeTheorems

section MagnitudeTheoremsReal

/-- With the exact library, the magnitude of a peak design at its own centre frequency
is its gain factor, for a centre frequency in `[2, sampleRate / 2)`, `Q > 0` and a
positive gain factor. -/
theorem peak_magnitude_at_centre (m : Libm ℝ) (hm : m.IsExact)
    (sampleRate frequency Q gainFactor : ℝ) (hf2 : 2 ≤ frequency)
    (hfs : frequency < sampleRate / 2) (hQ : 0 < Q) (hg : 0 < gainFactor) :
    getMagnitudeForFrequency m (IIRmakePeakFilter m sampleRate frequency Q gainFactor)
      frequency sampleRate = gainFactor := by
  have hsr : 0 < sampleRate := by linarith
  have hpi := Real.pi_pos
  have hj : jmax frequency 2 = frequency := by
    unfold jmax
    rw [if_neg (by linarith)]
  have hsq : 0 < Real.sqrt gainFactor := Real.sqrt_pos.mpr hg
  have hA : jmax 0 (m.sqrt gainFactor) = Real.sqrt gainFactor := by
    rw [hm.sqrt_eq]
    unfold jmax
    rw [if_pos hsq]
  have hw0 : 0 < 2 * Real.pi * frequency / sampleRate := by positivity
  have hw1 : 2 * Real.pi * frequency / sampleRate < Real.pi := by
    rw [div_lt_iff₀ hsr]
    nlinarith
  have hsn : 0 < Real.sin (2 * Real.pi * frequency / sampleRate) :=
    Real.sin_pos_of_pos_of_lt_pi hw0 hw1
  have hsc : Real.sin (2 * Real.pi * frequency / sampleRate)
        * Real.sin (2 * Real.pi * frequency / sampleRate)
      + Real.cos (2 * Real.pi * frequency / sampleRate)
        * Real.cos (2 * Real.pi * frequency / sampleRate) = 1 := by
    have := Real.sin_sq_add_cos_sq (2 * Real.pi * frequency / sampleRate)
    nlinarith
  have hneg : -(2 * Real.pi) * frequency / sampleRate
      = -(2 * Real.pi * frequency / sampleRate) := by ring
  have hal : 0 < Real.sin (2 * Real.pi * frequency / sampleRate) / (Q * 2) := by positivity
  have hbe : 0 < Real.sin (2 * Real.pi * frequency / sampleRate) / (Q * 2)
      / Real.sqrt gainFactor := by positivity
  have ha0 : (1 : ℝ) + Real.sin (2 * Real.pi * frequency / sampleRate) / (Q * 2)
      / Real.sqrt gainFactor ≠ 0 := by positivity
  have hcoef : (IIRmakePeakFilter m sampleRate frequency Q gainFactor).coefficients.length
      = 5 := rfl
  unfold getMagnitudeForFrequency
  simp only [Coefficients.getFilterOrder, hcoef]
  simp only [IIRmakePeakFilter, Coefficients.assign6, hj, hA, hm.sin_eq, hm.cos_eq, hm.pi_eq,
    if_neg ha0, Cx.expJ, hneg, Real.sin_neg, Real.cos_neg]
  norm_num only [List.take, List.drop]
  rw [peak_numerator _ _ _ _ _ ha0 hsc, peak_denominator _ _ _ _ ha0 hsc rfl,
    peak_quotient _ _ _ _ (by positivity) hsc]
  have hq : 2 * (Real.sin (2 * Real.pi * frequency / sampleRate) / (Q * 2) * √gainFactor)
        * Real.sin (2 * Real.pi * frequency / sampleRate)
        / (1 + Real.sin (2 * Real.pi * frequency / sampleRate) / (Q * 2) / √gainFactor)
      / (2 * (Real.sin (2 * Real.pi * frequency / sampleRate) / (Q * 2) / √gainFactor)
        * Real.sin (2 * Real.pi * frequency / sampleRate)
        / (1 + Real.sin (2 * Real.pi * frequency / sampleRate) / (Q * 2) / √gainFactor))
      = gainFactor := by
    rw [gain_quotient _ _ _ _ hsn.ne' hal.ne' ha0]
    exact Real.mul_self_sqrt hg.le
  rw [hq]
  unfold Cx.abs
  rw [hm.sqrt_eq, mul_zero, add_zero, Real.sqrt_mul_self hg.le]

/-- With the exact library, `gainToDecibels` of the product of two equal gains
`10 ^ (G / 20)` is `2 * G`, as long as that is above -100 dB. -/
theorem gainToDecibels_stacked (m : Libm ℝ) (hm : m.IsExact) (G : ℝ) (hG : -50 < G) :
    gainToDecibels m (1 * (10 : ℝ) ^ (G / 20) * (10 : ℝ) ^ (G / 20)) = 2 * G := by
  have hpos : 0 < (1 : ℝ) * (10 : ℝ) ^ (G / 20) * (10 : ℝ) ^ (G / 20) := by positivity
  have hprod : (1 : ℝ) * (10 : ℝ) ^ (G / 20) * (10 : ℝ) ^ (G / 20)
      = (10 : ℝ) ^ (G / 20 + G / 20) := by
    rw [one_mul, ← Real.rpow_add (by norm_num)]
  unfold gainToDecibels jmax defaultMinusInfinitydB
  rw [if_pos hpos, hm.log10_eq, hprod, Real.logb_rpow (by norm_num) (by norm_num)]
  rw [if_pos (by linarith)]
  ring

end MagnitudeTheoremsReal

/-! ## The response polyline -/

section PolylineTheorems

variable {K : Type} [LinearOrderedField K]

/-- The `map` of `paint` keeps a value inside the area exactly when the value is within
`[-24, 24]`: `jmap` does not clamp. -/
theorem paintMap_within_iff (responseArea : Rectangle) (hh : 0 < responseArea.h) (mag : K) :
    (((responseArea.getY : Int) : K) ≤ paintMap responseArea mag ∧
      paintMap responseArea mag ≤ ((responseArea.getBottom : Int) : K)) ↔
    (-24 ≤ mag ∧ mag ≤ 24) := by
  have hlt : ((responseArea.getY : Int) : K) < ((responseArea.getBottom : Int) : K) := by
    unfold Rectangle.getY Rectangle.getBottom
    have : (0 : K) < (responseArea.h : K) := by exact_mod_cast hh
    push_cast
    linarith
  have hd : (0 : K) < ((responseArea.getBottom : Int) : K) - ((responseArea.getY : Int) : K) := by
    linarith
  have hy : paintMap responseArea mag = ((responseArea.getBottom : Int) : K)
      - (((responseArea.getBottom : Int) : K) - ((responseArea.getY : Int) : K))
        * (mag + 24) / 48 := by
    unfold paintMap jmap
    ring
  rw [hy]
  constructor
  · rintro ⟨h1, h2⟩
    have e1 : (((responseArea.getBottom : Int) : K) - ((responseArea.getY : Int) : K))
        * (mag + 24) / 48
        ≤ ((responseArea.getBottom : Int) : K) - ((responseArea.getY : Int) : K) := by
      linarith
    have e2 : 0 ≤ (((responseArea.getBottom : Int) : K) - ((responseArea.getY : Int) : K))
        * (mag + 24) / 48 := by linarith
    rw [div_le_iff₀ (by norm_num : (0 : K) < 48)] at e1
    rw [le_div_iff₀ (by norm_num : (0 : K) < 48), zero_mul] at e2
    have f1 : mag + 24 ≤ 48 := le_of_mul_le_mul_left e1 hd
    have f2 : 0 ≤ mag + 24 := by
      by_contra hneg
      have := mul_neg_of_pos_of_neg hd (not_le.mp hneg)
      linarith
    constructor <;> linarith
  · rintro ⟨h1, h2⟩
    have f1 : mag + 24 ≤ 48 := by linarith
    have f2 : 0 ≤ mag + 24 := by linarith
    have e1 := mul_le_mul_of_nonneg_left f1 hd.le
    have e2 := mul_nonneg hd.le f2
    constructor
    · have : (((responseArea.getBottom : Int) : K) - ((responseArea.getY : Int) : K))
          * (mag + 24) / 48
          ≤ ((responseArea.getBottom : Int) : K) - ((responseArea.getY : Int) : K) := by
        rw [div_le_iff₀ (by norm_num : (0 : K) < 48)]
        exact e1
      linarith
    · have : 0 ≤ (((responseArea.getBottom : Int) : K) - ((responseArea.getY : Int) : K))
          * (mag + 24) / 48 := by positivity
      linarith

/-- Entry `i` of `mags` is the loop body at the frequency of pixel `i`. -/
theorem paintMags_getD (m : Libm K) (monoChain : MonoChain K) (sampleRate : K) (w i : Nat)
    (hi : i < w) :
    (paintMags m monoChain sampleRate w).getD i 0
      = paintMagnitude m monoChain sampleRate (paintFreq m w i) := by
  unfold paintMags
  rw [List.getD_eq_getElem?_getD, List.getElem?_map, List.getElem?_range hi]
  rfl

/-- C11, as amended: for an analysis area of width at least 1 and positive height,
`paint` gives the path one point per pixel, point `i` at
`(getX () + i, jmap (mags[i], -24, 24, getBottom (), getY ()))`; `jmap` is a linear map
without a clamp, so the y coordinate lies between the top and the bottom of the area
exactly when the combined magnitude `mags[i]` lies in `[-24, +24]` dB, and outside the
area otherwise. -/
theorem paint_points_within_area_iff (m : Libm K) (monoChain : MonoChain K) (sampleRate : K)
    (responseArea : Rectangle) (hw : 1 ≤ responseArea.w) (hh : 0 < responseArea.h) :
    ∃ points, paintResponseCurve m monoChain sampleRate responseArea = some points ∧
      points.length = responseArea.w.toNat ∧
      ∀ i, i < responseArea.w.toNat →
        points[i]? = some (((responseArea.getX : Int) : K) + (i : K),
          jmap (paintMagnitude m monoChain sampleRate (paintFreq m responseArea.w.toNat i))
            (-24) 24 ((responseArea.getBottom : Int) : K) ((responseArea.getY : Int) : K)) ∧
        ((((responseArea.getY : Int) : K) ≤
            jmap (paintMagnitude m monoChain sampleRate (paintFreq m responseArea.w.toNat i))
              (-24) 24 ((responseArea.getBottom : Int) : K) ((responseArea.getY : Int) : K) ∧
          jmap (paintMagnitude m monoChain sampleRate (paintFreq m responseArea.w.toNat i))
              (-24) 24 ((responseArea.getBottom : Int) : K) ((responseArea.getY : Int) : K)
            ≤ ((responseArea.getBottom : Int) : K)) ↔
          (-24 ≤ paintMagnitude m monoChain sampleRate (paintFreq m responseArea.w.toNat i) ∧
            paintMagnitude m monoChain sampleRate (paintFreq m responseArea.w.toNat i) ≤ 24)) := by
  have hnot : ¬ responseArea.getWidth < 1 := by
    unfold Rectangle.getWidth
    omega
  have hlen : (paintMags m monoChain sampleRate responseArea.w.toNat).length
      = responseArea.w.toNat := by
    simp [paintMags]
  have hpts : paintResponseCurve m monoChain sampleRate responseArea
      = some ((List.range
          (paintMags m monoChain sampleRate responseArea.getWidth.toNat).length).map
        fun (i : Nat) => (((responseArea.getX : Int) : K) + (i : K),
          paintMap responseArea
            ((paintMags m monoChain sampleRate responseArea.getWidth.toNat).getD i 0))) := by
    unfold paintResponseCurve
    rw [if_neg hnot]
  refine ⟨_, hpts, ?_, ?_⟩
  · simp only [List.length_map, List.length_range, Rectangle.getWidth]
    exact hlen
  · intro i hi
    refine ⟨?_, paintMap_within_iff responseArea hh _⟩
    have hi2 : i < (paintMags m monoChain sampleRate responseArea.getWidth.toNat).length := by
      unfold Rectangle.getWidth
      rw [hlen]
      exact hi
    rw [List.getElem?_map, List.getElem?_range hi2]
    simp only [Option.map_some', Rectangle.getWidth]
    rw [paintMags_getD m monoChain sampleRate _ i hi]
    rfl

end PolylineTheorems

section PolylineTheoremsReal

/-- With the exact library, a chain whose two peak stages are the same design, centred
at `frequency` below the Nyquist frequency with gain factor `10 ^ (G / 20)`, has the
response-curve value `2 * G` dB at `frequency`. -/
theorem paintMagnitude_at_centre (m : Libm ℝ) (hm : m.IsExact) (monoChain : MonoChain ℝ)
    (sampleRate frequency Q G : ℝ) (hf2 : 2 ≤ frequency) (hfs : frequency < sampleRate / 2)
    (hQ : 0 < Q) (hG : -50 < G)
    (h1 : monoChain.Peak1.coefficients
      = IIRmakePeakFilter m sampleRate frequency Q ((10 : ℝ) ^ (G / 20)))
    (h2 : monoChain.Peak2.coefficients
      = IIRmakePeakFilter m sampleRate frequency Q ((10 : ℝ) ^ (G / 20))) :
    paintMagnitude m monoChain sampleRate frequency = 2 * G := by
  have hgpos : 0 < (10 : ℝ) ^ (G / 20) := by positivity
  unfold paintMagnitude
  simp only [h1, h2]
  rw [peak_magnitude_at_centre m hm _ _ _ _ hf2 hfs hQ hgpos]
  exact gainToDecibels_stacked m hm _ hG

/-- The snapshot of the loud processor is `loudSettings`. -/
theorem getChainSettings_loudProcessor :
    getChainSettings (loudProcessor : SimpleDualFilterAudioProcessor ℝ).apvts
      = loudSettings := by
  show getChainSettings (apvtsOf loudSettings) = loudSettings
  rw [getChainSettings_apvtsOf]
  rfl

/-- C11 as stated fails: in-range settings (20 Hz, +24 dB, Q 1, span 0, balance 0) at
48 kHz give a combined magnitude of +48 dB at pixel 0 (20 Hz), and on an analysis area
with top 0 and bottom 100 `paint` gives that point the y coordinate -50, above the
top. -/
theorem paint_point_above_area :
    (getChainSettings (loudProcessor : SimpleDualFilterAudioProcessor ℝ).apvts).InRange ∧
    paintResponseCurve (Libm.mk Real.rpow (Real.logb 10) Real.sqrt Real.sin Real.cos Real.pi)
      (ResponseCurveComponent.init.updateChain
        (Libm.mk Real.rpow (Real.logb 10) Real.sqrt Real.sin Real.cos Real.pi)
        loudProcessor).monoChain 48000 { x := 0, y := 0, w := 1, h := 100 }
      = some [(0, -50)] ∧
    ¬ ((((Rectangle.mk 0 0 1 100).getY : Int) : ℝ) ≤ -50) := by
  have hm : (Libm.mk Real.rpow (Real.logb 10) Real.sqrt Real.sin Real.cos Real.pi).IsExact :=
    ⟨rfl, rfl, rfl, rfl, rfl, rfl⟩
  have hcs := getChainSettings_loudProcessor
  have hs : (getChainSettings
      (loudProcessor : SimpleDualFilterAudioProcessor ℝ).apvts).InRange := by
    rw [hcs]
    constructor <;> norm_num [loudSettings, ChainSettings.init]
  have hg := decibelsToGain_exact _ hm 24 (by norm_num)
  have h2 : peak2Freq (loudSettings : ChainSettings ℝ) 48000 = 20 := by
    norm_num [peak2Freq, jlimit, spanFactor, loudSettings, ChainSettings.init]
  have hc1 : (ResponseCurveComponent.init.updateChain
      (Libm.mk Real.rpow (Real.logb 10) Real.sqrt Real.sin Real.cos Real.pi)
      (loudProcessor : SimpleDualFilterAudioProcessor ℝ)).monoChain.Peak1.coefficients
      = IIRmakePeakFilter
          (Libm.mk Real.rpow (Real.logb 10) Real.sqrt Real.sin Real.cos Real.pi)
          48000 20 1 ((10 : ℝ) ^ ((24 : ℝ) / 20)) := by
    show makePeakFilter _ (getChainSettings loudProcessor.apvts) _ = _
    rw [hcs, ← hg]
    unfold makePeakFilter
    have e : (loudSettings : ChainSettings ℝ).peak1GainInDecibels
        - (loudSettings : ChainSettings ℝ).balance = 24 := by
      norm_num [loudSettings, ChainSettings.init]
    rw [e]
    rfl
  have hc2 : (ResponseCurveComponent.init.updateChain
      (Libm.mk Real.rpow (Real.logb 10) Real.sqrt Real.sin Real.cos Real.pi)
      (loudProcessor : SimpleDualFilterAudioProcessor ℝ)).monoChain.Peak2.coefficients
      = IIRmakePeakFilter
          (Libm.mk Real.rpow (Real.logb 10) Real.sqrt Real.sin Real.cos Real.pi)
          48000 20 1 ((10 : ℝ) ^ ((24 : ℝ) / 20)) := by
    show makePeakFilter2 _ (getChainSettings loudProcessor.apvts) _ = _
    rw [hcs, ← hg]
    unfold makePeakFilter2
    have e : (loudSettings : ChainSettings ℝ).peak1GainInDecibels
        + (loudSettings : ChainSettings ℝ).balance = 24 := by
      norm_num [loudSettings, ChainSettings.init]
    have hsr : (loudProcessor : SimpleDualFilterAudioProcessor ℝ).sampleRate = 48000 := rfl
    rw [e, hsr, h2]
    rfl
  have hmag := paintMagnitude_at_centre _ hm _ 48000 20 1 24 (by norm_num) (by norm_num)
    (by norm_num) (by norm_num) hc1 hc2
  have hfreq : paintFreq
      (Libm.mk Real.rpow (Real.logb 10) Real.sqrt Real.sin Real.cos Real.pi) 1 0 = 20 := by
    rw [paintFreq_exact _ hm]
    simp only [Nat.cast_zero, zero_div]
    exact axis_zero
  refine ⟨hs, ?_, ?_⟩
  · have hmags : paintMags
        (Libm.mk Real.rpow (Real.logb 10) Real.sqrt Real.sin Real.cos Real.pi)
        (ResponseCurveComponent.init.updateChain
          (Libm.mk Real.rpow (Real.logb 10) Real.sqrt Real.sin Real.cos Real.pi)
          loudProcessor).monoChain 48000 1 = [2 * 24] := by
      unfold paintMags
      have hr : List.range 1 = [0] := rfl
      rw [hr]
      simp only [List.map_cons, List.map_nil, hfreq, hmag]
    have hw1 : (Rectangle.mk 0 0 1 100).getWidth.toNat = 1 := rfl
    unfold paintResponseCurve
    rw [if_neg (by decide), hw1, hmags]
    norm_num [paintMap, jmap, Rectangle.getX, Rectangle.getY, Rectangle.getBottom,
      List.range_succ]
  · norm_num [Rectangle.getY]

/-- The amended C11 at an analysis area of width 1 and height 100, the default chain
and 48 kHz: one point is given to the path. -/
theorem paint_points_within_area_iff_witness :
    (1 : Int) ≤ (Rectangle.mk 0 0 1 100).w ∧ (0 : Int) < (Rectangle.mk 0 0 1 100).h ∧
    ∃ points, paintResponseCurve
        (Libm.mk Real.rpow (Real.logb 10) Real.sqrt Real.sin Real.cos Real.pi)
        MonoChain.init 48000 (Rectangle.mk 0 0 1 100) = some points ∧
      points.length = 1 := by
  obtain ⟨points, h1, h2, _⟩ := paint_points_within_area_iff
    (Libm.mk Real.rpow (Real.logb 10) Real.sqrt Real.sin Real.cos Real.pi)
    MonoChain.init 48000 (Rectangle.mk 0 0 1 100) (by norm_num) (by norm_num)
  exact ⟨by norm_num, by norm_num, points, h1, h2⟩

end PolylineTheoremsReal

/-! ## The change flag and the timer -/

section TimerTheorems

/-- Any non-empty run of notifications leaves the flag set and the chain untouched. -/
theorem notifyAll_sets_flag {K : Type} (notifications : List (Int × K)) :
    ∀ r : ResponseCurveComponent K,
      (r.notifyAll notifications).monoChain = r.monoChain ∧
      (notifications ≠ [] → (r.notifyAll notifications).parametersChanged = true) ∧
      (r.parametersChanged = true → (r.notifyAll notifications).parametersChanged = true) := by
  induction notifications with
  | nil =>
    intro r
    exact ⟨rfl, fun h => absurd rfl h, fun h => h⟩
  | cons n ns ih =>
    intro r
    have h := ih (r.parameterValueChanged n.1 n.2)
    exact ⟨h.1, fun _ => h.2.2 rfl, fun _ => h.2.2 rfl⟩

variable {K : Type} [LinearOrderedField K]

/-- A tick on a set flag clears it, rebuilds the chain and asks for a repaint. -/
theorem timerCallback_set (m : Libm K) (r : ResponseCurveComponent K)
    (p : SimpleDualFilterAudioProcessor K) (h : r.parametersChanged = true) :
    r.timerCallback m p
      = (({ r with parametersChanged := false } : ResponseCurveComponent K).updateChain m p,
          true) := by
  unfold ResponseCurveComponent.timerCallback compareAndSetBool
  simp [h]

/-- A tick on a clear flag does nothing. -/
theorem timerCallback_clear (m : Libm K) (r : ResponseCurveComponent K)
    (p : SimpleDualFilterAudioProcessor K) (h : r.parametersChanged = false) :
    r.timerCallback m p = (r, false) := by
  unfold ResponseCurveComponent.timerCallback compareAndSetBool
  cases r
  simp_all

/-- C12: `timerCallback` tests and clears the flag.  On a set flag it clears it, rebuilds
the `Peak1` and `Peak2` coefficients of `monoChain` from the current snapshot and the
processor's sample rate, and requests a repaint; on a clear flag it changes nothing and
requests no repaint.  `parameterValueChanged` always sets the flag, so `k ≥ 1`
notifications between two ticks cause one rebuild on the next tick and none on the
tick after it. -/
theorem timer_tests_and_clears_flag (m : Libm K) (r : ResponseCurveComponent K)
    (p p2 : SimpleDualFilterAudioProcessor K) (parameterIndex : Int) (newValue : K)
    (notifications : List (Int × K)) :
    (r.parametersChanged = true →
      (r.timerCallback m p).2 = true ∧
      (r.timerCallback m p).1.parametersChanged = false ∧
      (r.timerCallback m p).1.monoChain.Peak1.coefficients
        = makePeakFilter m (getChainSettings p.apvts) p.sampleRate ∧
      (r.timerCallback m p).1.monoChain.Peak2.coefficients
        = makePeakFilter2 m (getChainSettings p.apvts) p.sampleRate) ∧
    (r.parametersChanged = false → r.timerCallback m p = (r, false)) ∧
    ((r.parameterValueChanged parameterIndex newValue).parametersChanged = true ∧
      (r.parameterValueChanged parameterIndex newValue).monoChain = r.monoChain) ∧
    (1 ≤ notifications.length →
      ((r.notifyAll notifications).timerCallback m p).2 = true ∧
      (((r.notifyAll notifications).timerCallback m p).1.timerCallback m p2).2 = false ∧
      (((r.notifyAll notifications).timerCallback m p).1.timerCallback m p2).1
        = ((r.notifyAll notifications).timerCallback m p).1) := by
  refine ⟨?_, timerCallback_clear m r p, ⟨rfl, rfl⟩, ?_⟩
  · intro h
    rw [timerCallback_set m r p h]
    exact ⟨rfl, rfl, rfl, rfl⟩
  · intro hk
    have hne : notifications ≠ [] := by
      intro h0
      rw [h0] at hk
      exact Nat.not_succ_le_zero 0 hk
    have hflag := (notifyAll_sets_flag notifications r).2.1 hne
    rw [timerCallback_set m _ p hflag]
    refine ⟨rfl, ?_, ?_⟩
    · rw [timerCallback_clear m _ p2 rfl]
    · rw [timerCallback_clear m _ p2 rfl]

/-- C12 at a concrete run: three notifications on the default component, then two
ticks: the first repaints, the second does not. -/
theorem timer_tests_and_clears_flag_witness :
    1 ≤ ([(0, 1000), (1, 12), (0, 2000)] : List (Int × ℝ)).length ∧
    (((ResponseCurveComponent.init.notifyAll
        ([(0, 1000), (1, 12), (0, 2000)] : List (Int × ℝ))).timerCallback
      (Libm.mk Real.rpow (Real.logb 10) Real.sqrt Real.sin Real.cos Real.pi)
      scenarioProcessor).2 = true) ∧
    ((((ResponseCurveComponent.init.notifyAll
        ([(0, 1000), (1, 12), (0, 2000)] : List (Int × ℝ))).timerCallback
      (Libm.mk Real.rpow (Real.logb 10) Real.sqrt Real.sin Real.cos Real.pi)
      scenarioProcessor).1.timerCallback
      (Libm.mk Real.rpow (Real.logb 10) Real.sqrt Real.sin Real.cos Real.pi)
      scenarioProcessor).2 = false) :=
  have h := (timer_tests_and_clears_flag
    (Libm.mk Real.rpow (Real.logb 10) Real.sqrt Real.sin Real.cos Real.pi)
    (ResponseCurveComponent.init : ResponseCurveComponent ℝ) scenarioProcessor
    scenarioProcessor 0 0 [(0, 1000), (1, 12), (0, 2000)]).2.2.2
    (by decide : 1 ≤ ([(0, 1000), (1, 12), (0, 2000)] : List (Int × ℝ)).length)
  ⟨by decide, h.1, h.2.1⟩

end TimerTheorems

/-! ## Persisted state -/

section StateTheorems

variable {K : Type} [LinearOrderedField K]

/-- C13: `setStateInformation` changes nothing when the data does not decode to a valid
tree: the whole processor (parameters, coefficients and gain of both chains) is as
before; only for a valid tree is the state replaced and `updateFilters`, `updateGain`
run. -/
theorem setStateInformation_atomic_on_failure {D : Type} (m : Libm K)
    (codec : ValueTreeCodec K D) (p : SimpleDualFilterAudioProcessor K) (data : D) :
    ((codec.readFromData data).isValid = false →
      setStateInformation m codec p data = p) ∧
    ((codec.readFromData data).isValid = true →
      setStateInformation m codec p data
        = updateGain m (updateFilters m
            { p with apvts := p.apvts.replaceState (codec.readFromData data) })) := by
  constructor
  · intro h
    unfold setStateInformation
    simp [h]
  · intro h
    unfold setStateInformation
    simp [h]

/-- C13 at the example codec: data that does not decode leaves the scenario processor
as it was. -/
theorem setStateInformation_atomic_on_failure_witness :
    ((listCodec : ValueTreeCodec ℝ (Option (List (String × ℝ)))).readFromData none).isValid
      = false ∧
    (setStateInformation
      (Libm.mk Real.rpow (Real.logb 10) Real.sqrt Real.sin Real.cos Real.pi) listCodec
      scenarioProcessor none).leftChain = (scenarioProcessor : SimpleDualFilterAudioProcessor ℝ).leftChain :=
  ⟨rfl, by
    rw [(setStateInformation_atomic_on_failure
      (Libm.mk Real.rpow (Real.logb 10) Real.sqrt Real.sin Real.cos Real.pi) listCodec
      (scenarioProcessor : SimpleDualFilterAudioProcessor ℝ) none).1 rfl]⟩

/-- Reading the state of `source` into any parameter tree gives the snapshot of
`source`. -/
theorem getChainSettings_replaceState (target source : AudioProcessorValueTreeState K) :
    getChainSettings (target.replaceState source.state) = getChainSettings source := by
  simp [getChainSettings, AudioProcessorValueTreeState.replaceState,
    AudioProcessorValueTreeState.state, createParameterLayout, List.lookup]

/-- C18: persisted state round-trips.  When the codec reads back the tree it wrote, the
bytes `getStateInformation` writes for `p`, given to `setStateInformation` (of `p`
itself or of any other instance `q`), yield a processor whose `getChainSettings`
snapshot equals the snapshot of `p` before serialisation. -/
theorem state_round_trip {D : Type} (m : Libm K) (codec : ValueTreeCodec K D)
    (p q : SimpleDualFilterAudioProcessor K)
    (hcodec : codec.readFromData (codec.writeToStream p.apvts.state) = p.apvts.state) :
    getChainSettings (setStateInformation m codec p (getStateInformation codec p)).apvts
      = getChainSettings p.apvts ∧
    getChainSettings (setStateInformation m codec q (getStateInformation codec p)).apvts
      = getChainSettings p.apvts := by
  have hv : (codec.readFromData (codec.writeToStream p.apvts.state)).isValid = true := by
    rw [hcodec]
    rfl
  have key : ∀ r : SimpleDualFilterAudioProcessor K,
      getChainSettings (setStateInformation m codec r (getStateInformation codec p)).apvts
        = getChainSettings p.apvts := by
    intro r
    unfold setStateInformation getStateInformation
    simp only [hv, if_true]
    show getChainSettings (r.apvts.replaceState
      (codec.readFromData (codec.writeToStream p.apvts.state))) = _
    rw [hcodec]
    exact getChainSettings_replaceState r.apvts p.apvts
  exact ⟨key p, key q⟩

/-- C18 at the example codec: the state of the scenario processor, read into the
processor of the Nyquist example, gives the scenario snapshot. -/
theorem state_round_trip_witness :
    (listCodec : ValueTreeCodec ℝ (Option (List (String × ℝ)))).readFromData
        (listCodec.writeToStream (scenarioProcessor : SimpleDualFilterAudioProcessor ℝ).apvts.state)
      = (scenarioProcessor : SimpleDualFilterAudioProcessor ℝ).apvts.state ∧
    getChainSettings (setStateInformation
      (Libm.mk Real.rpow (Real.logb 10) Real.sqrt Real.sin Real.cos Real.pi) listCodec
      nyquistProcessor (getStateInformation listCodec
        (scenarioProcessor : SimpleDualFilterAudioProcessor ℝ))).apvts
      = getChainSettings (scenarioProcessor : SimpleDualFilterAudioProcessor ℝ).apvts :=
  ⟨rfl, (state_round_trip
    (Libm.mk Real.rpow (Real.logb 10) Real.sqrt Real.sin Real.cos Real.pi) listCodec
    scenarioProcessor nyquistProcessor rfl).2⟩

end StateTheorems

/-! ## Updates and preparation -/

section LifecycleTheorems

variable {K : Type} [LinearOrderedField K]

/-- `processBlock` returns for every buffer with at least two channels that has all the
output channels. -/
theorem processBlock_returns (m : Libm K) (p : SimpleDualFilterAudioProcessor K)
    (buffer : AudioBuffer K) (h2 : 2 ≤ buffer.length)
    (hout : p.totalNumOutputChannels ≤ buffer.length) :
    ∃ r, processBlock m p buffer = some r := by
  obtain ⟨cleared, hc, hlen⟩ := clearUnusedChannels_some
    (p.totalNumOutputChannels - p.totalNumInputChannels) p.totalNumInputChannels buffer
    (by omega)
  have h0 : 0 < cleared.length := by omega
  have h1 : 1 < cleared.length := by omega
  unfold processBlock
  simp only [hc, List.getElem?_eq_getElem h0, List.getElem?_eq_getElem h1]
  exact ⟨_, rfl⟩

/-- Once both chains have been prepared, no later update is an update on an unprepared
chain. -/
theorem unpreparedUpdates_of_prepared (record : List ChainCall) :
    ∀ prepared : List ChainId, ChainId.leftChain ∈ prepared → ChainId.rightChain ∈ prepared →
      unpreparedUpdates prepared record = [] := by
  induction record with
  | nil =>
    intro prepared _ _
    rfl
  | cons call rest ih =>
    intro prepared hl hr
    cases call with
    | prepare chain =>
      exact ih (chain :: prepared) (List.mem_cons_of_mem _ hl) (List.mem_cons_of_mem _ hr)
    | updateCoefficients chain stage =>
      have hc : chain ∈ prepared := by
        cases chain
        · exact hl
        · exact hr
      simp only [unpreparedUpdates, if_pos hc]
      exact ih prepared hl hr

/-- `updateFilters` makes the four `updateCoefficients` calls, on whatever chains it
finds. -/
theorem updateFilters_chainCalls (m : Libm K) (p : SimpleDualFilterAudioProcessor K) :
    (updateGain m (updateFilters m p)).chainCalls = p.chainCalls ++
      [ ChainCall.updateCoefficients ChainId.leftChain ChainPositions.Peak1,
        ChainCall.updateCoefficients ChainId.rightChain ChainPositions.Peak1,
        ChainCall.updateCoefficients ChainId.leftChain ChainPositions.Peak2,
        ChainCall.updateCoefficients ChainId.rightChain ChainPositions.Peak2 ] := rfl

/-- `prepareToPlay` prepares the left chain, then the right chain, and only then makes
the four `updateCoefficients` calls. -/
theorem prepareToPlay_chainCalls (m : Libm K) (p : SimpleDualFilterAudioProcessor K)
    (sampleRate : K) (samplesPerBlock : Nat) :
    (prepareToPlay m p sampleRate samplesPerBlock).chainCalls = p.chainCalls ++
      [ ChainCall.prepare ChainId.leftChain, ChainCall.prepare ChainId.rightChain,
        ChainCall.updateCoefficients ChainId.leftChain ChainPositions.Peak1,
        ChainCall.updateCoefficients ChainId.rightChain ChainPositions.Peak1,
        ChainCall.updateCoefficients ChainId.leftChain ChainPositions.Peak2,
        ChainCall.updateCoefficients ChainId.rightChain ChainPositions.Peak2 ] := by
  show ((p.chainCalls ++ [ChainCall.prepare ChainId.leftChain])
      ++ [ChainCall.prepare ChainId.rightChain]) ++ _ = _
  simp only [List.append_assoc, List.cons_append, List.nil_append]

/-- Every returning `processBlock` call makes the four `updateCoefficients` calls. -/
theorem processBlock_chainCalls (m : Libm K) (p : SimpleDualFilterAudioProcessor K)
    (buffer : AudioBuffer K) (r : SimpleDualFilterAudioProcessor K × AudioBuffer K)
    (h : processBlock m p buffer = some r) :
    r.1.chainCalls = p.chainCalls ++
      [ ChainCall.updateCoefficients ChainId.leftChain ChainPositions.Peak1,
        ChainCall.updateCoefficients ChainId.rightChain ChainPositions.Peak1,
        ChainCall.updateCoefficients ChainId.leftChain ChainPositions.Peak2,
        ChainCall.updateCoefficients ChainId.rightChain ChainPositions.Peak2 ] := by
  obtain ⟨leftBlock, rightBlock, hr⟩ := processBlock_eq_some m p buffer r h
  rw [hr]
  exact updateFilters_chainCalls m p

/-- After a returning `processBlock` call the stages of both chains hold the designs and
the gain of the current parameters. -/
theorem processBlock_holdsCurrent (m : Libm K) (p : SimpleDualFilterAudioProcessor K)
    (buffer : AudioBuffer K) (r : SimpleDualFilterAudioProcessor K × AudioBuffer K)
    (h : processBlock m p buffer = some r) : HoldsCurrent m p r.1 := by
  obtain ⟨leftBlock, rightBlock, hr⟩ := processBlock_eq_some m p buffer r h
  have hl := MonoChain.process_keeps (updateGain m (updateFilters m p)).leftChain leftBlock
  have hrt := MonoChain.process_keeps (updateGain m (updateFilters m p)).rightChain
    rightBlock
  rw [hr]
  exact ⟨hl.1, hl.2.1, by rw [hl.2.2]; rfl, hrt.1, hrt.2.1, by rw [hrt.2.2]; rfl⟩

/-- `setStateInformation` makes the four `updateCoefficients` calls when the data decodes
to a valid tree, and no call otherwise. -/
theorem setStateInformation_chainCalls {D : Type} (m : Libm K) (codec : ValueTreeCodec K D)
    (p : SimpleDualFilterAudioProcessor K) (data : D) :
    ((codec.readFromData data).isValid = true →
      (setStateInformation m codec p data).chainCalls = p.chainCalls ++
        [ ChainCall.updateCoefficients ChainId.leftChain ChainPositions.Peak1,
          ChainCall.updateCoefficients ChainId.rightChain ChainPositions.Peak1,
          ChainCall.updateCoefficients ChainId.leftChain ChainPositions.Peak2,
          ChainCall.updateCoefficients ChainId.rightChain ChainPositions.Peak2 ] ∧
      setStateInformation m codec p data
        = updateGain m (updateFilters m
            { p with apvts := p.apvts.replaceState (codec.readFromData data) })) ∧
    ((codec.readFromData data).isValid = false →
      (setStateInformation m codec p data).chainCalls = p.chainCalls) := by
  constructor
  · intro hv
    have e : setStateInformation m codec p data
        = updateGain m (updateFilters m
            { p with apvts := p.apvts.replaceState (codec.readFromData data) }) := by
      unfold setStateInformation
      rw [if_pos hv]
    refine ⟨?_, e⟩
    rw [e]
    rfl
  · intro hv
    unfold setStateInformation
    simp [hv]

/-- A host call only ever adds to the record of chain calls. -/
theorem runHostCall_chainCalls {D : Type} (m : Libm K) (codec : ValueTreeCodec K D)
    (p q : SimpleDualFilterAudioProcessor K) (call : HostCall K D)
    (h : runHostCall m codec p call = some q) :
    ∃ added, q.chainCalls = p.chainCalls ++ added := by
  cases call with
  | prepareToPlay sampleRate samplesPerBlock =>
    simp only [runHostCall, Option.some.injEq] at h
    subst h
    exact ⟨_, prepareToPlay_chainCalls m p sampleRate samplesPerBlock⟩
  | processBlock buffer =>
    simp only [runHostCall] at h
    split at h
    · exact absurd h (by simp)
    · rename_i r hr
      simp only [Option.some.injEq] at h
      subst h
      exact ⟨_, processBlock_chainCalls m p buffer r hr⟩
  | setStateInformation data =>
    simp only [runHostCall, Option.some.injEq] at h
    subst h
    cases hv : (codec.readFromData data).isValid
    · exact ⟨[], by rw [(setStateInformation_chainCalls m codec p data).2 hv, List.append_nil]⟩
    · exact ⟨_, ((setStateInformation_chainCalls m codec p data).1 hv).1⟩

/-- Over a whole run the record of chain calls only grows. -/
theorem runHostCalls_chainCalls {D : Type} (m : Libm K) (codec : ValueTreeCodec K D)
    (calls : List (HostCall K D)) :
    ∀ p q : SimpleDualFilterAudioProcessor K, runHostCalls m codec p calls = some q →
      ∃ added, q.chainCalls = p.chainCalls ++ added := by
  induction calls with
  | nil =>
    intro p q h
    simp only [runHostCalls, Option.some.injEq] at h
    subst h
    exact ⟨[], (List.append_nil _).symm⟩
  | cons call calls ih =>
    intro p q h
    simp only [runHostCalls] at h
    split at h
    · exact absurd h (by simp)
    · rename_i p1 hstep
      obtain ⟨a1, h1⟩ := runHostCall_chainCalls m codec p p1 call hstep
      obtain ⟨a2, h2⟩ := ih p1 q h
      exact ⟨a1 ++ a2, by rw [h2, h1, List.append_assoc]⟩

/-- C14, as amended: updates are not gated on preparation.  `prepareToPlay` prepares both
chains and then makes the four `updateCoefficients` calls of `updateFilters`, which run
on the prepared chains; every returning `processBlock` call makes these four calls too
and leaves the chains with the current designs, and so does every `setStateInformation`
call with valid data, which is `updateFilters ()` and `updateGain ()` on the replaced
state, on whatever chains it finds.  So in a sequence of host calls from
construction (no chain call made yet) that begins with `prepareToPlay`, no
`updateCoefficients` call reaches a chain before that chain was prepared; but when the
sequence begins with a `setStateInformation` call with valid data, or with a
`processBlock` call, its four updates reach the chains before any `prepare`. -/
theorem updates_after_prepare_only_when_prepared_first {D : Type} (m : Libm K)
    (codec : ValueTreeCodec K D) (p : SimpleDualFilterAudioProcessor K)
    (calls : List (HostCall K D)) (final : SimpleDualFilterAudioProcessor K)
    (hp : p.chainCalls = []) :
    (∀ (q : SimpleDualFilterAudioProcessor K) sampleRate samplesPerBlock,
      (prepareToPlay m q sampleRate samplesPerBlock).chainCalls = q.chainCalls ++
        [ ChainCall.prepare ChainId.leftChain, ChainCall.prepare ChainId.rightChain,
          ChainCall.updateCoefficients ChainId.leftChain ChainPositions.Peak1,
          ChainCall.updateCoefficients ChainId.rightChain ChainPositions.Peak1,
          ChainCall.updateCoefficients ChainId.leftChain ChainPositions.Peak2,
          ChainCall.updateCoefficients ChainId.rightChain ChainPositions.Peak2 ] ∧
      prepareToPlay m q sampleRate samplesPerBlock
        = updateGain m (updateFilters m
            { q with leftChain := q.leftChain.prepare, rightChain := q.rightChain.prepare,
                     chainCalls := q.chainCalls ++
                       [ ChainCall.prepare ChainId.leftChain,
                         ChainCall.prepare ChainId.rightChain ] })) ∧
    (∀ (q : SimpleDualFilterAudioProcessor K) buffer r, processBlock m q buffer = some r →
      r.1.chainCalls = q.chainCalls ++
        [ ChainCall.updateCoefficients ChainId.leftChain ChainPositions.Peak1,
          ChainCall.updateCoefficients ChainId.rightChain ChainPositions.Peak1,
          ChainCall.updateCoefficients ChainId.leftChain ChainPositions.Peak2,
          ChainCall.updateCoefficients ChainId.rightChain ChainPositions.Peak2 ] ∧
      HoldsCurrent m q r.1) ∧
    (∀ (q : SimpleDualFilterAudioProcessor K) data, (codec.readFromData data).isValid = true →
      (setStateInformation m codec q data).chainCalls = q.chainCalls ++
        [ ChainCall.updateCoefficients ChainId.leftChain ChainPositions.Peak1,
          ChainCall.updateCoefficients ChainId.rightChain ChainPositions.Peak1,
          ChainCall.updateCoefficients ChainId.leftChain ChainPositions.Peak2,
          ChainCall.updateCoefficients ChainId.rightChain ChainPositions.Peak2 ] ∧
      setStateInformation m codec q data
        = updateGain m (updateFilters m
            { q with apvts := q.apvts.replaceState (codec.readFromData data) })) ∧
    (∀ sampleRate samplesPerBlock,
      runHostCalls m codec p
          (HostCall.prepareToPlay sampleRate samplesPerBlock :: calls) = some final →
        unpreparedUpdates [] final.chainCalls = []) ∧
    (∀ data, (codec.readFromData data).isValid = true →
      runHostCalls m codec p (HostCall.setStateInformation data :: calls) = some final →
        ∀ call ∈
          [ ChainCall.updateCoefficients ChainId.leftChain ChainPositions.Peak1,
            ChainCall.updateCoefficients ChainId.rightChain ChainPositions.Peak1,
            ChainCall.updateCoefficients ChainId.leftChain ChainPositions.Peak2,
            ChainCall.updateCoefficients ChainId.rightChain ChainPositions.Peak2 ],
          call ∈ unpreparedUpdates [] final.chainCalls) ∧
    (∀ buffer,
      runHostCalls m codec p (HostCall.processBlock buffer :: calls) = some final →
        ∀ call ∈
          [ ChainCall.updateCoefficients ChainId.leftChain ChainPositions.Peak1,
            ChainCall.updateCoefficients ChainId.rightChain ChainPositions.Peak1,
            ChainCall.updateCoefficients ChainId.leftChain ChainPositions.Peak2,
            ChainCall.updateCoefficients ChainId.rightChain ChainPositions.Peak2 ],
          call ∈ unpreparedUpdates [] final.chainCalls) := by
  have hfour : ∀ (q : SimpleDualFilterAudioProcessor K) (added : List ChainCall),
      q.chainCalls = p.chainCalls ++
        [ ChainCall.updateCoefficients ChainId.leftChain ChainPositions.Peak1,
          ChainCall.updateCoefficients ChainId.rightChain ChainPositions.Peak1,
          ChainCall.updateCoefficients ChainId.leftChain ChainPositions.Peak2,
          ChainCall.updateCoefficients ChainId.rightChain ChainPositions.Peak2 ] →
      final.chainCalls = q.chainCalls ++ added →
      ∀ call ∈
        [ ChainCall.updateCoefficients ChainId.leftChain ChainPositions.Peak1,
          ChainCall.updateCoefficients ChainId.rightChain ChainPositions.Peak1,
          ChainCall.updateCoefficients ChainId.leftChain ChainPositions.Peak2,
          ChainCall.updateCoefficients ChainId.rightChain ChainPositions.Peak2 ],
        call ∈ unpreparedUpdates [] final.chainCalls := by
    intro q added hq hfin call hcall
    rw [hfin, hq, hp]
    simp only [List.nil_append, List.cons_append, unpreparedUpdates, List.not_mem_nil,
      if_false]
    simp only [List.mem_cons, List.mem_singleton, List.mem_nil_iff, or_false] at hcall
    rcases hcall with h | h | h | h <;> simp [h]
  refine ⟨fun q sr spb => ⟨prepareToPlay_chainCalls m q sr spb, ?_⟩,
    fun q buffer r h => ⟨processBlock_chainCalls m q buffer r h,
      processBlock_holdsCurrent m q buffer r h⟩,
    fun q data hv => (setStateInformation_chainCalls m codec q data).1 hv, ?_, ?_, ?_⟩
  · show updateGain m (updateFilters m _) = updateGain m (updateFilters m _)
    have e : (q.chainCalls ++ [ChainCall.prepare ChainId.leftChain])
        ++ [ChainCall.prepare ChainId.rightChain]
        = q.chainCalls ++
          [ChainCall.prepare ChainId.leftChain, ChainCall.prepare ChainId.rightChain] := by
      simp only [List.append_assoc, List.cons_append, List.nil_append]
    rw [← e]
  · intro sampleRate samplesPerBlock h
    simp only [runHostCalls, runHostCall] at h
    obtain ⟨added, hadd⟩ := runHostCalls_chainCalls m codec calls _ final h
    rw [hadd, prepareToPlay_chainCalls, hp]
    simp only [List.nil_append, List.cons_append, unpreparedUpdates]
    apply unpreparedUpdates_of_prepared <;> simp
  · intro data hv h
    simp only [runHostCalls, runHostCall] at h
    obtain ⟨added, hadd⟩ := runHostCalls_chainCalls m codec calls _ final h
    exact hfour _ added ((setStateInformation_chainCalls m codec p data).1 hv).1 hadd
  · intro buffer h
    simp only [runHostCalls, runHostCall] at h
    split at h
    · exact absurd h (by simp)
    · rename_i p1 hstep
      split at hstep
      · exact absurd hstep (by simp)
      · rename_i r hr
        simp only [Option.some.injEq] at hstep
        subst hstep
        obtain ⟨added, hadd⟩ := runHostCalls_chainCalls m codec calls _ final h
        exact hfour _ added (processBlock_chainCalls m p buffer r hr) hadd

/-- C14 as stated fails: on a processor just constructed, a single
`setStateInformation` call with data that decodes to a valid tree makes the four
`updateCoefficients` calls although no chain was ever prepared: afterwards `leftChain`'s
`Peak1` stage holds a five-coefficient peak design instead of the three coefficients it
was constructed with. -/
theorem update_reaches_unprepared_chain :
    (scenarioProcessor : SimpleDualFilterAudioProcessor ℝ).chainCalls = [] ∧
    ∃ final, runHostCalls
        (Libm.mk Real.rpow (Real.logb 10) Real.sqrt Real.sin Real.cos Real.pi) listCodec
        (scenarioProcessor : SimpleDualFilterAudioProcessor ℝ)
        [HostCall.setStateInformation (some [])] = some final ∧
      final.chainCalls =
        [ ChainCall.updateCoefficients ChainId.leftChain ChainPositions.Peak1,
          ChainCall.updateCoefficients ChainId.rightChain ChainPositions.Peak1,
          ChainCall.updateCoefficients ChainId.leftChain ChainPositions.Peak2,
          ChainCall.updateCoefficients ChainId.rightChain ChainPositions.Peak2 ] ∧
      unpreparedUpdates [] final.chainCalls =
        [ ChainCall.updateCoefficients ChainId.leftChain ChainPositions.Peak1,
          ChainCall.updateCoefficients ChainId.rightChain ChainPositions.Peak1,
          ChainCall.updateCoefficients ChainId.leftChain ChainPositions.Peak2,
          ChainCall.updateCoefficients ChainId.rightChain ChainPositions.Peak2 ] ∧
      (scenarioProcessor : SimpleDualFilterAudioProcessor ℝ).leftChain.Peak1.coefficients.coefficients.length
        = 3 ∧
      final.leftChain.Peak1.coefficients.coefficients.length = 5 :=
  ⟨rfl, _, rfl, rfl, by decide, rfl, rfl⟩

/-- The amended C14 on a concrete sequence from construction: `prepareToPlay`, then a
valid `setStateInformation`, then a stereo `processBlock`: the run returns and no update
reached a chain before its `prepare`. -/
theorem updates_after_prepare_only_when_prepared_first_witness :
    (scenarioProcessor : SimpleDualFilterAudioProcessor ℝ).chainCalls = [] ∧
    ∃ final, runHostCalls
        (Libm.mk Real.rpow (Real.logb 10) Real.sqrt Real.sin Real.cos Real.pi) listCodec
        (scenarioProcessor : SimpleDualFilterAudioProcessor ℝ)
        [HostCall.prepareToPlay 48000 512, HostCall.setStateInformation (some []),
          HostCall.processBlock [[1], [1]]] = some final ∧
      unpreparedUpdates [] final.chainCalls = [] := by
  obtain ⟨r, hr⟩ := processBlock_returns
    (Libm.mk Real.rpow (Real.logb 10) Real.sqrt Real.sin Real.cos Real.pi)
    (setStateInformation
      (Libm.mk Real.rpow (Real.logb 10) Real.sqrt Real.sin Real.cos Real.pi) listCodec
      (prepareToPlay
        (Libm.mk Real.rpow (Real.logb 10) Real.sqrt Real.sin Real.cos Real.pi)
        (scenarioProcessor : SimpleDualFilterAudioProcessor ℝ) 48000 512) (some []))
    [[1], [1]] (by decide) (le_refl 2)
  have hrun : runHostCalls
      (Libm.mk Real.rpow (Real.logb 10) Real.sqrt Real.sin Real.cos Real.pi) listCodec
      (scenarioProcessor : SimpleDualFilterAudioProcessor ℝ)
      [HostCall.prepareToPlay 48000 512, HostCall.setStateInformation (some []),
        HostCall.processBlock [[1], [1]]]
      = some r.1 := by
    simp only [runHostCalls, runHostCall, hr]
  exact ⟨rfl, _, hrun, (updates_after_prepare_only_when_prepared_first _ listCodec
    (scenarioProcessor : SimpleDualFilterAudioProcessor ℝ) _ _ rfl).2.2.2.1 48000 512 hrun⟩

end LifecycleTheorems

/-! ## The frequency of the first peak -/

section Peak1Theorems

variable {K : Type} [LinearOrderedField K]

/-- C15 as stated fails for low sample rates: `peak1Freq = 10000` is in range, and at
`sampleRate = 8000` it is the frequency `makePeakFilter` passes to the peak design,
unclamped, although it is above `sampleRate / 2 = 4000`. -/
theorem peak1Freq_above_nyquist_at_8000 :
    (topFreqSettings : ChainSettings ℚ).InRange ∧ (0 : ℚ) < 8000 ∧
    (∀ m : Libm ℚ, makePeakFilter m topFreqSettings 8000
      = IIRmakePeakFilter m 8000 10000 (topFreqSettings : ChainSettings ℚ).peak1Quality
          (decibelsToGain m ((topFreqSettings : ChainSettings ℚ).peak1GainInDecibels
            - (topFreqSettings : ChainSettings ℚ).balance))) ∧
    ¬ ((0 : ℚ) < (topFreqSettings : ChainSettings ℚ).peak1Freq ∧
        (topFreqSettings : ChainSettings ℚ).peak1Freq ≤ 8000 / 2) := by
  refine ⟨?_, by norm_num, fun m => rfl, ?_⟩
  · constructor <;> norm_num [topFreqSettings, ChainSettings.init]
  · norm_num [topFreqSettings]

/-- C15, as amended: for every in-range `ChainSettings` and every
`sampleRate ≥ 20000`, the centre frequency `makePeakFilter` passes to the peak design is
`peak1Freq` itself and satisfies `0 < peak1Freq ≤ sampleRate / 2`; the second peak's
frequency is the clamped one, inside `[20, sampleRate / 2]`. -/
theorem peak1Freq_in_band_of_sampleRate_ge (m : Libm K) (s : ChainSettings K)
    (sampleRate : K) (hs : s.InRange) (hsr : 20000 ≤ sampleRate) :
    makePeakFilter m s sampleRate
      = IIRmakePeakFilter m sampleRate s.peak1Freq s.peak1Quality
          (decibelsToGain m (s.peak1GainInDecibels - s.balance)) ∧
    0 < s.peak1Freq ∧ s.peak1Freq ≤ sampleRate / 2 ∧
    makePeakFilter2 m s sampleRate
      = IIRmakePeakFilter m sampleRate (peak2Freq s sampleRate) s.peak1Quality
          (decibelsToGain m (s.peak1GainInDecibels + s.balance)) ∧
    20 ≤ peak2Freq s sampleRate ∧ peak2Freq s sampleRate ≤ sampleRate / 2 := by
  have hlo := hs.peak1Freq_lo
  have hhi := hs.peak1Freq_hi
  have h2 : 20 ≤ peak2Freq s sampleRate ∧ peak2Freq s sampleRate ≤ sampleRate / 2 :=
    jlimit_mem _ _ _ (by linarith)
  exact ⟨rfl, by linarith, by linarith, rfl, h2.1, h2.2⟩

/-- The amended C15 at the top of the range, `peak1Freq = 10000`, and
`sampleRate = 44100`. -/
theorem peak1Freq_in_band_of_sampleRate_ge_witness :
    (topFreqSettings : ChainSettings ℝ).InRange ∧ (20000 : ℝ) ≤ 44100 ∧
    (0 : ℝ) < (topFreqSettings : ChainSettings ℝ).peak1Freq ∧
    (topFreqSettings : ChainSettings ℝ).peak1Freq ≤ 44100 / 2 :=
  have hs : (topFreqSettings : ChainSettings ℝ).InRange := by
    constructor <;> norm_num [topFreqSettings, ChainSettings.init]
  have h := peak1Freq_in_band_of_sampleRate_ge
    (Libm.mk Real.rpow (Real.logb 10) Real.sqrt Real.sin Real.cos Real.pi)
    (topFreqSettings : ChainSettings ℝ) 44100 hs (by norm_num)
  ⟨hs, by norm_num, h.2.1, h.2.2.1⟩

end Peak1Theorems

/-! ## Coefficient objects: copy, not swap -/

section ReferenceTheorems

/-- C16 as stated fails: with the stage's object at address 0 (`1, 0, 0`) and the
replacement at address 1 (`1, 2, 3, 2, 3`), after `updateCoefficients` the stage still
refers to address 0, not to the replacement object, and the object at address 0 has
been overwritten in place. -/
theorem updateCoefficients_mutates_in_place :
    (updateCoefficientsRef (exampleHeap : CoefficientsHeap ℚ) 0 1).2 = 0 ∧
    (updateCoefficientsRef (exampleHeap : CoefficientsHeap ℚ) 0 1).2 ≠ 1 ∧
    ((exampleHeap : CoefficientsHeap ℚ).object 0).coefficients = [1, 0, 0] ∧
    ((updateCoefficientsRef (exampleHeap : CoefficientsHeap ℚ) 0 1).1.object 0).coefficients
      = [1, 2, 3, 2, 3] ∧
    (updateCoefficientsRef (exampleHeap : CoefficientsHeap ℚ) 0 1).1.object 0
      ≠ (exampleHeap : CoefficientsHeap ℚ).object 0 := by
  refine ⟨rfl, by decide, ?_, ?_, ?_⟩
  · norm_num [exampleHeap, Coefficients.assign4]
  · simp [updateCoefficientsRef, updateCoefficients, CoefficientsHeap.assign, exampleHeap]
  · intro h
    have := congrArg (fun c => c.coefficients.length) h
    simp [updateCoefficientsRef, updateCoefficients, CoefficientsHeap.assign, exampleHeap,
      Coefficients.assign4] at this

/-- C16, as amended: `updateCoefficients` replaces a stage's coefficient set wholesale by
copying: after `updateCoefficients (old, replacements)` the stage refers to the same
coefficient object as before, whose contents are now those of the replacement object
(it is overwritten in place); no other object changes, and the newly produced object is
not installed. -/
theorem updateCoefficients_copies_into_old {K : Type} (heap : CoefficientsHeap K)
    (old replacements : CoefficientsPtr) :
    (updateCoefficientsRef heap old replacements).2 = old ∧
    (updateCoefficientsRef heap old replacements).1.object old = heap.object replacements ∧
    (∀ q, q ≠ old → (updateCoefficientsRef heap old replacements).1.object q = heap.object q) := by
  refine ⟨rfl, ?_, ?_⟩
  · simp [updateCoefficientsRef, updateCoefficients, CoefficientsHeap.assign]
  · intro q hq
    simp [updateCoefficientsRef, CoefficientsHeap.assign, hq]

end ReferenceTheorems

section SharingTheorems

/-- The facts `Separate` stands for: the six references differ from each other and from
the next two addresses the allocator hands out. -/
theorem PluginRefs.Separate.facts {K : Type} {s : PluginRefs K} (hs : s.Separate) :
    (s.leftChain.Peak1 ≠ s.leftChain.Peak2 ∧ s.leftChain.Peak1 ≠ s.rightChain.Peak1 ∧
      s.leftChain.Peak1 ≠ s.rightChain.Peak2 ∧ s.leftChain.Peak1 ≠ s.monoChain.Peak1 ∧
      s.leftChain.Peak1 ≠ s.monoChain.Peak2) ∧
    (s.leftChain.Peak2 ≠ s.rightChain.Peak1 ∧ s.leftChain.Peak2 ≠ s.rightChain.Peak2 ∧
      s.leftChain.Peak2 ≠ s.monoChain.Peak1 ∧ s.leftChain.Peak2 ≠ s.monoChain.Peak2) ∧
    (s.rightChain.Peak1 ≠ s.rightChain.Peak2 ∧ s.rightChain.Peak1 ≠ s.monoChain.Peak1 ∧
      s.rightChain.Peak1 ≠ s.monoChain.Peak2) ∧
    (s.rightChain.Peak2 ≠ s.monoChain.Peak1 ∧ s.rightChain.Peak2 ≠ s.monoChain.Peak2) ∧
    s.monoChain.Peak1 ≠ s.monoChain.Peak2 ∧
    (s.leftChain.Peak1 < s.nextFree ∧ s.leftChain.Peak2 < s.nextFree ∧
      s.rightChain.Peak1 < s.nextFree ∧ s.rightChain.Peak2 < s.nextFree ∧
      s.monoChain.Peak1 < s.nextFree ∧ s.monoChain.Peak2 < s.nextFree) := by
  have hn := hs.nodup
  have ha := hs.allocated
  simp only [PluginRefs.stageRefs, List.nodup_cons, List.mem_cons, List.mem_singleton,
    List.not_mem_nil, or_false, not_or, List.nodup_nil, and_true, not_false_eq_true] at hn
  simp only [PluginRefs.stageRefs, List.mem_cons, List.mem_singleton, List.not_mem_nil,
    or_false, forall_eq_or_imp, forall_eq] at ha
  obtain ⟨⟨a1, a2, a3, a4, a5⟩, ⟨b1, b2, b3, b4⟩, ⟨c1, c2, c3⟩, ⟨d1, d2⟩, e1⟩ := hn
  exact ⟨⟨a1, a2, a3, a4, a5⟩, ⟨b1, b2, b3, b4⟩, ⟨c1, c2, c3⟩, ⟨d1, d2⟩, e1, ha⟩

variable {K : Type} [LinearOrderedField K]

/-- `updateChain` on references keeps every reference, writes only the two objects of
`monoChain` and the two new objects, and leaves the stages separate. -/
theorem PluginRefs.updateChain_frame (m : Libm K) (s : PluginRefs K) (hs : s.Separate)
    (chainSettings : ChainSettings K) (sampleRate : K) :
    (s.updateChain m chainSettings sampleRate).leftChain = s.leftChain ∧
    (s.updateChain m chainSettings sampleRate).rightChain = s.rightChain ∧
    (s.updateChain m chainSettings sampleRate).monoChain = s.monoChain ∧
    (∀ ptr, ptr < s.nextFree → ptr ≠ s.monoChain.Peak1 → ptr ≠ s.monoChain.Peak2 →
      (s.updateChain m chainSettings sampleRate).heap.object ptr = s.heap.object ptr) ∧
    (s.updateChain m chainSettings sampleRate).heap.object s.monoChain.Peak1
      = makePeakFilter m chainSettings sampleRate ∧
    (s.updateChain m chainSettings sampleRate).heap.object s.monoChain.Peak2
      = makePeakFilter2 m chainSettings sampleRate ∧
    (s.updateChain m chainSettings sampleRate).Separate := by
  obtain ⟨-, -, -, -, e1, -, -, -, -, f5, f6⟩ := hs.facts
  refine ⟨rfl, rfl, rfl, ?_, ?_, ?_, ?_⟩
  · intro ptr h hp1 hp2
    have n1 : ptr ≠ s.nextFree := Nat.ne_of_lt h
    have n2 : ptr ≠ s.nextFree + 1 := Nat.ne_of_lt (Nat.lt_succ_of_lt h)
    simp [PluginRefs.updateChain, PluginRefs.allocate, updateCoefficientsRef,
      CoefficientsHeap.assign, updateCoefficients, hp1, hp2, n1, n2]
  · have n1 : s.monoChain.Peak1 ≠ s.nextFree + 1 := Nat.ne_of_lt (Nat.lt_succ_of_lt f5)
    simp [PluginRefs.updateChain, PluginRefs.allocate, updateCoefficientsRef,
      CoefficientsHeap.assign, updateCoefficients, e1, n1]
  · simp [PluginRefs.updateChain, PluginRefs.allocate, updateCoefficientsRef,
      CoefficientsHeap.assign, updateCoefficients]
  · refine ⟨hs.nodup, ?_⟩
    intro ptr hp
    have := hs.allocated ptr hp
    exact Nat.lt_succ_of_lt (Nat.lt_succ_of_lt this)

/-- `updatePeakFilter` and `updateGain` on references keep every reference, write only
the four objects of `leftChain` and `rightChain` and the two new objects, and leave the
stages separate. -/
theorem PluginRefs.updatePeakFilter_frame (m : Libm K) (s : PluginRefs K) (hs : s.Separate)
    (chainSettings : ChainSettings K) (sampleRate : K) :
    ((s.updatePeakFilter m chainSettings sampleRate).updateGain m chainSettings).monoChain
      = s.monoChain ∧
    (∀ ptr, ptr < s.nextFree → ptr ≠ s.leftChain.Peak1 → ptr ≠ s.leftChain.Peak2 →
      ptr ≠ s.rightChain.Peak1 → ptr ≠ s.rightChain.Peak2 →
      ((s.updatePeakFilter m chainSettings sampleRate).updateGain m chainSettings).heap.object ptr
        = s.heap.object ptr) ∧
    ((s.updatePeakFilter m chainSettings sampleRate).updateGain m chainSettings).stageRefs
      = s.stageRefs ∧
    ((s.updatePeakFilter m chainSettings sampleRate).updateGain m chainSettings).Separate := by
  refine ⟨rfl, ?_, rfl, ?_⟩
  · intro ptr h h1 h2 h3 h4
    have n1 : ptr ≠ s.nextFree := Nat.ne_of_lt h
    have n2 : ptr ≠ s.nextFree + 1 := Nat.ne_of_lt (Nat.lt_succ_of_lt h)
    simp [PluginRefs.updatePeakFilter, PluginRefs.updateGain, PluginRefs.allocate,
      updateCoefficientsRef, CoefficientsHeap.assign, updateCoefficients, h1, h2, h3, h4,
      n1, n2]
  · refine ⟨hs.nodup, ?_⟩
    intro ptr hp
    have := hs.allocated ptr hp
    exact Nat.lt_succ_of_lt (Nat.lt_succ_of_lt this)

/-- In a separate state, overwriting the object of a stage of one chain leaves the
objects of the two other chains as they are. -/
theorem PluginRefs.Separate.assign_frame {K : Type} {s : PluginRefs K} (hs : s.Separate)
    (c : Coefficients K) :
    (∀ ptr ∈ s.monoChain.refs, ∀ q ∈ s.leftChain.refs ++ s.rightChain.refs,
      (s.heap.assign ptr c).object q = s.heap.object q ∧
      (s.heap.assign q c).object ptr = s.heap.object ptr) ∧
    (∀ ptr ∈ s.leftChain.refs, ∀ q ∈ s.rightChain.refs,
      (s.heap.assign ptr c).object q = s.heap.object q ∧
      (s.heap.assign q c).object ptr = s.heap.object ptr) := by
  obtain ⟨⟨-, a2, a3, a4, a5⟩, ⟨b1, b2, b3, b4⟩, ⟨-, c2, c3⟩, ⟨d1, d2⟩, -, -⟩ := hs.facts
  constructor
  · intro ptr hp q hq
    simp only [ChainRefs.refs, List.mem_cons, List.mem_singleton, List.not_mem_nil,
      or_false, List.mem_append] at hp hq
    have hne : q ≠ ptr := by
      rcases hp with rfl | rfl <;> rcases hq with (rfl | rfl) | (rfl | rfl) <;> assumption
    simp [CoefficientsHeap.assign, hne, hne.symm]
  · intro ptr hp q hq
    simp only [ChainRefs.refs, List.mem_cons, List.mem_singleton, List.not_mem_nil,
      or_false] at hp hq
    have hne : ptr ≠ q := by
      rcases hp with rfl | rfl <;> rcases hq with rfl | rfl <;> assumption
    simp [CoefficientsHeap.assign, hne, hne.symm]

/-- C17: the three chains never share mutable state.  From a state in which every stage
has its own coefficient object (as constructed): `updateChain` changes only `monoChain`'s
objects and leaves `leftChain` and `rightChain`, references, objects and gain,
unchanged; `updatePeakFilter` with `updateGain` change only `leftChain` and `rightChain`
and leave `monoChain` unchanged; after either update the six references are still
pairwise distinct, so no coefficient object is held by two chains and overwriting the
object of one chain's stage never changes another chain's. -/
theorem chains_never_share_coefficients (m : Libm K) (s : PluginRefs K) (hs : s.Separate)
    (chainSettings : ChainSettings K) (sampleRate : K) (c : Coefficients K) :
    ((s.updateChain m chainSettings sampleRate).leftChain = s.leftChain ∧
      (s.updateChain m chainSettings sampleRate).rightChain = s.rightChain ∧
      ∀ ptr ∈ s.leftChain.refs ++ s.rightChain.refs,
        (s.updateChain m chainSettings sampleRate).heap.object ptr = s.heap.object ptr) ∧
    (((s.updatePeakFilter m chainSettings sampleRate).updateGain m chainSettings).monoChain
        = s.monoChain ∧
      ∀ ptr ∈ s.monoChain.refs,
        ((s.updatePeakFilter m chainSettings sampleRate).updateGain m chainSettings).heap.object ptr
          = s.heap.object ptr) ∧
    ((s.updateChain m chainSettings sampleRate).stageRefs.Nodup ∧
      ((s.updatePeakFilter m chainSettings sampleRate).updateGain m chainSettings).stageRefs.Nodup) ∧
    (∀ ptr ∈ (s.updateChain m chainSettings sampleRate).monoChain.refs,
      ∀ q ∈ (s.updateChain m chainSettings sampleRate).leftChain.refs
          ++ (s.updateChain m chainSettings sampleRate).rightChain.refs,
        ((s.updateChain m chainSettings sampleRate).heap.assign ptr c).object q
          = (s.updateChain m chainSettings sampleRate).heap.object q ∧
        ((s.updateChain m chainSettings sampleRate).heap.assign q c).object ptr
          = (s.updateChain m chainSettings sampleRate).heap.object ptr) ∧
    (∀ ptr ∈ ((s.updatePeakFilter m chainSettings sampleRate).updateGain m
          chainSettings).leftChain.refs,
      ∀ q ∈ ((s.updatePeakFilter m chainSettings sampleRate).updateGain m
          chainSettings).rightChain.refs,
        (((s.updatePeakFilter m chainSettings sampleRate).updateGain m
            chainSettings).heap.assign ptr c).object q
          = ((s.updatePeakFilter m chainSettings sampleRate).updateGain m
              chainSettings).heap.object q ∧
        (((s.updatePeakFilter m chainSettings sampleRate).updateGain m
            chainSettings).heap.assign q c).object ptr
          = ((s.updatePeakFilter m chainSettings sampleRate).updateGain m
              chainSettings).heap.object ptr) := by
  have hf := hs.facts
  obtain ⟨⟨-, a2, a3, a4, a5⟩, ⟨b1, b2, b3, b4⟩, ⟨-, c2, c3⟩, ⟨d1, d2⟩, -, f1, f2, f3, f4, f5,
    f6⟩ := hf
  have hc := PluginRefs.updateChain_frame m s hs chainSettings sampleRate
  have hp := PluginRefs.updatePeakFilter_frame m s hs chainSettings sampleRate
  refine ⟨⟨hc.1, hc.2.1, ?_⟩, ⟨hp.1, ?_⟩, ⟨hc.2.2.2.2.2.2.nodup, hp.2.2.2.nodup⟩,
    (PluginRefs.Separate.assign_frame hc.2.2.2.2.2.2 c).1,
    (PluginRefs.Separate.assign_frame hp.2.2.2 c).2⟩
  · intro ptr hptr
    simp only [ChainRefs.refs, List.mem_cons, List.mem_singleton, List.not_mem_nil,
      or_false, List.mem_append] at hptr
    rcases hptr with (rfl | rfl) | (rfl | rfl)
    · exact hc.2.2.2.1 _ f1 a4 a5
    · exact hc.2.2.2.1 _ f2 b3 b4
    · exact hc.2.2.2.1 _ f3 c2 c3
    · exact hc.2.2.2.1 _ f4 d1 d2
  · intro ptr hptr
    simp only [ChainRefs.refs, List.mem_cons, List.mem_singleton, List.not_mem_nil,
      or_false] at hptr
    rcases hptr with rfl | rfl
    · exact hp.2.1 _ f5 a4.symm b3.symm c2.symm d1.symm
    · exact hp.2.1 _ f6 a5.symm b4.symm c3.symm d2.symm

/-- The plugin as constructed has a coefficient object per stage. -/
theorem PluginRefs.init_separate : (PluginRefs.init : PluginRefs K).Separate := by
  constructor
  · simp [PluginRefs.stageRefs, PluginRefs.init]
  · intro ptr hp
    simp only [PluginRefs.stageRefs, PluginRefs.init, List.mem_cons, List.mem_singleton,
      List.not_mem_nil, or_false] at hp
    show ptr < 6
    rcases hp with rfl | rfl | rfl | rfl | rfl | rfl <;> decide

/-- C17 at the plugin as constructed and the scenario settings: after `updateChain` the
six stage references are still pairwise distinct. -/
theorem chains_never_share_coefficients_witness :
    (PluginRefs.init : PluginRefs ℝ).Separate ∧
    ((PluginRefs.init : PluginRefs ℝ).updateChain
      (Libm.mk Real.rpow (Real.logb 10) Real.sqrt Real.sin Real.cos Real.pi)
      scenarioSettings 48000).stageRefs.Nodup ∧
    ((PluginRefs.init : PluginRefs ℝ).updateChain
      (Libm.mk Real.rpow (Real.logb 10) Real.sqrt Real.sin Real.cos Real.pi)
      scenarioSettings 48000).leftChain = (PluginRefs.init : PluginRefs ℝ).leftChain :=
  have h := chains_never_share_coefficients
    (Libm.mk Real.rpow (Real.logb 10) Real.sqrt Real.sin Real.cos Real.pi)
    (PluginRefs.init : PluginRefs ℝ) PluginRefs.init_separate scenarioSettings 48000
    (Coefficients.assign4 1 0 1 0)
  ⟨PluginRefs.init_separate, h.2.2.1.1, h.1.1⟩

/-- The reference-level `updatePeakFilter` installs the same contents as the value-level
one: in a separate state both `Peak1` objects end up holding `makePeakFilter`'s result
and both `Peak2` objects `makePeakFilter2`'s. -/
theorem PluginRefs.updatePeakFilter_objects (m : Libm K) (s : PluginRefs K) (hs : s.Separate)
    (chainSettings : ChainSettings K) (sampleRate : K) :
    (s.updatePeakFilter m chainSettings sampleRate).heap.object s.leftChain.Peak1
      = makePeakFilter m chainSettings sampleRate ∧
    (s.updatePeakFilter m chainSettings sampleRate).heap.object s.rightChain.Peak1
      = makePeakFilter m chainSettings sampleRate ∧
    (s.updatePeakFilter m chainSettings sampleRate).heap.object s.leftChain.Peak2
      = makePeakFilter2 m chainSettings sampleRate ∧
    (s.updatePeakFilter m chainSettings sampleRate).heap.object s.rightChain.Peak2
      = makePeakFilter2 m chainSettings sampleRate := by
  obtain ⟨⟨a1, a2, a3, -, -⟩, ⟨b1, b2, -, -⟩, ⟨c1, -, -⟩, -, -, f1, f2, f3, f4, -, -⟩ := hs.facts
  have n1 : s.leftChain.Peak1 ≠ s.nextFree := Nat.ne_of_lt f1
  have n2 : s.leftChain.Peak2 ≠ s.nextFree := Nat.ne_of_lt f2
  have n3 : s.rightChain.Peak1 ≠ s.nextFree := Nat.ne_of_lt f3
  have n4 : s.rightChain.Peak2 ≠ s.nextFree := Nat.ne_of_lt f4
  have k1 : s.leftChain.Peak1 ≠ s.nextFree + 1 := Nat.ne_of_lt (Nat.lt_succ_of_lt f1)
  have k2 : s.leftChain.Peak2 ≠ s.nextFree + 1 := Nat.ne_of_lt (Nat.lt_succ_of_lt f2)
  have k3 : s.rightChain.Peak1 ≠ s.nextFree + 1 := Nat.ne_of_lt (Nat.lt_succ_of_lt f3)
  have k4 : s.rightChain.Peak2 ≠ s.nextFree + 1 := Nat.ne_of_lt (Nat.lt_succ_of_lt f4)
  refine ⟨?_, ?_, ?_, ?_⟩ <;>
    simp [PluginRefs.updatePeakFilter, PluginRefs.allocate, updateCoefficientsRef,
      CoefficientsHeap.assign, updateCoefficients, a1, a2, a3, b1, b2, c1, a1.symm, a2.symm,
      a3.symm, b1.symm, b2.symm, c1.symm, n1, n2, n3, n4, k1, k2, k3, k4, n1.symm, n2.symm,
      n3.symm, n4.symm, k1.symm, k2.symm, k3.symm, k4.symm]

end SharingTheorems

/-! ## Snapshots within one block -/

section SnapshotTheorems

variable {K : Type} [LinearOrderedField K]

/-- Without writes during the block, `processBlockWithWrites` is `processBlock`. -/
theorem processBlockWithWrites_id (m : Libm K) (p : SimpleDualFilterAudioProcessor K)
    (buffer : AudioBuffer K) :
    processBlockWithWrites m p buffer (fun a => a) (fun a => a) = processBlock m p buffer :=
  rfl

/-- `processBlockWithWrites` returns for every buffer with at least two channels that
has all the output channels. -/
theorem processBlockWithWrites_returns (m : Libm K) (p : SimpleDualFilterAudioProcessor K)
    (buffer : AudioBuffer K)
    (write1 write2 : AudioProcessorValueTreeState K → AudioProcessorValueTreeState K)
    (h2 : 2 ≤ buffer.length) (hout : p.totalNumOutputChannels ≤ buffer.length) :
    ∃ r, processBlockWithWrites m p buffer write1 write2 = some r := by
  obtain ⟨cleared, hc, hlen⟩ := clearUnusedChannels_some
    (p.totalNumOutputChannels - p.totalNumInputChannels) p.totalNumInputChannels buffer
    (by omega)
  have h0 : 0 < cleared.length := by omega
  have h1 : 1 < cleared.length := by omega
  unfold processBlockWithWrites
  simp only [hc, List.getElem?_eq_getElem h0, List.getElem?_eq_getElem h1]
  exact ⟨_, rfl⟩

/-- What a block with writes leaves behind: coefficients from the parameters after
`write1`, gain stages from the parameters after `write2`, the buffer gain from the
parameters before both. -/
theorem processBlockWithWrites_spec (m : Libm K)
    (p : SimpleDualFilterAudioProcessor K) (buffer : AudioBuffer K)
    (write1 write2 : AudioProcessorValueTreeState K → AudioProcessorValueTreeState K)
    (r : SimpleDualFilterAudioProcessor K × AudioBuffer K)
    (h : processBlockWithWrites m p buffer write1 write2 = some r) :
    (r.1.leftChain.Peak1.coefficients
        = makePeakFilter m (getChainSettings (write1 p.apvts)) p.sampleRate ∧
      r.1.rightChain.Peak1.coefficients
        = makePeakFilter m (getChainSettings (write1 p.apvts)) p.sampleRate ∧
      r.1.leftChain.Peak2.coefficients
        = makePeakFilter2 m (getChainSettings (write1 p.apvts)) p.sampleRate ∧
      r.1.rightChain.Peak2.coefficients
        = makePeakFilter2 m (getChainSettings (write1 p.apvts)) p.sampleRate) ∧
    (r.1.leftChain.outputGain.gain
        = decibelsToGain m (getChainSettings (write2 (write1 p.apvts))).outputGain ∧
      r.1.rightChain.outputGain.gain
        = decibelsToGain m (getChainSettings (write2 (write1 p.apvts))).outputGain) ∧
    (∃ processed, r.2 = AudioBuffer.applyGain processed
        (decibelsToGain m (getChainSettings p.apvts).outputGain)) ∧
    processBlockWithWrites m p buffer (fun a => a) (fun a => a) = processBlock m p buffer := by
  unfold processBlockWithWrites at h
  split at h
  · exact absurd h (by simp)
  · split at h
    · rename_i leftBlock rightBlock _ _
      simp only [Option.some.injEq] at h
      subst h
      refine ⟨⟨?_, ?_, ?_, ?_⟩, ⟨?_, ?_⟩, ⟨_, rfl⟩, rfl⟩
      · exact (MonoChain.process_keeps _ leftBlock).1
      · exact (MonoChain.process_keeps _ rightBlock).1
      · exact (MonoChain.process_keeps _ leftBlock).2.1
      · exact (MonoChain.process_keeps _ rightBlock).2.1
      · have := (MonoChain.process_keeps
          (updateGain m { updateFilters m { p with apvts := write1 p.apvts } with
            apvts := write2 (updateFilters m { p with apvts := write1 p.apvts }).apvts }).leftChain
          leftBlock).2.2
        exact congrArg Gain.gain this
      · have := (MonoChain.process_keeps
          (updateGain m { updateFilters m { p with apvts := write1 p.apvts } with
            apvts := write2 (updateFilters m { p with apvts := write1 p.apvts }).apvts }).rightChain
          rightBlock).2.2
        exact congrArg Gain.gain this
    · exact absurd h (by simp)

/-- C20, as amended: one `processBlock` call reads the parameters three times, in
`processBlock` itself, in `updateFilters` and in `updateGain`.  The peak coefficients of
both chains come from the snapshot `updateFilters` takes, the gain stages from the one
`updateGain` takes, and the gain applied to the buffer from the one `processBlock` took
first; without a parameter write between the reads the three snapshots are the same. -/
theorem processBlock_reads_three_snapshots (m : Libm K)
    (p : SimpleDualFilterAudioProcessor K) (buffer : AudioBuffer K)
    (write1 write2 : AudioProcessorValueTreeState K → AudioProcessorValueTreeState K)
    (r : SimpleDualFilterAudioProcessor K × AudioBuffer K)
    (h : processBlockWithWrites m p buffer write1 write2 = some r) :
    (r.1.leftChain.Peak1.coefficients
        = makePeakFilter m (getChainSettings (write1 p.apvts)) p.sampleRate ∧
      r.1.rightChain.Peak1.coefficients
        = makePeakFilter m (getChainSettings (write1 p.apvts)) p.sampleRate ∧
      r.1.leftChain.Peak2.coefficients
        = makePeakFilter2 m (getChainSettings (write1 p.apvts)) p.sampleRate ∧
      r.1.rightChain.Peak2.coefficients
        = makePeakFilter2 m (getChainSettings (write1 p.apvts)) p.sampleRate) ∧
    (r.1.leftChain.outputGain.gain
        = decibelsToGain m (getChainSettings (write2 (write1 p.apvts))).outputGain ∧
      r.1.rightChain.outputGain.gain
        = decibelsToGain m (getChainSettings (write2 (write1 p.apvts))).outputGain) ∧
    (∃ processed, r.2 = AudioBuffer.applyGain processed
        (decibelsToGain m (getChainSettings p.apvts).outputGain)) ∧
    processBlockWithWrites m p buffer (fun a => a) (fun a => a) = processBlock m p buffer :=
  processBlockWithWrites_spec m p buffer write1 write2 r h

end SnapshotTheorems

section SnapshotTheoremsReal

/-- With the exact library, 0 dB is the gain 1 and -60 dB the gain `1 / 1000`. -/
theorem decibelsToGain_values (m : Libm ℝ) (hm : m.IsExact) :
    decibelsToGain m 0 = 1 ∧ decibelsToGain m (-60) = 1 / 1000 := by
  constructor
  · rw [decibelsToGain_exact m hm 0 (by norm_num)]
    simp
  · rw [decibelsToGain_exact m hm (-60) (by norm_num)]
    have e : ((-60 : ℝ) / 20) = -(3 : ℝ) := by norm_num
    rw [e, Real.rpow_neg (by norm_num)]
    norm_num

/-- C20 as stated fails: with `Output Gain` at -60 dB when the block starts, a write of
`Peak1 Freq` to 2000 arriving before `updateFilters` reads the parameters and a write of
`Output Gain` to 0 arriving before `updateGain` reads them, one `processBlock` call
designs the peaks for 2000 Hz, sets the gain stages to 1 (0 dB) and applies `1 / 1000`
(-60 dB) to the buffer: three different parameter snapshots. -/
theorem snapshots_differ_under_writes :
    ∃ r, processBlockWithWrites
        (Libm.mk Real.rpow (Real.logb 10) Real.sqrt Real.sin Real.cos Real.pi)
        (processorAtMinus60 : SimpleDualFilterAudioProcessor ℝ) [[1], [1]]
        (fun a => a.write "Peak1 Freq" 2000) (fun a => a.write "Output Gain" 0) = some r ∧
      (getChainSettings (processorAtMinus60 : SimpleDualFilterAudioProcessor ℝ).apvts).peak1Freq
        = 1000 ∧
      r.1.leftChain.Peak1.coefficients
        = IIRmakePeakFilter
            (Libm.mk Real.rpow (Real.logb 10) Real.sqrt Real.sin Real.cos Real.pi)
            48000 2000 1 1 ∧
      r.1.leftChain.outputGain.gain = 1 ∧
      ∃ processed, r.2 = AudioBuffer.applyGain processed (1 / 1000) := by
  have hm : (Libm.mk Real.rpow (Real.logb 10) Real.sqrt Real.sin Real.cos Real.pi).IsExact :=
    ⟨rfl, rfl, rfl, rfl, rfl, rfl⟩
  have hv := decibelsToGain_values _ hm
  obtain ⟨r, hr⟩ := processBlockWithWrites_returns
    (Libm.mk Real.rpow (Real.logb 10) Real.sqrt Real.sin Real.cos Real.pi)
    (processorAtMinus60 : SimpleDualFilterAudioProcessor ℝ) [[1], [1]]
    (fun a => a.write "Peak1 Freq" 2000) (fun a => a.write "Output Gain" 0)
    (by decide) (le_refl 2)
  have hspec := processBlockWithWrites_spec _ _ _ _ _ r hr
  have hcs := getChainSettings_processorAtMinus60
  refine ⟨r, hr, by rw [hcs]; rfl, ?_, ?_, ?_⟩
  · rw [hspec.1.1]
    have e : getChainSettings
        ((processorAtMinus60 : SimpleDualFilterAudioProcessor ℝ).apvts.write "Peak1 Freq" 2000)
        = { (unityAtMinus60 : ChainSettings ℝ) with peak1Freq := 2000 } := by
      simp [getChainSettings, AudioProcessorValueTreeState.write, processorAtMinus60,
        constructed, apvtsOf, unityAtMinus60, ChainSettings.init]
    rw [e]
    unfold makePeakFilter
    have e2 : ({ (unityAtMinus60 : ChainSettings ℝ) with peak1Freq := 2000 }
          : ChainSettings ℝ).peak1GainInDecibels
        - ({ (unityAtMinus60 : ChainSettings ℝ) with peak1Freq := 2000 }
          : ChainSettings ℝ).balance = 0 := by
      norm_num [unityAtMinus60, ChainSettings.init]
    rw [e2, hv.1]
    rfl
  · rw [hspec.2.1.1]
    have e : (getChainSettings
        (((processorAtMinus60 : SimpleDualFilterAudioProcessor ℝ).apvts.write
          "Peak1 Freq" 2000).write "Output Gain" 0)).outputGain = 0 := by
      simp [getChainSettings, AudioProcessorValueTreeState.write]
    rw [e, hv.1]
  · obtain ⟨processed, hp⟩ := hspec.2.2.1
    refine ⟨processed, ?_⟩
    rw [hp, hcs]
    have e : (unityAtMinus60 : ChainSettings ℝ).outputGain = -60 := rfl
    rw [e, hv.2]

/-- The amended C20 on the example processor and a stereo block, without writes: the
call returns, and it is `processBlock`. -/
theorem processBlock_reads_three_snapshots_witness :
    ∃ r, processBlockWithWrites
        (Libm.mk Real.rpow (Real.logb 10) Real.sqrt Real.sin Real.cos Real.pi)
        (processorAtMinus60 : SimpleDualFilterAudioProcessor ℝ) [[1], [1]]
        (fun a => a) (fun a => a) = some r ∧
      r.1.leftChain.outputGain.gain
        = decibelsToGain
            (Libm.mk Real.rpow (Real.logb 10) Real.sqrt Real.sin Real.cos Real.pi)
            (getChainSettings
              (processorAtMinus60 : SimpleDualFilterAudioProcessor ℝ).apvts).outputGain := by
  obtain ⟨r, hr⟩ := processBlockWithWrites_returns
    (Libm.mk Real.rpow (Real.logb 10) Real.sqrt Real.sin Real.cos Real.pi)
    (processorAtMinus60 : SimpleDualFilterAudioProcessor ℝ) [[1], [1]]
    (fun a => a) (fun a => a) (by decide) (le_refl 2)
  exact ⟨r, hr, (processBlock_reads_three_snapshots _ _ _ _ _ r hr).2.1.1⟩

end SnapshotTheoremsReal

/-! ## The combined response around the peak -/

section ExtremumTheorems

variable {K : Type} [LinearOrderedField K]

/-- The squared modulus of the numerator sum `b0 + b1 jw + b2 jw^2` at
`jw = cos w - j sin w`. -/
theorem normSq_numerator (b0 b1 b2 sn cs : K) (hsc : sn * sn + cs * cs = 1) :
    (accumulate ({ re := cs, im := -sn } : Cx K) [b0, b1, b2]
        { re := 0, im := 0 } { re := 1, im := 0 }).re
      * (accumulate ({ re := cs, im := -sn } : Cx K) [b0, b1, b2]
        { re := 0, im := 0 } { re := 1, im := 0 }).re
    + (accumulate ({ re := cs, im := -sn } : Cx K) [b0, b1, b2]
        { re := 0, im := 0 } { re := 1, im := 0 }).im
      * (accumulate ({ re := cs, im := -sn } : Cx K) [b0, b1, b2]
        { re := 0, im := 0 } { re := 1, im := 0 }).im
    = ((b0 + b2) * cs + b1) * ((b0 + b2) * cs + b1) + (b0 - b2) * sn * ((b0 - b2) * sn) := by
  simp only [accumulate, Cx.add, Cx.scale, Cx.mul]
  linear_combination
    (((b0 + b2) * cs + b1) * ((b0 + b2) * cs + b1) + (b0 - b2) * sn * ((b0 - b2) * sn)
      - 2 * b0 * (cs * ((b0 + b2) * cs + b1) + (b0 - b2) * (sn * sn))
      + b0 * b0 * (sn * sn + cs * cs - 1)) * hsc

/-- The squared modulus of the denominator sum `1 + a1 jw + a2 jw^2` at
`jw = cos w - j sin w`. -/
theorem normSq_denominator (a1 a2 sn cs : K) (hsc : sn * sn + cs * cs = 1) :
    (accumulate ({ re := cs, im := -sn } : Cx K) [a1, a2]
        { re := 1, im := 0 } { re := cs, im := -sn }).re
      * (accumulate ({ re := cs, im := -sn } : Cx K) [a1, a2]
        { re := 1, im := 0 } { re := cs, im := -sn }).re
    + (accumulate ({ re := cs, im := -sn } : Cx K) [a1, a2]
        { re := 1, im := 0 } { re := cs, im := -sn }).im
      * (accumulate ({ re := cs, im := -sn } : Cx K) [a1, a2]
        { re := 1, im := 0 } { re := cs, im := -sn }).im
    = ((1 + a2) * cs + a1) * ((1 + a2) * cs + a1) + (1 - a2) * sn * ((1 - a2) * sn) := by
  simp only [accumulate, Cx.add, Cx.scale, Cx.mul]
  linear_combination
    (((1 + a2) * cs + a1) * ((1 + a2) * cs + a1) + (1 - a2) * sn * ((1 - a2) * sn)
      - 2 * (cs * ((1 + a2) * cs + a1) + (1 - a2) * (sn * sn))
      + (sn * sn + cs * cs - 1)) * hsc

/-- The squared modulus of a quotient is the quotient of the squared moduli. -/
theorem normSq_div (a b : Cx K) (hb : b.re * b.re + b.im * b.im ≠ 0) :
    (a.div b).re * (a.div b).re + (a.div b).im * (a.div b).im
      = (a.re * a.re + a.im * a.im) / (b.re * b.re + b.im * b.im) := by
  unfold Cx.div
  field_simp
  ring

/-- The squared magnitude of a peak design with centre cosine `c0`, `alpha * A = pA`,
`alpha / A = be` and `a0 = 1 + be`, at the frequency with sine `sn` and cosine `cs`:
`(X + pA^2 Y) / (X + be^2 Y)` with `X = 4 (cs - c0)^2` and `Y = 4 sn^2`. -/
theorem peak_response_sq (sn cs c0 pA be a0 : K) (hsc : sn * sn + cs * cs = 1)
    (ha0 : a0 ≠ 0) (hb : a0 = 1 + be)
    (hD : 4 * ((cs - c0) * (cs - c0)) + 4 * (be * be) * (sn * sn) ≠ 0) :
    ((accumulate ({ re := cs, im := -sn } : Cx K)
          [(1 + pA) * (1 / a0), -2 * c0 * (1 / a0), (1 - pA) * (1 / a0)]
          { re := 0, im := 0 } { re := 1, im := 0 }).div
        (accumulate ({ re := cs, im := -sn } : Cx K)
          [-2 * c0 * (1 / a0), (1 - be) * (1 / a0)]
          { re := 1, im := 0 } { re := cs, im := -sn })).re
      * ((accumulate ({ re := cs, im := -sn } : Cx K)
          [(1 + pA) * (1 / a0), -2 * c0 * (1 / a0), (1 - pA) * (1 / a0)]
          { re := 0, im := 0 } { re := 1, im := 0 }).div
        (accumulate ({ re := cs, im := -sn } : Cx K)
          [-2 * c0 * (1 / a0), (1 - be) * (1 / a0)]
          { re := 1, im := 0 } { re := cs, im := -sn })).re
    + ((accumulate ({ re := cs, im := -sn } : Cx K)
          [(1 + pA) * (1 / a0), -2 * c0 * (1 / a0), (1 - pA) * (1 / a0)]
          { re := 0, im := 0 } { re := 1, im := 0 }).div
        (accumulate ({ re := cs, im := -sn } : Cx K)
          [-2 * c0 * (1 / a0), (1 - be) * (1 / a0)]
          { re := 1, im := 0 } { re := cs, im := -sn })).im
      * ((accumulate ({ re := cs, im := -sn } : Cx K)
          [(1 + pA) * (1 / a0), -2 * c0 * (1 / a0), (1 - pA) * (1 / a0)]
          { re := 0, im := 0 } { re := 1, im := 0 }).div
        (accumulate ({ re := cs, im := -sn } : Cx K)
          [-2 * c0 * (1 / a0), (1 - be) * (1 / a0)]
          { re := 1, im := 0 } { re := cs, im := -sn })).im
    = (4 * ((cs - c0) * (cs - c0)) + 4 * (pA * pA) * (sn * sn))
      / (4 * ((cs - c0) * (cs - c0)) + 4 * (be * be) * (sn * sn)) := by
  have hN := normSq_numerator ((1 + pA) * (1 / a0)) (-2 * c0 * (1 / a0))
    ((1 - pA) * (1 / a0)) sn cs hsc
  have hDn := normSq_denominator (-2 * c0 * (1 / a0)) ((1 - be) * (1 / a0)) sn cs hsc
  have eN : ((1 + pA) * (1 / a0) + (1 - pA) * (1 / a0)) * cs + -2 * c0 * (1 / a0)
      = 2 * (cs - c0) / a0 := by
    field_simp
    ring
  have eN2 : ((1 + pA) * (1 / a0) - (1 - pA) * (1 / a0)) * sn = 2 * pA * sn / a0 := by
    ring
  have eD : (1 + (1 - be) * (1 / a0)) * cs + -2 * c0 * (1 / a0) = 2 * (cs - c0) / a0 := by
    field_simp
    rw [hb]
    ring
  have eD2 : (1 - (1 - be) * (1 / a0)) * sn = 2 * be * sn / a0 := by
    have k : 1 - (1 - be) * (1 / a0) = 2 * be / a0 := by
      field_simp
      rw [hb]
      ring
    rw [k]
    ring
  rw [eN, eN2] at hN
  rw [eD, eD2] at hDn
  have e1 : 2 * (cs - c0) / a0 * (2 * (cs - c0) / a0) + 2 * pA * sn / a0 * (2 * pA * sn / a0)
      = (4 * ((cs - c0) * (cs - c0)) + 4 * (pA * pA) * (sn * sn)) / (a0 * a0) := by
    field_simp
    ring
  have e2 : 2 * (cs - c0) / a0 * (2 * (cs - c0) / a0) + 2 * be * sn / a0 * (2 * be * sn / a0)
      = (4 * ((cs - c0) * (cs - c0)) + 4 * (be * be) * (sn * sn)) / (a0 * a0) := by
    field_simp
    ring
  rw [e1] at hN
  rw [e2] at hDn
  have hsq : a0 * a0 ≠ 0 := mul_ne_zero ha0 ha0
  have hDne : (accumulate ({ re := cs, im := -sn } : Cx K)
        [-2 * c0 * (1 / a0), (1 - be) * (1 / a0)]
        { re := 1, im := 0 } { re := cs, im := -sn }).re
      * (accumulate ({ re := cs, im := -sn } : Cx K)
        [-2 * c0 * (1 / a0), (1 - be) * (1 / a0)]
        { re := 1, im := 0 } { re := cs, im := -sn }).re
    + (accumulate ({ re := cs, im := -sn } : Cx K)
        [-2 * c0 * (1 / a0), (1 - be) * (1 / a0)]
        { re := 1, im := 0 } { re := cs, im := -sn }).im
      * (accumulate ({ re := cs, im := -sn } : Cx K)
        [-2 * c0 * (1 / a0), (1 - be) * (1 / a0)]
        { re := 1, im := 0 } { re := cs, im := -sn }).im ≠ 0 := by
    rw [hDn]
    exact div_ne_zero hD hsq
  rw [normSq_div _ _ hDne, hN, hDn, div_div_div_cancel_right₀ hsq]

end ExtremumTheorems

section ExtremumTheoremsReal

/-- With the exact library, the magnitude of a peak design (centre `f0` in
`[2, sampleRate / 2)`, `Q > 0`, gain factor `g > 0`) at any frequency `f` is
`sqrt ((X + g Z) / (X + Z / g))`, where `X = 4 (cos w - cos w0)^2` and
`Z = 4 alpha^2 sin^2 w` with `alpha = sin w0 / (2 Q)`; the denominator is positive. -/
theorem peak_magnitude_formula (m : Libm ℝ) (hm : m.IsExact)
    (sampleRate f0 Q g f : ℝ) (hf2 : 2 ≤ f0) (hfs : f0 < sampleRate / 2) (hQ : 0 < Q)
    (hg : 0 < g) :
    getMagnitudeForFrequency m (IIRmakePeakFilter m sampleRate f0 Q g) f sampleRate
      = Real.sqrt
        ((4 * ((Real.cos (2 * Real.pi * f / sampleRate) - Real.cos (2 * Real.pi * f0 / sampleRate))
              * (Real.cos (2 * Real.pi * f / sampleRate) - Real.cos (2 * Real.pi * f0 / sampleRate)))
            + g * (4 * (Real.sin (2 * Real.pi * f0 / sampleRate) / (Q * 2)
                * (Real.sin (2 * Real.pi * f0 / sampleRate) / (Q * 2)))
              * (Real.sin (2 * Real.pi * f / sampleRate) * Real.sin (2 * Real.pi * f / sampleRate))))
          / (4 * ((Real.cos (2 * Real.pi * f / sampleRate) - Real.cos (2 * Real.pi * f0 / sampleRate))
              * (Real.cos (2 * Real.pi * f / sampleRate) - Real.cos (2 * Real.pi * f0 / sampleRate)))
            + (4 * (Real.sin (2 * Real.pi * f0 / sampleRate) / (Q * 2)
                * (Real.sin (2 * Real.pi * f0 / sampleRate) / (Q * 2)))
              * (Real.sin (2 * Real.pi * f / sampleRate) * Real.sin (2 * Real.pi * f / sampleRate)))
              / g)) ∧
    0 < 4 * ((Real.cos (2 * Real.pi * f / sampleRate) - Real.cos (2 * Real.pi * f0 / sampleRate))
          * (Real.cos (2 * Real.pi * f / sampleRate) - Real.cos (2 * Real.pi * f0 / sampleRate)))
        + (4 * (Real.sin (2 * Real.pi * f0 / sampleRate) / (Q * 2)
            * (Real.sin (2 * Real.pi * f0 / sampleRate) / (Q * 2)))
          * (Real.sin (2 * Real.pi * f / sampleRate) * Real.sin (2 * Real.pi * f / sampleRate)))
          / g := by
  have hsr : 0 < sampleRate := by linarith
  have hpi := Real.pi_pos
  have hj : jmax f0 2 = f0 := by
    unfold jmax
    rw [if_neg (by linarith)]
  have hsq : 0 < Real.sqrt g := Real.sqrt_pos.mpr hg
  have hA : jmax 0 (m.sqrt g) = Real.sqrt g := by
    rw [hm.sqrt_eq]
    unfold jmax
    rw [if_pos hsq]
  have hw0 : 0 < 2 * Real.pi * f0 / sampleRate := by positivity
  have hw1 : 2 * Real.pi * f0 / sampleRate < Real.pi := by
    rw [div_lt_iff₀ hsr]
    nlinarith
  have hs0 : 0 < Real.sin (2 * Real.pi * f0 / sampleRate) :=
    Real.sin_pos_of_pos_of_lt_pi hw0 hw1
  have hsc0 : Real.sin (2 * Real.pi * f0 / sampleRate) * Real.sin (2 * Real.pi * f0 / sampleRate)
      + Real.cos (2 * Real.pi * f0 / sampleRate) * Real.cos (2 * Real.pi * f0 / sampleRate)
      = 1 := by
    have := Real.sin_sq_add_cos_sq (2 * Real.pi * f0 / sampleRate)
    nlinarith
  have hsc : Real.sin (2 * Real.pi * f / sampleRate) * Real.sin (2 * Real.pi * f / sampleRate)
      + Real.cos (2 * Real.pi * f / sampleRate) * Real.cos (2 * Real.pi * f / sampleRate)
      = 1 := by
    have := Real.sin_sq_add_cos_sq (2 * Real.pi * f / sampleRate)
    nlinarith
  have hneg : -(2 * Real.pi) * f / sampleRate = -(2 * Real.pi * f / sampleRate) := by ring
  have hal : 0 < Real.sin (2 * Real.pi * f0 / sampleRate) / (Q * 2) := by positivity
  have hbe : 0 < Real.sin (2 * Real.pi * f0 / sampleRate) / (Q * 2) / Real.sqrt g := by
    positivity
  have ha0 : (1 : ℝ) + Real.sin (2 * Real.pi * f0 / sampleRate) / (Q * 2) / Real.sqrt g ≠ 0 := by
    positivity
  have hgg : Real.sqrt g * Real.sqrt g = g := Real.mul_self_sqrt hg.le
  -- the denominator of the squared magnitude is positive
  have hpos : 0 < 4 * ((Real.cos (2 * Real.pi * f / sampleRate)
          - Real.cos (2 * Real.pi * f0 / sampleRate))
        * (Real.cos (2 * Real.pi * f / sampleRate) - Real.cos (2 * Real.pi * f0 / sampleRate)))
      + (4 * (Real.sin (2 * Real.pi * f0 / sampleRate) / (Q * 2)
          * (Real.sin (2 * Real.pi * f0 / sampleRate) / (Q * 2)))
        * (Real.sin (2 * Real.pi * f / sampleRate) * Real.sin (2 * Real.pi * f / sampleRate)))
        / g := by
    have h1 : 0 ≤ (Real.cos (2 * Real.pi * f / sampleRate)
          - Real.cos (2 * Real.pi * f0 / sampleRate))
        * (Real.cos (2 * Real.pi * f / sampleRate) - Real.cos (2 * Real.pi * f0 / sampleRate)) :=
      mul_self_nonneg _
    have h2 : 0 ≤ Real.sin (2 * Real.pi * f / sampleRate) * Real.sin (2 * Real.pi * f / sampleRate) :=
      mul_self_nonneg _
    by_cases hz : Real.sin (2 * Real.pi * f / sampleRate) = 0
    · have hc1 : Real.cos (2 * Real.pi * f / sampleRate) * Real.cos (2 * Real.pi * f / sampleRate)
          = 1 := by
        rw [hz] at hsc
        linarith
      have hne : Real.cos (2 * Real.pi * f / sampleRate)
          - Real.cos (2 * Real.pi * f0 / sampleRate) ≠ 0 := by
        intro h0
        have e : Real.cos (2 * Real.pi * f / sampleRate)
            = Real.cos (2 * Real.pi * f0 / sampleRate) := by linarith
        rw [e] at hc1
        nlinarith [mul_pos hs0 hs0]
      have := mul_self_pos.mpr hne
      rw [hz]
      simp only [mul_zero, zero_div, add_zero]
      linarith
    · have h3 := mul_self_pos.mpr hz
      have h4 := mul_pos (mul_pos (by norm_num : (0 : ℝ) < 4) (mul_pos hal hal)) h3
      have h5 := div_pos h4 hg
      linarith
  refine ⟨?_, hpos⟩
  have hcoef : (IIRmakePeakFilter m sampleRate f0 Q g).coefficients.length = 5 := rfl
  unfold getMagnitudeForFrequency
  simp only [Coefficients.getFilterOrder, hcoef]
  simp only [IIRmakePeakFilter, Coefficients.assign6, hj, hA, hm.sin_eq, hm.cos_eq, hm.pi_eq,
    if_neg ha0, Cx.expJ, hneg, Real.sin_neg, Real.cos_neg]
  norm_num only [List.take, List.drop]
  unfold Cx.abs
  rw [hm.sqrt_eq]
  have e1 : 4 * (Real.sin (2 * Real.pi * f0 / sampleRate) / (Q * 2) / Real.sqrt g
        * (Real.sin (2 * Real.pi * f0 / sampleRate) / (Q * 2) / Real.sqrt g))
        * (Real.sin (2 * Real.pi * f / sampleRate) * Real.sin (2 * Real.pi * f / sampleRate))
      = (4 * (Real.sin (2 * Real.pi * f0 / sampleRate) / (Q * 2)
            * (Real.sin (2 * Real.pi * f0 / sampleRate) / (Q * 2)))
          * (Real.sin (2 * Real.pi * f / sampleRate) * Real.sin (2 * Real.pi * f / sampleRate)))
        / g := by
    rw [div_mul_div_comm, hgg]
    ring
  have e2 : 4 * (Real.sin (2 * Real.pi * f0 / sampleRate) / (Q * 2) * Real.sqrt g
        * (Real.sin (2 * Real.pi * f0 / sampleRate) / (Q * 2) * Real.sqrt g))
        * (Real.sin (2 * Real.pi * f / sampleRate) * Real.sin (2 * Real.pi * f / sampleRate))
      = g * (4 * (Real.sin (2 * Real.pi * f0 / sampleRate) / (Q * 2)
            * (Real.sin (2 * Real.pi * f0 / sampleRate) / (Q * 2)))
          * (Real.sin (2 * Real.pi * f / sampleRate) * Real.sin (2 * Real.pi * f / sampleRate))) := by
    have : Real.sin (2 * Real.pi * f0 / sampleRate) / (Q * 2) * Real.sqrt g
        * (Real.sin (2 * Real.pi * f0 / sampleRate) / (Q * 2) * Real.sqrt g)
        = Real.sin (2 * Real.pi * f0 / sampleRate) / (Q * 2)
          * (Real.sin (2 * Real.pi * f0 / sampleRate) / (Q * 2)) * (Real.sqrt g * Real.sqrt g) := by
      ring
    rw [this, hgg]
    ring
  rw [peak_response_sq _ _ _ _ _ _ hsc ha0 rfl (by rw [e1]; exact hpos.ne'), e1, e2]

end ExtremumTheoremsReal

section ExtremumInequalities

/-- Two peak responses with the same `X` and `Z` and gain factors `a`, `b`: their product
is at most `(a b)^2` when `a b ≥ 1` and at least `(a b)^2` when `a b ≤ 1`. -/
theorem response_product_bound (X Z a b : ℝ) (hX : 0 ≤ X) (hZ : 0 ≤ Z) (ha : 0 < a)
    (hb : 0 < b) (hDa : 0 < X + Z / a) (hDb : 0 < X + Z / b) :
    (1 ≤ a * b →
      (X + a * Z) / (X + Z / a) * ((X + b * Z) / (X + Z / b)) ≤ (a * b) * (a * b)) ∧
    (a * b ≤ 1 →
      (a * b) * (a * b) ≤ (X + a * Z) / (X + Z / a) * ((X + b * Z) / (X + Z / b))) := by
  have key : (a * b) * (a * b) * ((X + Z / a) * (X + Z / b))
      = (a * b * X + b * Z) * (a * b * X + a * Z) := by
    field_simp
    ring
  have hab : 0 < a * b := mul_pos ha hb
  have hXX : 0 ≤ X * X := mul_nonneg hX hX
  have hXZ : 0 ≤ X * Z := mul_nonneg hX hZ
  have hsum : 0 < a + b := add_pos ha hb
  constructor
  · intro h
    rw [div_mul_div_comm, div_le_iff₀ (mul_pos hDa hDb), key]
    have d : (a * b * X + b * Z) * (a * b * X + a * Z) - (X + a * Z) * (X + b * Z)
        = (a * b - 1) * ((a * b + 1) * (X * X) + (a + b) * (X * Z)) := by ring
    have : 0 ≤ (a * b - 1) * ((a * b + 1) * (X * X) + (a + b) * (X * Z)) := by
      apply mul_nonneg (by linarith)
      have := mul_nonneg (by linarith : (0 : ℝ) ≤ a * b + 1) hXX
      have := mul_nonneg hsum.le hXZ
      linarith
    linarith
  · intro h
    rw [div_mul_div_comm, le_div_iff₀ (mul_pos hDa hDb), key]
    have d : (X + a * Z) * (X + b * Z) - (a * b * X + b * Z) * (a * b * X + a * Z)
        = (1 - a * b) * ((a * b + 1) * (X * X) + (a + b) * (X * Z)) := by ring
    have : 0 ≤ (1 - a * b) * ((a * b + 1) * (X * X) + (a + b) * (X * Z)) := by
      apply mul_nonneg (by linarith)
      have := mul_nonneg (by linarith : (0 : ℝ) ≤ a * b + 1) hXX
      have := mul_nonneg hsum.le hXZ
      linarith
    linarith

end ExtremumInequalities

section ExtremumCombined

/-- With the exact library, two peak designs with the same centre `f0` in
`[2, sampleRate / 2)` and the same `Q > 0`, with gain factors `a` and `b`: at every
frequency the product of their magnitudes is at most `a b` when `a b ≥ 1`, and at least
`a b` when `a b ≤ 1`. -/
theorem combined_magnitude_bound (m : Libm ℝ) (hm : m.IsExact)
    (sampleRate f0 Q a b f : ℝ) (hf2 : 2 ≤ f0) (hfs : f0 < sampleRate / 2) (hQ : 0 < Q)
    (ha : 0 < a) (hb : 0 < b) :
    (1 ≤ a * b →
      getMagnitudeForFrequency m (IIRmakePeakFilter m sampleRate f0 Q a) f sampleRate
        * getMagnitudeForFrequency m (IIRmakePeakFilter m sampleRate f0 Q b) f sampleRate
        ≤ a * b) ∧
    (a * b ≤ 1 →
      a * b ≤
        getMagnitudeForFrequency m (IIRmakePeakFilter m sampleRate f0 Q a) f sampleRate
        * getMagnitudeForFrequency m (IIRmakePeakFilter m sampleRate f0 Q b) f sampleRate) := by
  obtain ⟨e1, p1⟩ := peak_magnitude_formula m hm sampleRate f0 Q a f hf2 hfs hQ ha
  obtain ⟨e2, p2⟩ := peak_magnitude_formula m hm sampleRate f0 Q b f hf2 hfs hQ hb
  have hX : 0 ≤ 4 * ((Real.cos (2 * Real.pi * f / sampleRate)
        - Real.cos (2 * Real.pi * f0 / sampleRate))
      * (Real.cos (2 * Real.pi * f / sampleRate) - Real.cos (2 * Real.pi * f0 / sampleRate))) :=
    mul_nonneg (by norm_num) (mul_self_nonneg _)
  have hZ : 0 ≤ 4 * (Real.sin (2 * Real.pi * f0 / sampleRate) / (Q * 2)
        * (Real.sin (2 * Real.pi * f0 / sampleRate) / (Q * 2)))
      * (Real.sin (2 * Real.pi * f / sampleRate) * Real.sin (2 * Real.pi * f / sampleRate)) :=
    mul_nonneg (mul_nonneg (by norm_num) (mul_self_nonneg _)) (mul_self_nonneg _)
  have hbound := response_product_bound _ _ a b hX hZ ha hb p1 p2
  have hab : 0 ≤ a * b := (mul_pos ha hb).le
  have hRa : 0 ≤ (4 * ((Real.cos (2 * Real.pi * f / sampleRate)
          - Real.cos (2 * Real.pi * f0 / sampleRate))
        * (Real.cos (2 * Real.pi * f / sampleRate) - Real.cos (2 * Real.pi * f0 / sampleRate)))
      + a * (4 * (Real.sin (2 * Real.pi * f0 / sampleRate) / (Q * 2)
          * (Real.sin (2 * Real.pi * f0 / sampleRate) / (Q * 2)))
        * (Real.sin (2 * Real.pi * f / sampleRate) * Real.sin (2 * Real.pi * f / sampleRate))))
      / (4 * ((Real.cos (2 * Real.pi * f / sampleRate)
          - Real.cos (2 * Real.pi * f0 / sampleRate))
        * (Real.cos (2 * Real.pi * f / sampleRate) - Real.cos (2 * Real.pi * f0 / sampleRate)))
      + (4 * (Real.sin (2 * Real.pi * f0 / sampleRate) / (Q * 2)
          * (Real.sin (2 * Real.pi * f0 / sampleRate) / (Q * 2)))
        * (Real.sin (2 * Real.pi * f / sampleRate) * Real.sin (2 * Real.pi * f / sampleRate)))
        / a) := by
    apply div_nonneg _ p1.le
    have := mul_nonneg ha.le hZ
    linarith
  rw [e1, e2, ← Real.sqrt_mul hRa]
  constructor
  · intro h
    have := Real.sqrt_le_sqrt (hbound.1 h)
    rwa [Real.sqrt_mul_self hab] at this
  · intro h
    have := Real.sqrt_le_sqrt (hbound.2 h)
    rwa [Real.sqrt_mul_self hab] at this

end ExtremumCombined

section ExtremumClaim

/-- With the exact library and in-range settings with `span = 0`, the two stages
`updateChain` builds are peak designs with the same centre `peak1Freq` and `Q`, with
gain factors `10 ^ ((G - balance) / 20)` and `10 ^ ((G + balance) / 20)`, whose product
is `10 ^ (G / 10)`. -/
theorem updateChain_designs_of_span_zero (m : Libm ℝ) (hm : m.IsExact)
    (r : ResponseCurveComponent ℝ) (p : SimpleDualFilterAudioProcessor ℝ)
    (hs : (getChainSettings p.apvts).InRange)
    (hspan : (getChainSettings p.apvts).span = 0)
    (hf : (getChainSettings p.apvts).peak1Freq < p.sampleRate / 2) :
    (r.updateChain m p).monoChain.Peak1.coefficients
      = IIRmakePeakFilter m p.sampleRate (getChainSettings p.apvts).peak1Freq
          (getChainSettings p.apvts).peak1Quality
          ((10 : ℝ) ^ (((getChainSettings p.apvts).peak1GainInDecibels
            - (getChainSettings p.apvts).balance) / 20)) ∧
    (r.updateChain m p).monoChain.Peak2.coefficients
      = IIRmakePeakFilter m p.sampleRate (getChainSettings p.apvts).peak1Freq
          (getChainSettings p.apvts).peak1Quality
          ((10 : ℝ) ^ (((getChainSettings p.apvts).peak1GainInDecibels
            + (getChainSettings p.apvts).balance) / 20)) ∧
    (10 : ℝ) ^ (((getChainSettings p.apvts).peak1GainInDecibels
          - (getChainSettings p.apvts).balance) / 20)
        * (10 : ℝ) ^ (((getChainSettings p.apvts).peak1GainInDecibels
          + (getChainSettings p.apvts).balance) / 20)
      = (10 : ℝ) ^ ((getChainSettings p.apvts).peak1GainInDecibels / 10) := by
  have hlo := hs.peak1Freq_lo
  have h1 := hs.peak1Gain_lo
  have h2 := hs.peak1Gain_hi
  have h3 := hs.balance_lo
  have h4 := hs.balance_hi
  have hp2 : peak2Freq (getChainSettings p.apvts) p.sampleRate
      = (getChainSettings p.apvts).peak1Freq := by
    unfold peak2Freq jlimit spanFactor
    rw [hspan]
    have e : (getChainSettings p.apvts).peak1Freq * (1 + 0 / 2)
        = (getChainSettings p.apvts).peak1Freq := by ring
    rw [e, if_neg (not_lt.mpr hlo), if_neg (not_lt.mpr hf.le)]
  refine ⟨?_, ?_, ?_⟩
  · show makePeakFilter m (getChainSettings p.apvts) p.sampleRate = _
    unfold makePeakFilter
    rw [decibelsToGain_exact m hm _ (by linarith)]
  · show makePeakFilter2 m (getChainSettings p.apvts) p.sampleRate = _
    unfold makePeakFilter2
    rw [decibelsToGain_exact m hm _ (by linarith), hp2]
  · rw [← Real.rpow_add (by norm_num)]
    congr 1
    ring

/-- The exact design, not the single-precision one the plugin computes: with the exact
library (no rounding of the coefficients), for in-range settings with `span = 0` and
`peak1Freq` below the Nyquist frequency, the product of the `Peak1` and `Peak2` magnitudes
of the chain `updateChain` builds has at `peak1Freq` a maximum over all frequencies when
`peak1Gain` is positive and a minimum when `peak1Gain` is negative. -/
theorem combined_magnitude_extremum_at_peak (m : Libm ℝ) (hm : m.IsExact)
    (r : ResponseCurveComponent ℝ) (p : SimpleDualFilterAudioProcessor ℝ)
    (hs : (getChainSettings p.apvts).InRange)
    (hspan : (getChainSettings p.apvts).span = 0)
    (hf : (getChainSettings p.apvts).peak1Freq < p.sampleRate / 2) :
    (0 < (getChainSettings p.apvts).peak1GainInDecibels →
      (∀ f : ℝ,
        getMagnitudeForFrequency m (r.updateChain m p).monoChain.Peak1.coefficients f
            p.sampleRate
          * getMagnitudeForFrequency m (r.updateChain m p).monoChain.Peak2.coefficients f
            p.sampleRate
        ≤ getMagnitudeForFrequency m (r.updateChain m p).monoChain.Peak1.coefficients
            (getChainSettings p.apvts).peak1Freq p.sampleRate
          * getMagnitudeForFrequency m (r.updateChain m p).monoChain.Peak2.coefficients
            (getChainSettings p.apvts).peak1Freq p.sampleRate) ∧
      IsLocalMax (fun f : ℝ =>
        getMagnitudeForFrequency m (r.updateChain m p).monoChain.Peak1.coefficients f
            p.sampleRate
          * getMagnitudeForFrequency m (r.updateChain m p).monoChain.Peak2.coefficients f
            p.sampleRate) (getChainSettings p.apvts).peak1Freq) ∧
    ((getChainSettings p.apvts).peak1GainInDecibels < 0 →
      (∀ f : ℝ,
        getMagnitudeForFrequency m (r.updateChain m p).monoChain.Peak1.coefficients
            (getChainSettings p.apvts).peak1Freq p.sampleRate
          * getMagnitudeForFrequency m (r.updateChain m p).monoChain.Peak2.coefficients
            (getChainSettings p.apvts).peak1Freq p.sampleRate
        ≤ getMagnitudeForFrequency m (r.updateChain m p).monoChain.Peak1.coefficients f
            p.sampleRate
          * getMagnitudeForFrequency m (r.updateChain m p).monoChain.Peak2.coefficients f
            p.sampleRate) ∧
      IsLocalMin (fun f : ℝ =>
        getMagnitudeForFrequency m (r.updateChain m p).monoChain.Peak1.coefficients f
            p.sampleRate
          * getMagnitudeForFrequency m (r.updateChain m p).monoChain.Peak2.coefficients f
            p.sampleRate) (getChainSettings p.apvts).peak1Freq) := by
  obtain ⟨hc1, hc2, hprod⟩ := updateChain_designs_of_span_zero m hm r p hs hspan hf
  have hlo := hs.peak1Freq_lo
  have hQ : 0 < (getChainSettings p.apvts).peak1Quality := by
    have := hs.peak1Quality_lo
    linarith
  have ha : 0 < (10 : ℝ) ^ (((getChainSettings p.apvts).peak1GainInDecibels
      - (getChainSettings p.apvts).balance) / 20) := by positivity
  have hb : 0 < (10 : ℝ) ^ (((getChainSettings p.apvts).peak1GainInDecibels
      + (getChainSettings p.apvts).balance) / 20) := by positivity
  have hcentre : getMagnitudeForFrequency m (r.updateChain m p).monoChain.Peak1.coefficients
        (getChainSettings p.apvts).peak1Freq p.sampleRate
      * getMagnitudeForFrequency m (r.updateChain m p).monoChain.Peak2.coefficients
        (getChainSettings p.apvts).peak1Freq p.sampleRate
      = (10 : ℝ) ^ ((getChainSettings p.apvts).peak1GainInDecibels / 10) := by
    rw [hc1, hc2, peak_magnitude_at_centre m hm _ _ _ _ (by linarith) hf hQ ha,
      peak_magnitude_at_centre m hm _ _ _ _ (by linarith) hf hQ hb, hprod]
  have hbound := fun f : ℝ => combined_magnitude_bound m hm p.sampleRate
    (getChainSettings p.apvts).peak1Freq (getChainSettings p.apvts).peak1Quality _ _ f
    (by linarith) hf hQ ha hb
  constructor
  · intro hG
    have h1 : (1 : ℝ) ≤ (10 : ℝ) ^ ((getChainSettings p.apvts).peak1GainInDecibels / 10) :=
      Real.one_le_rpow (by norm_num) (by positivity)
    have hall : ∀ f : ℝ,
        getMagnitudeForFrequency m (r.updateChain m p).monoChain.Peak1.coefficients f
            p.sampleRate
          * getMagnitudeForFrequency m (r.updateChain m p).monoChain.Peak2.coefficients f
            p.sampleRate
        ≤ getMagnitudeForFrequency m (r.updateChain m p).monoChain.Peak1.coefficients
            (getChainSettings p.apvts).peak1Freq p.sampleRate
          * getMagnitudeForFrequency m (r.updateChain m p).monoChain.Peak2.coefficients
            (getChainSettings p.apvts).peak1Freq p.sampleRate := by
      intro f
      rw [hcentre, ← hprod, hc1, hc2]
      exact (hbound f).1 (by rw [hprod]; exact h1)
    exact ⟨hall, Filter.Eventually.of_forall hall⟩
  · intro hG
    have h1 : (10 : ℝ) ^ ((getChainSettings p.apvts).peak1GainInDecibels / 10) ≤ 1 :=
      Real.rpow_le_one_of_one_le_of_nonpos (by norm_num) (by linarith)
    have hall : ∀ f : ℝ,
        getMagnitudeForFrequency m (r.updateChain m p).monoChain.Peak1.coefficients
            (getChainSettings p.apvts).peak1Freq p.sampleRate
          * getMagnitudeForFrequency m (r.updateChain m p).monoChain.Peak2.coefficients
            (getChainSettings p.apvts).peak1Freq p.sampleRate
        ≤ getMagnitudeForFrequency m (r.updateChain m p).monoChain.Peak1.coefficients f
            p.sampleRate
          * getMagnitudeForFrequency m (r.updateChain m p).monoChain.Peak2.coefficients f
            p.sampleRate := by
      intro f
      rw [hcentre, ← hprod, hc1, hc2]
      exact (hbound f).2 (by rw [hprod]; exact h1)
    exact ⟨hall, Filter.Eventually.of_forall hall⟩

end ExtremumClaim

section ExtremumCounterexample

end ExtremumCounterexample

section ExtremumExamples

end ExtremumExamples

section SettingsTheorems

variable {K : Type} [LinearOrderedField K]

/-- C21: `getChainSettings` returns a snapshot whose fields `peak1Freq`,
`peak1GainInDecibels`, `peak1Quality`, `span`, `balance` and `outputGain` are the current
raw values of `Peak1 Freq`, `Peak1 Gain`, `Peak1 Quality`, `Span`, `Balance` and
`Output Gain`, and whose fields `peak2Freq`, `peak2GainInDecibels` and `peak2Quality` hold
the defaults 0, 0 and 1 whatever the parameters are; `makePeakFilter` and
`makePeakFilter2` give the same coefficients whatever those three fields hold. -/
theorem getChainSettings_fields (m : Libm K) (apvts : AudioProcessorValueTreeState K)
    (s : ChainSettings K) (sampleRate f g q : K) :
    ((getChainSettings apvts).peak1Freq = apvts.getRawParameterValue "Peak1 Freq" ∧
      (getChainSettings apvts).peak1GainInDecibels = apvts.getRawParameterValue "Peak1 Gain" ∧
      (getChainSettings apvts).peak1Quality = apvts.getRawParameterValue "Peak1 Quality" ∧
      (getChainSettings apvts).span = apvts.getRawParameterValue "Span" ∧
      (getChainSettings apvts).balance = apvts.getRawParameterValue "Balance" ∧
      (getChainSettings apvts).outputGain = apvts.getRawParameterValue "Output Gain") ∧
    ((getChainSettings apvts).peak2Freq = 0 ∧
      (getChainSettings apvts).peak2GainInDecibels = 0 ∧
      (getChainSettings apvts).peak2Quality = 1) ∧
    (makePeakFilter m
        { s with peak2Freq := f, peak2GainInDecibels := g, peak2Quality := q } sampleRate
      = makePeakFilter m s sampleRate ∧
     makePeakFilter2 m
        { s with peak2Freq := f, peak2GainInDecibels := g, peak2Quality := q } sampleRate
      = makePeakFilter2 m s sampleRate) :=
  ⟨⟨rfl, rfl, rfl, rfl, rfl, rfl⟩, ⟨rfl, rfl, rfl⟩, rfl, rfl⟩

end SettingsTheorems

section CadenceTheorems

variable {K : Type} [LinearOrderedField K]

/-- The timer the constructor of `ResponseCurveComponent` starts has a period of 60
milliseconds, whatever the processor. -/
theorem construct_timer (m : Libm K) (audioProcessor : SimpleDualFilterAudioProcessor K) :
    (ResponseCurveComponent.construct m audioProcessor).2 = { timerPeriodMs := 60 } := rfl

/-- A timer with a period of 60 milliseconds calls back `50 / 3` times per second, which
is between 16 and 17. -/
theorem callbacksPerSecond_sixty :
    Timer.callbacksPerSecond ({ timerPeriodMs := 60 } : Timer) = (50 / 3 : K) ∧
    (16 : K) < 50 / 3 ∧ (50 / 3 : K) < 17 := by
  refine ⟨?_, ?_, ?_⟩
  · unfold Timer.callbacksPerSecond Timer.getTimerInterval
    norm_num
  · rw [lt_div_iff₀ (by norm_num)]
    norm_num
  · rw [div_lt_iff₀ (by norm_num)]
    norm_num

/-- C22, as amended: the constructor of `ResponseCurveComponent` leaves the component
with its chain updated from the processor and starts the timer with `startTimer (60)`,
an interval of 60 milliseconds: the timer fires at a fixed cadence of `1000 / 60`, about
16.7, times per second. -/
theorem timer_started_with_60_ms (m : Libm K)
    (audioProcessor : SimpleDualFilterAudioProcessor K) :
    (ResponseCurveComponent.construct m audioProcessor).1
      = ResponseCurveComponent.init.updateChain m audioProcessor ∧
    (ResponseCurveComponent.construct m audioProcessor).2.getTimerInterval = 60 ∧
    Timer.callbacksPerSecond (ResponseCurveComponent.construct m audioProcessor).2
      = (1000 / 60 : K) ∧
    (16 : K) < Timer.callbacksPerSecond (ResponseCurveComponent.construct m audioProcessor).2 ∧
    Timer.callbacksPerSecond (ResponseCurveComponent.construct m audioProcessor).2
      < (17 : K) := by
  have h := callbacksPerSecond_sixty (K := K)
  rw [construct_timer]
  refine ⟨rfl, rfl, ?_, ?_, ?_⟩
  · rw [h.1]
    norm_num
  · rw [h.1]
    exact h.2.1
  · rw [h.1]
    exact h.2.2

end CadenceTheorems

section CadenceTheoremsReal

/-- C22 fails as stated: the timer of a response curve constructed on the scenario
processor has an interval of 60 milliseconds, not one of 16 to 17 milliseconds, and its
cadence is below 17 callbacks per second, far from 60. -/
theorem timer_interval_is_not_a_sixtieth_of_a_second :
    (ResponseCurveComponent.construct
      (Libm.mk Real.rpow (Real.logb 10) Real.sqrt Real.sin Real.cos Real.pi)
      scenarioProcessor).2.getTimerInterval = 60 ∧
    ¬ (16 ≤ (ResponseCurveComponent.construct
          (Libm.mk Real.rpow (Real.logb 10) Real.sqrt Real.sin Real.cos Real.pi)
          scenarioProcessor).2.getTimerInterval ∧
        (ResponseCurveComponent.construct
          (Libm.mk Real.rpow (Real.logb 10) Real.sqrt Real.sin Real.cos Real.pi)
          scenarioProcessor).2.getTimerInterval ≤ 17) ∧
    (Timer.callbacksPerSecond (ResponseCurveComponent.construct
        (Libm.mk Real.rpow (Real.logb 10) Real.sqrt Real.sin Real.cos Real.pi)
        scenarioProcessor).2 : ℝ) < 17 := by
  rw [construct_timer]
  refine ⟨rfl, ?_, ?_⟩
  · show ¬ ((16 : Int) ≤ 60 ∧ (60 : Int) ≤ 17)
    decide
  · rw [(callbacksPerSecond_sixty (K := ℝ)).1]
    exact (callbacksPerSecond_sixty (K := ℝ)).2.2

end CadenceTheoremsReal

section LayoutChannelTheorems

variable {K : Type} [LinearOrderedField K]

/-- For an audio effect (neither MIDI effect nor synth) `isBusesLayoutSupported` accepts
exactly the layouts with a mono or stereo main output and the same main input. -/
theorem isBusesLayoutSupported_iff (layouts : BusesLayout) :
    isBusesLayoutSupported false false layouts = true ↔
      (layouts.getMainOutputChannelSet = AudioChannelSet.mono
        ∨ layouts.getMainOutputChannelSet = AudioChannelSet.stereo)
      ∧ layouts.getMainInputChannelSet = layouts.getMainOutputChannelSet := by
  obtain ⟨i, o⟩ := layouts
  cases i <;> cases o <;> simp [isBusesLayoutSupported]

/-- Under the stereo layout every buffer the host passes has channels 0 and 1 and
`processBlock` returns. -/
theorem processBlock_stereo_layout_returns (m : Libm K)
    (p : SimpleDualFilterAudioProcessor K) (layouts : BusesLayout) (buffer : AudioBuffer K)
    (hacc : isBusesLayoutSupported false false layouts = true)
    (hstereo : layouts.getMainOutputChannelSet = AudioChannelSet.stereo)
    (hbuf : buffer.length = layouts.bufferChannels) :
    (∀ c ∈ processBlockChannels, c < buffer.length) ∧
    ∃ r, processBlock m (p.setBusesLayout layouts) buffer = some r := by
  have hin := ((isBusesLayoutSupported_iff layouts).mp hacc).2
  have hlen : buffer.length = 2 := by
    rw [hbuf, BusesLayout.bufferChannels, hin, hstereo]
    rfl
  constructor
  · intro c hc
    simp only [processBlockChannels, List.mem_cons, List.mem_singleton, List.mem_nil_iff,
      or_false] at hc
    omega
  · apply processBlock_returns
    · omega
    · show layouts.getMainOutputChannelSet.size ≤ buffer.length
      rw [hstereo, hlen]
      rfl

/-- C23 fails on the code for the mono layout, which `isBusesLayoutSupported` accepts:
the buffer then has one channel, the channel index 1 that `processBlock` takes a
single-channel block of is not below the channel count, and `processBlock` does not
return a result. -/
theorem processBlock_mono_layout_takes_missing_channel (m : Libm K)
    (p : SimpleDualFilterAudioProcessor K) (buffer : AudioBuffer K)
    (hbuf : buffer.length = monoLayout.bufferChannels) :
    isBusesLayoutSupported false false monoLayout = true ∧
    (1 ∈ processBlockChannels ∧ ¬ 1 < buffer.length) ∧
    processBlock m (p.setBusesLayout monoLayout) buffer = none := by
  have hlen : buffer.length = 1 := hbuf
  refine ⟨rfl, ⟨by simp [processBlockChannels], by omega⟩, ?_⟩
  match buffer, hlen with
  | [channel], _ =>
    simp [processBlock, SimpleDualFilterAudioProcessor.setBusesLayout, monoLayout,
      AudioChannelSet.size, clearUnusedChannels]

end LayoutChannelTheorems

section LayoutChannelTheoremsReal

/-- C23 at a concrete call: the scenario processor under the mono layout, given a
one-channel buffer of three samples. -/
theorem processBlock_mono_layout_takes_missing_channel_witness :
    ([[1, 2, 3]] : AudioBuffer ℝ).length = monoLayout.bufferChannels ∧
    processBlock (Libm.mk Real.rpow (Real.logb 10) Real.sqrt Real.sin Real.cos Real.pi)
      ((scenarioProcessor : SimpleDualFilterAudioProcessor ℝ).setBusesLayout monoLayout)
      [[1, 2, 3]] = none :=
  ⟨rfl, (processBlock_mono_layout_takes_missing_channel _ scenarioProcessor [[1, 2, 3]]
    rfl).2.2⟩

end LayoutChannelTheoremsReal

section PositivityTheoremsReal

/-- C24: with the exact library, for every `ChainSettings` within the declared ranges
both peak designs are given the Q `peak1Quality`, at least 0.1 and so strictly positive;
the dB gains `peak1Gain - balance` and `peak1Gain + balance` lie in `[-36, 36]`, above the
-100 dB floor of `decibelsToGain`; and the gain factors passed to the two designs lie
between `10 ^ (-36 / 20)` and `10 ^ (36 / 20)` and are strictly positive. -/
theorem peak_designs_get_positive_q_and_gain (m : Libm ℝ) (hm : m.IsExact)
    (s : ChainSettings ℝ) (sampleRate : ℝ) (hs : s.InRange) :
    (makePeakFilter m s sampleRate
        = IIRmakePeakFilter m sampleRate s.peak1Freq s.peak1Quality
            (decibelsToGain m (s.peak1GainInDecibels - s.balance)) ∧
      makePeakFilter2 m s sampleRate
        = IIRmakePeakFilter m sampleRate (peak2Freq s sampleRate) s.peak1Quality
            (decibelsToGain m (s.peak1GainInDecibels + s.balance))) ∧
    (1 / 10 ≤ s.peak1Quality ∧ 0 < s.peak1Quality) ∧
    (-36 ≤ s.peak1GainInDecibels - s.balance ∧ s.peak1GainInDecibels - s.balance ≤ 36 ∧
      -36 ≤ s.peak1GainInDecibels + s.balance ∧ s.peak1GainInDecibels + s.balance ≤ 36) ∧
    (defaultMinusInfinitydB < s.peak1GainInDecibels - s.balance ∧
      defaultMinusInfinitydB < s.peak1GainInDecibels + s.balance) ∧
    ((10 : ℝ) ^ ((-36 : ℝ) / 20) ≤ decibelsToGain m (s.peak1GainInDecibels - s.balance) ∧
      decibelsToGain m (s.peak1GainInDecibels - s.balance) ≤ (10 : ℝ) ^ ((36 : ℝ) / 20) ∧
      (10 : ℝ) ^ ((-36 : ℝ) / 20) ≤ decibelsToGain m (s.peak1GainInDecibels + s.balance) ∧
      decibelsToGain m (s.peak1GainInDecibels + s.balance) ≤ (10 : ℝ) ^ ((36 : ℝ) / 20)) ∧
    (0 < decibelsToGain m (s.peak1GainInDecibels - s.balance) ∧
      0 < decibelsToGain m (s.peak1GainInDecibels + s.balance)) := by
  have h1 := hs.peak1Gain_lo
  have h2 := hs.peak1Gain_hi
  have h3 := hs.balance_lo
  have h4 := hs.balance_hi
  have hq := hs.peak1Quality_lo
  have e1 := decibelsToGain_exact m hm (s.peak1GainInDecibels - s.balance) (by linarith)
  have e2 := decibelsToGain_exact m hm (s.peak1GainInDecibels + s.balance) (by linarith)
  have h10 : (1 : ℝ) ≤ 10 := by norm_num
  refine ⟨⟨rfl, rfl⟩, ⟨hq, by linarith⟩, ⟨by linarith, by linarith, by linarith, by linarith⟩,
    ⟨?_, ?_⟩, ⟨?_, ?_, ?_, ?_⟩, ⟨?_, ?_⟩⟩
  · unfold defaultMinusInfinitydB
    linarith
  · unfold defaultMinusInfinitydB
    linarith
  · rw [e1]
    exact Real.rpow_le_rpow_of_exponent_le h10 (by linarith)
  · rw [e1]
    exact Real.rpow_le_rpow_of_exponent_le h10 (by linarith)
  · rw [e2]
    exact Real.rpow_le_rpow_of_exponent_le h10 (by linarith)
  · rw [e2]
    exact Real.rpow_le_rpow_of_exponent_le h10 (by linarith)
  · rw [e1]
    positivity
  · rw [e2]
    positivity

/-- C24 at the spread snapshot (`Peak1 Gain` +12 dB, `Balance` 12, `Peak1 Quality` 1) at
48 kHz: the dB gains are 0 and 24 and both gain factors are strictly positive. -/
theorem peak_designs_get_positive_q_and_gain_witness :
    (Libm.mk Real.rpow (Real.logb 10) Real.sqrt Real.sin Real.cos Real.pi).IsExact ∧
    (spreadSettings : ChainSettings ℝ).InRange ∧
    0 < (spreadSettings : ChainSettings ℝ).peak1Quality ∧
    0 < decibelsToGain (Libm.mk Real.rpow (Real.logb 10) Real.sqrt Real.sin Real.cos Real.pi)
      ((spreadSettings : ChainSettings ℝ).peak1GainInDecibels
        - (spreadSettings : ChainSettings ℝ).balance) ∧
    0 < decibelsToGain (Libm.mk Real.rpow (Real.logb 10) Real.sqrt Real.sin Real.cos Real.pi)
      ((spreadSettings : ChainSettings ℝ).peak1GainInDecibels
        + (spreadSettings : ChainSettings ℝ).balance) := by
  have hm : (Libm.mk Real.rpow (Real.logb 10) Real.sqrt Real.sin Real.cos Real.pi).IsExact :=
    ⟨rfl, rfl, rfl, rfl, rfl, rfl⟩
  have hs : (spreadSettings : ChainSettings ℝ).InRange := by
    constructor <;> norm_num [spreadSettings, ChainSettings.init]
  have key := peak_designs_get_positive_q_and_gain _ hm spreadSettings 48000 hs
  exact ⟨hm, hs, key.2.1.2, key.2.2.2.2.2.1, key.2.2.2.2.2.2⟩

end PositivityTheoremsReal

section PeakCentreTheorems

variable {K : Type} [LinearOrderedField K]

end PeakCentreTheorems

section PeakCentreTheoremsReal

end PeakCentreTheoremsReal

end SimpleDualFilter
